import Mathlib

/-! Verification of the quota ledger, the tokens, the sessions and the replicator

A shallow embedding of

* `shared/pkg/domain/user.go` (the `User` entity and its quota methods),
* `shared/pkg/events/events.go` and `universal_publisher.go` (events and their publisher),
* `services/auth/internal/infrastructure/auth/token_service.go` (token issuing and
  validation, password strength),
* `services/auth/internal/infrastructure/auth/session_manager.go`,
* `services/auth/internal/infrastructure/persistence/pg_session_repository.go` and
  `pg_user_repository.go`,
* `services/auth/internal/application/services/auth_service.go` (`Register`),
* `services/user/internal/infrastructre/persistence/pg_user_repository.go`,
* `services/user/internal/application/services/user_service.go` (`UpgradeToPro`),
* `services/user/internal/infrastructre/events/kafka_event_subs.go` (the event handlers).

Conventions of the embedding:

* a Go method with a pointer receiver that mutates its receiver becomes a function that
  returns the new receiver next to the returned `error`;
* a Go `error` result is an `Option GoError` (`none` is `nil`), a `(T, error)` result is an
  `Except GoError T`;
* Go `int` is the 64-bit two's complement integer: fields are `Int` and every arithmetic
  operation is wrapped by `wrapInt64`;
* every call of `time.Now()` is an explicit argument of type `Time` (one argument per call
  site), an instant counted in nanoseconds;
* the bytes delivered by `crypto/rand` are an explicit argument;
* a store or an event channel behind a Go interface is a state that is passed to the
  methods of the interface and returned by those that write;
* functions of libraries outside the repository (token encoding and MAC, JSON, UUID, time
  formats, bcrypt) are parameters, collected in `JWTCodec`, `JWTParser` and `GoLib`; the
  column mapping of the database handle, which is built outside the embedded files, is the
  parameter `SqlxHandle`;
* the theorems on the services range over every implementation of the repository
  interfaces; where a closed evaluation needs a repository that returns what was stored, it
  uses the in-memory stand-ins `memorySessionRepository` and `memoryUserRepository`.
-/

/-! ## Errors -/

/-- Go `error` values that the embedded code returns. The named constructors are the
package level sentinel errors, `New msg` is an `errors.New(msg)` made at the call site,
`Errorf msg inner` is a `fmt.Errorf(msg + ": %w", inner)`, `ValidationError errs` is a
`*jwt.ValidationError` of the token library with the bit field `Errors = errs`, and
`Panic msg` stands for a call that does not return because the Go runtime panics. -/
inductive GoError where
  | ErrQuotaExceeded
  | ErrSessionNotFound
  | ErrInvalidToken
  | ErrTokenExpired
  | ErrUserNotFound
  | New (msg : String)
  | Errorf (msg : String) (inner : GoError)
  | ValidationError (errs : Nat)
  | Panic (msg : String)
  deriving DecidableEq, Repr

deriving instance DecidableEq for Except

/-- An instant (`time.Time`), in nanoseconds. -/
abbrev Time := Int

/-- A `time.Duration`, in nanoseconds. -/
abbrev Duration := Int

/-- Two's complement wrap-around of a mathematical integer into the range of Go `int`
(64 bits). -/
def wrapInt64 (x : Int) : Int := (x + 2 ^ 63) % 2 ^ 64 - 2 ^ 63

/-- The values a Go `int` can hold. -/
def isInt64 (x : Int) : Prop := -(2 ^ 63) ≤ x ∧ x < 2 ^ 63

instance (x : Int) : Decidable (isInt64 x) := by
  unfold isInt64; exact inferInstance

namespace domain

/-! ## `shared/pkg/domain/user.go` -/

/-- Go `type UserTier string`. -/
abbrev UserTier := String

def UserTierFree : UserTier := "free"

def UserTierPro : UserTier := "pro"

/-- Go `uuid.UUID` (a 16 byte array), as the number the bytes spell. -/
abbrev UUID := Nat

structure User where
  ID : UUID
  Email : String
  PasswordHash : String
  FullName : String
  Tier : UserTier
  AIDescriptionQuotaUsed : Int
  AIDescriptionQuotaLimit : Int
  AIVideoQuotaUsed : Int
  AIVideoQuotaLimit : Int
  AutoPostingQuotaUsed : Int
  AutoPostingQuotaLimit : Int
  CreatedAt : Time
  UpdatedAt : Time
  deriving DecidableEq, Repr

namespace User

def CanGenerateAIDescription (u : User) : Bool :=
  decide (u.AIDescriptionQuotaUsed < u.AIDescriptionQuotaLimit)

def CanGenerateAIVideo (u : User) : Bool :=
  decide (u.AIVideoQuotaUsed < u.AIVideoQuotaLimit)

def CanAutoPost (u : User) : Bool :=
  decide (u.AutoPostingQuotaUsed < u.AutoPostingQuotaLimit)

def UseAIDescriptionQuota (u : User) (now : Time) : User × Option GoError :=
  if !u.CanGenerateAIDescription then
    (u, some GoError.ErrQuotaExceeded)
  else
    ({ u with
        AIDescriptionQuotaUsed := wrapInt64 (u.AIDescriptionQuotaUsed + 1)
        UpdatedAt := now }, none)

def UseAIVideoQuota (u : User) (now : Time) : User × Option GoError :=
  if !u.CanGenerateAIVideo then
    (u, some GoError.ErrQuotaExceeded)
  else
    ({ u with
        AIVideoQuotaUsed := wrapInt64 (u.AIVideoQuotaUsed + 1)
        UpdatedAt := now }, none)

def UseAutoPostingQuota (u : User) (now : Time) : User × Option GoError :=
  if !u.CanAutoPost then
    (u, some GoError.ErrQuotaExceeded)
  else
    ({ u with
        AutoPostingQuotaUsed := wrapInt64 (u.AutoPostingQuotaUsed + 1)
        UpdatedAt := now }, none)

def UpgradeToPro (u : User) (now : Time) : User :=
  { u with
      Tier := UserTierPro
      AIDescriptionQuotaLimit := 100
      AIVideoQuotaLimit := 10
      AutoPostingQuotaLimit := 1000
      UpdatedAt := now }

def ResetMonthlyQuotas (u : User) (now : Time) : User :=
  { u with
      AIDescriptionQuotaUsed := 0
      AIVideoQuotaUsed := 0
      AutoPostingQuotaUsed := 0
      UpdatedAt := now }

/-- Every `int` field of the struct holds a value of the Go type `int`. -/
def InRange (u : User) : Prop :=
  isInt64 u.AIDescriptionQuotaUsed ∧ isInt64 u.AIDescriptionQuotaLimit ∧
  isInt64 u.AIVideoQuotaUsed ∧ isInt64 u.AIVideoQuotaLimit ∧
  isInt64 u.AutoPostingQuotaUsed ∧ isInt64 u.AutoPostingQuotaLimit

instance (u : User) : Decidable u.InRange := by
  unfold InRange; exact inferInstance

end User

/-! ### Vocabulary for statements that range over the three quota kinds -/

/-- The three metered capabilities. -/
inductive QuotaKind where
  | aiDescription
  | aiVideo
  | autoPosting
  deriving DecidableEq, Repr

/-- The `...QuotaUsed` field of a kind. -/
def User.used (u : User) : QuotaKind → Int
  | .aiDescription => u.AIDescriptionQuotaUsed
  | .aiVideo => u.AIVideoQuotaUsed
  | .autoPosting => u.AutoPostingQuotaUsed

/-- The `...QuotaLimit` field of a kind. -/
def User.limit (u : User) : QuotaKind → Int
  | .aiDescription => u.AIDescriptionQuotaLimit
  | .aiVideo => u.AIVideoQuotaLimit
  | .autoPosting => u.AutoPostingQuotaLimit

/-- The `Can...` method of a kind. -/
def User.canUse (u : User) : QuotaKind → Bool
  | .aiDescription => u.CanGenerateAIDescription
  | .aiVideo => u.CanGenerateAIVideo
  | .autoPosting => u.CanAutoPost

/-- The `Use...Quota` method of a kind. -/
def User.useQuota (u : User) (k : QuotaKind) (now : Time) : User × Option GoError :=
  match k with
  | .aiDescription => u.UseAIDescriptionQuota now
  | .aiVideo => u.UseAIVideoQuota now
  | .autoPosting => u.UseAutoPostingQuota now

/-- The method of kind `k` called once per clock reading of `nows`, one call after the
other on the same `User`; the results are listed in call order. -/
def User.useQuotaSeq (k : QuotaKind) : User → List Time → User × List (Option GoError)
  | u, [] => (u, [])
  | u, now :: rest =>
    let r := u.useQuota k now
    let rs := User.useQuotaSeq k r.1 rest
    (rs.1, r.2 :: rs.2)

/-- The data invariant of the entity: `used ≤ limit` for the three kinds. -/
def User.QuotaInv (u : User) : Prop :=
  u.AIDescriptionQuotaUsed ≤ u.AIDescriptionQuotaLimit ∧
  u.AIVideoQuotaUsed ≤ u.AIVideoQuotaLimit ∧
  u.AutoPostingQuotaUsed ≤ u.AutoPostingQuotaLimit

instance (u : User) : Decidable u.QuotaInv := by
  unfold User.QuotaInv; exact inferInstance

/-- A free-tier user with description quota 5 of 5 used. -/
def sampleUser : User :=
  { ID := 1, Email := "a@example.com", PasswordHash := "h", FullName := "A", Tier := UserTierFree,
    AIDescriptionQuotaUsed := 5, AIDescriptionQuotaLimit := 5,
    AIVideoQuotaUsed := 0, AIVideoQuotaLimit := 0,
    AutoPostingQuotaUsed := 5, AutoPostingQuotaLimit := 5,
    CreatedAt := 10, UpdatedAt := 20 }

/-- A free-tier user with description quota 3 of 5 used. -/
def freeUser3 : User :=
  { sampleUser with AIDescriptionQuotaUsed := 3 }

/-- A user whose description quota (150 of 200) is above the pro limit of 100. -/
def bigQuotaUser : User :=
  { sampleUser with AIDescriptionQuotaUsed := 150, AIDescriptionQuotaLimit := 200 }

/-- A user whose description counters are negative (used -2, limit -1). -/
def negativeQuotaUser : User :=
  { sampleUser with AIDescriptionQuotaUsed := -2, AIDescriptionQuotaLimit := -1 }

end domain

namespace auth

/-! ## `services/auth/internal/infrastructure/auth/token_service.go` -/

structure TokenService where
  /-- Go `[]byte`: the bytes of the configured secret string. -/
  secretKey : String
  accessTokenExp : Duration
  refreshTokenExp : Duration
  deriving DecidableEq, Repr

structure TokenConfig where
  SecretKey : String
  AccessTokenExp : Duration
  RefreshTokenExp : Duration
  deriving DecidableEq, Repr

def NewTokenService (cfg : TokenConfig) : TokenService :=
  { secretKey := cfg.SecretKey
    accessTokenExp := cfg.AccessTokenExp
    refreshTokenExp := cfg.RefreshTokenExp }

/-- The fields of `jwt.RegisteredClaims` that the service sets or that the library reads
when it validates a claim set; the three dates are pointers in Go (`none` is `nil`). The
fields `Audience` and `ID`, which no embedded code reads, are left out. -/
structure RegisteredClaims where
  ExpiresAt : Option Time
  IssuedAt : Option Time
  NotBefore : Option Time
  Issuer : String
  Subject : String
  deriving DecidableEq, Repr

structure Claims where
  UserID : String
  Email : String
  SessionID : String
  RegisteredClaims : RegisteredClaims
  deriving DecidableEq, Repr

structure TokenPair where
  AccessToken : String
  RefreshToken : String
  TokenType : String
  ExpiresIn : Int
  deriving DecidableEq, Repr

/-- The two functions of the token library that lie outside the repository: the encoding of
a claim set as the second segment of a compact token (base64url of its JSON form) and the
third segment (base64url of the HMAC-SHA256 of the signing string under a key). -/
structure JWTCodec where
  encodeClaims : Claims → String
  signHS256 : String → String → String

/-- The first segment of every token signed with `jwt.SigningMethodHS256`: base64url of the
JSON header with the members `"alg":"HS256"` and `"typ":"JWT"`. -/
def hs256Header : String := "eyJhbGciOiJIUzI1NiIsInR5cCI6IkpXVCJ9"

/-- Go `Token.SigningString`: header segment, a dot, claims segment. -/
def SigningString (lib : JWTCodec) (claims : Claims) : String :=
  hs256Header ++ "." ++ lib.encodeClaims claims

/-- Go `Token.SignedString` for HS256 with a `[]byte` key: signing string, a dot, signature
segment; signing with a byte key does not fail. -/
def SignedString (lib : JWTCodec) (key : String) (claims : Claims) : Except GoError String :=
  .ok (SigningString lib claims ++ "." ++ lib.signHS256 key (SigningString lib claims))

/-- Go `jwt.NewNumericDate`: the instant truncated to `jwt.TimePrecision`, one second. -/
def NewNumericDate (t : Time) : Time := t - t % 1000000000

/-- Go `hextable[n]` for a nibble `n`. -/
def hexDigit (n : Nat) : Char := "0123456789abcdef".toList.getD n '0'

/-- The characters of Go `hex.EncodeToString`: two digits per byte, high nibble first. -/
def hexChars : List Nat → List Char
  | [] => []
  | b :: bs => hexDigit (b % 256 / 16) :: hexDigit (b % 16) :: hexChars bs

def hexEncodeToString (bytes : List Nat) : String := String.mk (hexChars bytes)

/-- Go `generateSecureToken`. `rnd` is what `crypto/rand` delivers: `rand.Read` fills the
`length` bytes from it and fails when it delivers fewer. -/
def generateSecureToken (rnd : List Nat) (length : Nat) : Except GoError String :=
  if rnd.length < length then
    .error (GoError.New "crypto/rand: read failed")
  else
    .ok (hexEncodeToString (rnd.take length))

namespace TokenService

/-- Go `generateAccessToken`; `nowExp` and `nowIat` are its two readings of `time.Now()`. -/
def generateAccessToken (s : TokenService) (lib : JWTCodec) (nowExp nowIat : Time)
    (userID email sessionID : String) : Except GoError String :=
  let claims : Claims :=
    { UserID := userID
      Email := email
      SessionID := sessionID
      RegisteredClaims :=
        { ExpiresAt := some (NewNumericDate (nowExp + s.accessTokenExp))
          IssuedAt := some (NewNumericDate nowIat)
          NotBefore := none
          Issuer := "smm-platform"
          Subject := userID } }
  SignedString lib s.secretKey claims

/-- Go `generateRefreshToken`; `nowExp` and `nowIat` are its two readings of `time.Now()`. -/
def generateRefreshToken (s : TokenService) (lib : JWTCodec) (nowExp nowIat : Time)
    (userID email sessionID : String) : Except GoError String :=
  let claims : Claims :=
    { UserID := userID
      Email := email
      SessionID := sessionID
      RegisteredClaims :=
        { ExpiresAt := some (NewNumericDate (nowExp + s.refreshTokenExp))
          IssuedAt := some (NewNumericDate nowIat)
          NotBefore := none
          Issuer := "smm-platform"
          Subject := userID } }
  SignedString lib s.secretKey claims

end TokenService

/-- The readings of `time.Now()` during one `GenerateTokenPair`, in call order. -/
structure TokenClock where
  accessExp : Time
  accessIat : Time
  refreshExp : Time
  refreshIat : Time
  deriving DecidableEq, Repr

/-- Go `GenerateTokenPair`. `ExpiresIn` is `int64(accessTokenExp.Seconds())`, the whole
seconds of the lifetime (lifetimes are configured in whole seconds). -/
def TokenService.GenerateTokenPair (s : TokenService) (lib : JWTCodec) (rnd : List Nat)
    (clock : TokenClock) (userID email : String) : Except GoError TokenPair :=
  match generateSecureToken rnd 32 with
  | .error err => .error err
  | .ok sessionID =>
    match s.generateAccessToken lib clock.accessExp clock.accessIat userID email sessionID with
    | .error err => .error err
    | .ok accessToken =>
      match s.generateRefreshToken lib clock.refreshExp clock.refreshIat userID email
          sessionID with
      | .error err => .error err
      | .ok refreshToken =>
        .ok { AccessToken := accessToken
              RefreshToken := refreshToken
              TokenType := "Bearer"
              ExpiresIn := Int.tdiv s.accessTokenExp 1000000000 }

/-! ### Token validation

`validateToken` hands the token string to `jwt.ParseWithClaims` of the library
`github.com/golang-jwt/jwt/v4`. The control flow of that function and of
`RegisteredClaims.Valid` is embedded below; the two steps that depend on the wire format and
on the MAC (`Parser.ParseUnverified` and `SigningMethod.Verify`) are parameters. -/

/-- The claim set that `generateAccessToken` signs. -/
def TokenService.accessClaims (s : TokenService) (nowExp nowIat : Time)
    (userID email sessionID : String) : Claims :=
  { UserID := userID
    Email := email
    SessionID := sessionID
    RegisteredClaims :=
      { ExpiresAt := some (NewNumericDate (nowExp + s.accessTokenExp))
        IssuedAt := some (NewNumericDate nowIat)
        NotBefore := none
        Issuer := "smm-platform"
        Subject := userID } }

/-- The claim set that `generateRefreshToken` signs. -/
def TokenService.refreshClaims (s : TokenService) (nowExp nowIat : Time)
    (userID email sessionID : String) : Claims :=
  { UserID := userID
    Email := email
    SessionID := sessionID
    RegisteredClaims :=
      { ExpiresAt := some (NewNumericDate (nowExp + s.refreshTokenExp))
        IssuedAt := some (NewNumericDate nowIat)
        NotBefore := none
        Issuer := "smm-platform"
        Subject := userID } }

/-- Go `jwt.ValidationErrorMalformed`. -/
def ValidationErrorMalformed : Nat := 1

/-- Go `jwt.ValidationErrorUnverifiable`. -/
def ValidationErrorUnverifiable : Nat := 2

/-- Go `jwt.ValidationErrorSignatureInvalid`. -/
def ValidationErrorSignatureInvalid : Nat := 4

/-- Go `jwt.ValidationErrorExpired`. -/
def ValidationErrorExpired : Nat := 16

/-- Go `jwt.ValidationErrorIssuedAt`. -/
def ValidationErrorIssuedAt : Nat := 32

/-- Go `jwt.ValidationErrorNotValidYet`. -/
def ValidationErrorNotValidYet : Nat := 128

/-- Go `jwt.ValidationErrorClaimsInvalid`. -/
def ValidationErrorClaimsInvalid : Nat := 512

namespace RegisteredClaims

/-- Go `VerifyExpiresAt(cmp, req)`: `cmp.Before(exp)`, and `!req` for a `nil` date. -/
def VerifyExpiresAt (c : RegisteredClaims) (cmp : Time) (req : Bool) : Bool :=
  match c.ExpiresAt with
  | none => !req
  | some exp => decide (cmp < exp)

/-- Go `VerifyIssuedAt(cmp, req)`: `cmp.After(iat) || cmp.Equal(iat)`. -/
def VerifyIssuedAt (c : RegisteredClaims) (cmp : Time) (req : Bool) : Bool :=
  match c.IssuedAt with
  | none => !req
  | some iat => decide (iat ≤ cmp)

/-- Go `VerifyNotBefore(cmp, req)`: `cmp.After(nbf) || cmp.Equal(nbf)`. -/
def VerifyNotBefore (c : RegisteredClaims) (cmp : Time) (req : Bool) : Bool :=
  match c.NotBefore with
  | none => !req
  | some nbf => decide (nbf ≤ cmp)

/-- The bit field `vErr.Errors` that `Valid` builds; `now` is its reading of `TimeFunc()`. -/
def validationErrors (c : RegisteredClaims) (now : Time) : Nat :=
  (if c.VerifyExpiresAt now false then 0 else ValidationErrorExpired) |||
  (if c.VerifyIssuedAt now false then 0 else ValidationErrorIssuedAt) |||
  (if c.VerifyNotBefore now false then 0 else ValidationErrorNotValidYet)

/-- Go `RegisteredClaims.Valid`, which `Claims` inherits by embedding. -/
def Valid (c : RegisteredClaims) (now : Time) : Option GoError :=
  if c.validationErrors now = 0 then none
  else some (GoError.ValidationError (c.validationErrors now))

end RegisteredClaims

/-- What `Parser.ParseUnverified` returns for a well-formed token string: the name of the
registered signing method that the header field `alg` selects, the decoded claim set, and
the parts of the string (the first two segments joined by a dot, and the third). -/
structure ParsedToken where
  Method : String
  Claims : Claims
  SigningString : String
  Signature : String
  deriving DecidableEq, Repr

/-- The token library `github.com/golang-jwt/jwt/v4` as far as it is a parameter.
`ParseUnverified` splits and decodes a token string (an error for a malformed string or an
unregistered `alg`); `Verify alg signingString signature key` tells whether the `Verify`
method of the signing method `alg` returns `nil`. The sources pin no version of the library:
`signatureFirst` tells whether `ParseWithClaims` verifies the signature before it validates
the claims and returns at once when the signature is refused (v4.5.1 and later), or
validates the claims first and adds the signature flag to their flags (up to v4.5.0). -/
structure JWTParser where
  ParseUnverified : String → Except GoError ParsedToken
  Verify : String → String → String → String → Bool
  signatureFirst : Bool := false

/-- Go `jwt.Token` as far as the embedded code reads it. -/
structure Token where
  Method : String
  Claims : Claims
  Signature : String
  Valid : Bool
  deriving DecidableEq, Repr

/-- The type assertion `token.Method.(*jwt.SigningMethodHMAC)`: the registered methods of
that type are `HS256`, `HS384` and `HS512`. -/
def isSigningMethodHMAC (alg : String) : Bool :=
  alg == "HS256" || alg == "HS384" || alg == "HS512"

/-- Go `jwt.ParseWithClaims` with the default parser: parse, ask `keyFunc` for the key,
validate the claims at the clock reading `now` and verify the signature, in the order of the
library version, and return the token with `Valid = true` only when no error flag is set. -/
def ParseWithClaims (P : JWTParser) (now : Time) (tokenString : String)
    (keyFunc : Token → Except GoError String) : Except GoError Token :=
  match P.ParseUnverified tokenString with
  | .error err => .error err
  | .ok parsed =>
    let token : Token :=
      { Method := parsed.Method, Claims := parsed.Claims, Signature := "", Valid := false }
    match keyFunc token with
    | .error _ => .error (GoError.ValidationError ValidationErrorUnverifiable)
    | .ok key =>
      let claimErrs : Nat :=
        match token.Claims.RegisteredClaims.Valid now with
        | none => 0
        | some (GoError.ValidationError errs) => errs
        | some _ => ValidationErrorClaimsInvalid
      if P.signatureFirst then
        if !P.Verify parsed.Method parsed.SigningString parsed.Signature key then
          .error (GoError.ValidationError ValidationErrorSignatureInvalid)
        else if claimErrs = 0 then
          .ok { token with Signature := parsed.Signature, Valid := true }
        else
          .error (GoError.ValidationError claimErrs)
      else
        let errs : Nat :=
          if P.Verify parsed.Method parsed.SigningString parsed.Signature key then claimErrs
          else claimErrs ||| ValidationErrorSignatureInvalid
        if errs = 0 then
          .ok { token with Signature := parsed.Signature, Valid := true }
        else
          .error (GoError.ValidationError errs)

/-- Go `Time.Sub`: the difference as a `Duration`, saturated at the ends of `int64`. -/
def timeSub (t u : Time) : Duration :=
  max (-(2 ^ 63)) (min (2 ^ 63 - 1) (t - u))

namespace TokenService

/-- The key function that `validateToken` passes to the library. -/
def keyFunc (s : TokenService) (token : Token) : Except GoError String :=
  if !isSigningMethodHMAC token.Method then
    .error (GoError.New ("unexpected signing method: " ++ token.Method))
  else
    .ok s.secretKey

/-- Go `validateToken`. `nowValid` is the clock reading of the claim validation inside the
library, `nowUntil` the reading of `time.Until` in the token type check. The expression
`claims.ExpiresAt.Time` panics on a `nil` date. -/
def validateToken (s : TokenService) (P : JWTParser) (nowValid nowUntil : Time)
    (tokenString tokenType : String) : Except GoError Claims :=
  match ParseWithClaims P nowValid tokenString s.keyFunc with
  | .error err => .error err
  | .ok token =>
    if token.Valid then
      if tokenType == "access" then
        match token.Claims.RegisteredClaims.ExpiresAt with
        | none => .error (GoError.Panic "nil pointer dereference")
        | some exp =>
          if timeSub exp nowUntil > s.refreshTokenExp then
            .error (GoError.New "invalid token type")
          else
            .ok token.Claims
      else
        .ok token.Claims
    else
      .error (GoError.New "invalid token")

def ValidateAccessToken (s : TokenService) (P : JWTParser) (nowValid nowUntil : Time)
    (tokenString : String) : Except GoError Claims :=
  s.validateToken P nowValid nowUntil tokenString "access"

def ValidateRefreshToken (s : TokenService) (P : JWTParser) (nowValid nowUntil : Time)
    (tokenString : String) : Except GoError Claims :=
  s.validateToken P nowValid nowUntil tokenString "refresh"

end TokenService

/-! ## `services/auth/internal/infrastructure/auth/session_manager.go` -/

structure Session where
  ID : String
  UserID : String
  RefreshToken : String
  UserAgent : String
  IPAddress : String
  ExpiresAt : Time
  CreatedAt : Time
  deriving DecidableEq, Repr

/-- Go `interface SessionRepository`, over a store state `σ`: a writing method returns the
new state of the store next to its `error`, a reading method only its result. -/
structure SessionRepository (σ : Type) where
  Create : σ → Session → σ × Option GoError
  GetByID : σ → String → Except GoError Session
  Delete : σ → String → σ × Option GoError
  DeleteByUserID : σ → String → σ × Option GoError
  ListByUserID : σ → String → Except GoError (List Session)

structure SessionManager (σ : Type) where
  repo : SessionRepository σ
  tokenService : TokenService
  sessionExpiry : Duration

def NewSessionManager {σ : Type} (repo : SessionRepository σ) (tokenService : TokenService)
    (sessionExpiry : Duration) : SessionManager σ :=
  { repo := repo, tokenService := tokenService, sessionExpiry := sessionExpiry }

namespace SessionManager

variable {σ : Type}

/-- Go `CreateSession`. `clock` holds the clock readings of the token service, `nowExpires`
and `nowCreated` are the two readings of `time.Now()` for `ExpiresAt` and `CreatedAt`. -/
def CreateSession (sm : SessionManager σ) (lib : JWTCodec) (db : σ) (rnd : List Nat)
    (clock : TokenClock) (nowExpires nowCreated : Time) (userID userAgent ipAddress : String) :
    σ × Except GoError (Session × TokenPair) :=
  match sm.tokenService.GenerateTokenPair lib rnd clock userID "" with
  | .error err => (db, .error err)
  | .ok tokenPair =>
    let session : Session :=
      { ID := tokenPair.AccessToken
        UserID := userID
        RefreshToken := tokenPair.RefreshToken
        UserAgent := userAgent
        IPAddress := ipAddress
        ExpiresAt := nowExpires + sm.sessionExpiry
        CreatedAt := nowCreated }
    match sm.repo.Create db session with
    | (db1, some err) => (db1, .error err)
    | (db1, none) => (db1, .ok (session, tokenPair))

/-- Go `ValidateSession`; `now` is its reading of `time.Now()`. The `error` of the `Delete`
call is dropped, as in the source. -/
def ValidateSession (sm : SessionManager σ) (db : σ) (now : Time) (sessionID : String) :
    σ × Except GoError Session :=
  match sm.repo.GetByID db sessionID with
  | .error err => (db, .error err)
  | .ok session =>
    if now > session.ExpiresAt then
      ((sm.repo.Delete db sessionID).1, .error (GoError.New "session expired"))
    else
      (db, .ok session)

/-- Go `RefreshSession`. It makes no call of the repository, so the store is no argument;
`nowValid` and `nowUntil` are the clock readings of the token validation, `rnd` and `clock`
those of the new token pair. -/
def RefreshSession (sm : SessionManager σ) (lib : JWTCodec) (P : JWTParser) (rnd : List Nat)
    (clock : TokenClock) (nowValid nowUntil : Time) (refreshToken : String) :
    Except GoError TokenPair :=
  match sm.tokenService.ValidateRefreshToken P nowValid nowUntil refreshToken with
  | .error err => .error err
  | .ok claims => sm.tokenService.GenerateTokenPair lib rnd clock claims.UserID claims.Email

def RevokeSession (sm : SessionManager σ) (db : σ) (sessionID : String) :
    σ × Option GoError :=
  sm.repo.Delete db sessionID

def RevokeAllUserSessions (sm : SessionManager σ) (db : σ) (userID : String) :
    σ × Option GoError :=
  sm.repo.DeleteByUserID db userID

def ListByUserID (sm : SessionManager σ) (db : σ) (userID : String) :
    Except GoError (List Session) :=
  sm.repo.ListByUserID db userID

end SessionManager

end auth

/-! ## The `sqlx` handle

The repositories of both services read with `GetContext` and `SelectContext` of a `*sqlx.DB`
handle. The handle is built by `database.NewPostgresConnection` of `shared/pkg/database`,
which is not part of the sources; the part of it that the reads depend on is a parameter: the
name under which its mapper files a struct field. The structs that the repositories read into
(`auth.Session`, `domain.User`) carry `json` tags and no `db` tag, so the mapper applies its
name function to the Go field name. -/

/-- A `*sqlx.DB` handle, as far as `GetContext` and `SelectContext` depend on it:
`nameMapper` is the name function of `db.Mapper`, from a Go field name to a column name. -/
structure SqlxHandle where
  nameMapper : String → String

namespace SqlxHandle

/-- The check that `GetContext` and `SelectContext` make before they read a row (sqlx
`missingFields`): the first selected column for which the destination struct has no field
gives the error `missing destination name`. `fields` are the Go field names of the struct,
`columns` the selected columns in their order, `dest` the text of `%T` of the destination. -/
def scanError (h : SqlxHandle) (fields columns : List String) (dest : String) :
    Option GoError :=
  match columns.find? (fun c => !(fields.map h.nameMapper).contains c) with
  | some c => some (GoError.New ("missing destination name " ++ c ++ " in " ++ dest))
  | none => none

end SqlxHandle

/-- Go `strings.ToLower` on ASCII letters, the name function `sqlx.NameMapper` of a handle on
which no mapper was set. -/
def asciiToLower (s : String) : String := String.mk (s.toList.map Char.toLower)

/-- The handle that `sqlx.Open`, `sqlx.Connect` and `sqlx.NewDb` build when no mapper is set
on it afterwards. -/
def sqlxDefaultHandle : SqlxHandle := { nameMapper := asciiToLower }

namespace auth

/-- The Go field names of `Session`. -/
def Session.fieldNames : List String :=
  ["ID", "UserID", "RefreshToken", "UserAgent", "IPAddress", "ExpiresAt", "CreatedAt"]

end auth

namespace persistence

open auth

/-! ## `services/auth/internal/infrastructure/persistence/pg_session_repository.go`

The table `sessions` is the list of its rows in insertion order. Its schema is not part of
the sources: whether `id` carries a uniqueness constraint is the parameter `uniqueID`. The
statements are taken to reach the database (no connection failure). -/

abbrev SessionsTable := List Session

/-- The columns that `GetByID` and `ListByUserID` select. -/
def sessionColumns : List String :=
  ["id", "user_id", "refresh_token", "user_agent", "ip_address", "expires_at", "created_at"]

namespace PostgresSessionRepository

/-- The statement `INSERT INTO sessions (...) VALUES (...)`. -/
def Create (uniqueID : Bool) (db : SessionsTable) (session : Session) :
    SessionsTable × Option GoError :=
  if uniqueID && db.any (fun row => row.ID == session.ID) then
    (db, some (GoError.New "pq: duplicate key value violates unique constraint"))
  else
    (db ++ [session], none)

/-- The query `SELECT ... FROM sessions WHERE id = $1` read with `GetContext` into an
`auth.Session`: the error of the column check of the handle `h`, if any; else the first row
of the result, and `ErrSessionNotFound` for `sql.ErrNoRows` when there is no row. -/
def GetByID (h : SqlxHandle) (db : SessionsTable) (sessionID : String) :
    Except GoError Session :=
  match h.scanError Session.fieldNames sessionColumns "*auth.Session" with
  | some err => .error err
  | none =>
    match db.find? (fun row => row.ID == sessionID) with
    | none => .error GoError.ErrSessionNotFound
    | some session => .ok session

/-- The statement `DELETE FROM sessions WHERE id = $1`. -/
def Delete (db : SessionsTable) (sessionID : String) : SessionsTable × Option GoError :=
  (db.filter (fun row => !(row.ID == sessionID)), none)

/-- The statement `DELETE FROM sessions WHERE user_id = $1`. -/
def DeleteByUserID (db : SessionsTable) (userID : String) : SessionsTable × Option GoError :=
  (db.filter (fun row => !(row.UserID == userID)), none)

/-- The query `SELECT ... FROM sessions WHERE user_id = $1` read with `SelectContext` into a
`[]*auth.Session`, after the column check of the handle `h`. -/
def ListByUserID (h : SqlxHandle) (db : SessionsTable) (userID : String) :
    Except GoError (List Session) :=
  match h.scanError Session.fieldNames sessionColumns "*[]*auth.Session" with
  | some err => .error err
  | none => .ok (db.filter (fun row => row.UserID == userID))

end PostgresSessionRepository

/-- The Postgres repository on the handle `h` as a `SessionRepository`. -/
def NewPostgresSessionRepository (h : SqlxHandle) (uniqueID : Bool) :
    SessionRepository SessionsTable :=
  { Create := PostgresSessionRepository.Create uniqueID
    GetByID := PostgresSessionRepository.GetByID h
    Delete := PostgresSessionRepository.Delete
    DeleteByUserID := PostgresSessionRepository.DeleteByUserID
    ListByUserID := PostgresSessionRepository.ListByUserID h }

/-- A session manager wired to the Postgres repository, as `cmd/main.go` does. -/
def pgManager (h : SqlxHandle) (uniqueID : Bool) (tokenService : TokenService)
    (sessionExpiry : Duration) : SessionManager SessionsTable :=
  NewSessionManager (NewPostgresSessionRepository h uniqueID) tokenService sessionExpiry

/-- A stand-in `SessionRepository` that keeps the sessions in a list and reads them back as
they were stored, to evaluate the session manager at concrete inputs. -/
def memorySessionRepository : SessionRepository (List Session) :=
  { Create := fun db session => (db ++ [session], none)
    GetByID := fun db sessionID =>
      match db.find? (fun row => row.ID == sessionID) with
      | none => .error GoError.ErrSessionNotFound
      | some session => .ok session
    Delete := fun db sessionID => (db.filter (fun row => !(row.ID == sessionID)), none)
    DeleteByUserID := fun db userID => (db.filter (fun row => !(row.UserID == userID)), none)
    ListByUserID := fun db userID => .ok (db.filter (fun row => row.UserID == userID)) }

end persistence

/-! ## Concrete data for evaluating the session code -/

namespace auth

/-- A stand-in for the two library functions, to evaluate the code at concrete inputs; the
general theorems range over every `JWTCodec`. -/
def plainCodec : JWTCodec :=
  { encodeClaims := fun c => c.UserID ++ "," ++ c.Email ++ "," ++ c.SessionID
    signHS256 := fun key _ => "mac-" ++ key }

/-- The token service of `cmd/main.go`, lifetimes 15 minutes and 7 days, with secret `k`. -/
def sampleTokenService : TokenService :=
  { secretKey := "k"
    accessTokenExp := 900000000000
    refreshTokenExp := 604800000000000 }

/-- The session manager of `cmd/main.go` (session lifetime 24 hours) on the Postgres
repository, with a handle on which no mapper was set. -/
def sampleManager : SessionManager persistence.SessionsTable :=
  persistence.pgManager sqlxDefaultHandle true sampleTokenService 86400000000000

/-- The session manager of `cmd/main.go` on the in-memory stand-in repository. -/
def memoryManager : SessionManager (List Session) :=
  NewSessionManager persistence.memorySessionRepository sampleTokenService 86400000000000

/-- Thirty-two random bytes. -/
def sampleRnd : List Nat := List.replicate 32 171

def sampleClock : TokenClock :=
  { accessExp := 1000, accessIat := 1001, refreshExp := 1002, refreshIat := 1003 }

/-- The identifier that `generateSecureToken` makes of `sampleRnd`. -/
def sampleSessionID : String :=
  "abababababababababababababababababababababababababababababababab"

/-- The login of user `u1` on an empty store, clock readings 1000 to 1005. -/
def sampleCreate : persistence.SessionsTable × Except GoError (Session × TokenPair) :=
  sampleManager.CreateSession plainCodec [] sampleRnd sampleClock 1004 1005 "u1" "ua" "ip"

/-- The same login on the in-memory stand-in repository. -/
def memoryCreate : List Session × Except GoError (Session × TokenPair) :=
  memoryManager.CreateSession plainCodec [] sampleRnd sampleClock 1004 1005 "u1" "ua" "ip"

/-- A login on the in-memory stand-in repository in which the clock reading for `CreatedAt`
(1100) is 96 nanoseconds later than the one for `ExpiresAt` (1004). -/
def lateCreate : List Session × Except GoError (Session × TokenPair) :=
  memoryManager.CreateSession plainCodec [] sampleRnd sampleClock 1004 1100 "u1" "ua" "ip"

/-- A stored session of user `u1` that expires at instant 100. -/
def sessionA : Session :=
  { ID := "tok-a", UserID := "u1", RefreshToken := "ref-a", UserAgent := "ua", IPAddress := "ip",
    ExpiresAt := 100, CreatedAt := 50 }

/-- A stored session of user `u2`. -/
def sessionB : Session :=
  { ID := "tok-b", UserID := "u2", RefreshToken := "ref-b", UserAgent := "ua", IPAddress := "ip",
    ExpiresAt := 200, CreatedAt := 60 }

end auth

/-! ## The calls of the session manager as a transition system -/

namespace auth

/-- One call of the session manager other than `CreateSession`, with the inputs it reads. -/
inductive SessionOp where
  | validateSession (now : Time) (sessionID : String)
  | refreshSession (lib : JWTCodec) (P : JWTParser) (rnd : List Nat) (clock : TokenClock)
      (nowValid nowUntil : Time) (refreshToken : String)
  | revokeSession (sessionID : String)
  | revokeAllUserSessions (userID : String)

/-- What a call of the session manager returns. -/
inductive SessionResult where
  | session (r : Except GoError Session)
  | tokens (r : Except GoError TokenPair)
  | status (r : Option GoError)

namespace SessionManager

variable {σ : Type}

/-- The store after one call, and what the call returns. -/
def step (sm : SessionManager σ) (db : σ) : SessionOp → σ × SessionResult
  | .validateSession now sessionID =>
    ((sm.ValidateSession db now sessionID).1, .session (sm.ValidateSession db now sessionID).2)
  | .refreshSession lib P rnd clock nowValid nowUntil refreshToken =>
    (db, .tokens (sm.RefreshSession lib P rnd clock nowValid nowUntil refreshToken))
  | .revokeSession sessionID =>
    ((sm.RevokeSession db sessionID).1, .status (sm.RevokeSession db sessionID).2)
  | .revokeAllUserSessions userID =>
    ((sm.RevokeAllUserSessions db userID).1, .status (sm.RevokeAllUserSessions db userID).2)

/-- The store after a sequence of calls, made one after the other. -/
def run (sm : SessionManager σ) : σ → List SessionOp → σ
  | db, [] => db
  | db, op :: ops => run sm (sm.step db op).1 ops

end SessionManager

end auth

/-! ## Vocabulary and concrete data for token validation -/

namespace auth

/-- The token string that `SignedString` makes of a claim set. -/
def tokenString (lib : JWTCodec) (key : String) (claims : Claims) : String :=
  SigningString lib claims ++ "." ++ lib.signHS256 key (SigningString lib claims)

/-- What the library reads back from `tokenString lib key claims`: method `HS256`, the claim
set, and the two parts of the string. -/
def readBack (lib : JWTCodec) (key : String) (claims : Claims) : ParsedToken :=
  { Method := "HS256"
    Claims := claims
    SigningString := SigningString lib claims
    Signature := lib.signHS256 key (SigningString lib claims) }

/-- The parser decodes the token that was signed over `claims` with `key`. -/
def JWTParser.ReadsBack (P : JWTParser) (lib : JWTCodec) (key : String) (claims : Claims) :
    Prop :=
  P.ParseUnverified (tokenString lib key claims) = .ok (readBack lib key claims)

/-- The HS256 check of the parser accepts, under `key`, the signature that the codec makes
with the same `key`. -/
def JWTParser.VerifiesOwn (P : JWTParser) (lib : JWTCodec) (key : String) (claims : Claims) :
    Prop :=
  P.Verify "HS256" (SigningString lib claims)
    (lib.signHS256 key (SigningString lib claims)) key = true

instance (P : JWTParser) (lib : JWTCodec) (key : String) (claims : Claims) :
    Decidable (P.ReadsBack lib key claims) := by
  unfold JWTParser.ReadsBack; exact inferInstance

instance (P : JWTParser) (lib : JWTCodec) (key : String) (claims : Claims) :
    Decidable (P.VerifiesOwn lib key claims) := by
  unfold JWTParser.VerifiesOwn; exact inferInstance

/-- A stand-in codec that writes the three custom claims and the two dates, to evaluate the
validation code at concrete inputs. -/
def datedCodec : JWTCodec :=
  { encodeClaims := fun c =>
      c.UserID ++ "," ++ c.Email ++ "," ++ c.SessionID ++ "," ++
        toString (c.RegisteredClaims.ExpiresAt.getD 0) ++ "," ++
        toString (c.RegisteredClaims.IssuedAt.getD 0)
    signHS256 := fun key _ => "mac-" ++ key }

/-- A stand-in parser that decodes the listed token strings and no other; its HS256 check
compares with the signature of the codec, its HS384 and HS512 checks with a fixed text made
of the key. -/
def tableParser (lib : JWTCodec) (table : List (String × ParsedToken)) : JWTParser :=
  { ParseUnverified := fun tok =>
      match table.find? (fun e => e.1 == tok) with
      | some e => .ok e.2
      | none => .error (GoError.ValidationError ValidationErrorMalformed)
    Verify := fun alg signingString signature key =>
      (alg == "HS256" && signature == lib.signHS256 key signingString) ||
      (alg == "HS384" && signature == "mac384-" ++ key) ||
      (alg == "HS512" && signature == "mac512-" ++ key) }

end auth

namespace auth

/-- The pair that `sampleTokenService` issues for user `u1` at the readings of `sampleClock`
with the stand-in codec `datedCodec`. -/
def samplePair : Except GoError TokenPair :=
  sampleTokenService.GenerateTokenPair datedCodec sampleRnd sampleClock "u1" "a@example.com"

/-- The claim set of the access token of `samplePair`: expiry at 900 s, issued at 0 s. -/
def sampleAccessClaims : Claims :=
  sampleTokenService.accessClaims 1000 1001 "u1" "a@example.com" sampleSessionID

/-- The claim set of the refresh token of `samplePair`: expiry at 604800 s, issued at 0 s. -/
def sampleRefreshClaims : Claims :=
  sampleTokenService.refreshClaims 1002 1003 "u1" "a@example.com" sampleSessionID

def sampleAccessToken : String := tokenString datedCodec "k" sampleAccessClaims

def sampleRefreshToken : String := tokenString datedCodec "k" sampleRefreshClaims

/-- A token string whose header names `HS384` and whose signature passes the HS384 check
under the secret `k`, with the claim set of `sampleAccessClaims`. -/
def sampleHS384Token : String := "hs384-header.claims.mac384-k"

/-- A token string whose header names `HS512` and whose signature passes the HS512 check
under the secret `k`, with the claim set of `sampleAccessClaims`. -/
def sampleHS512Token : String := "hs512-header.claims.mac512-k"

/-- A token string whose header names `none`, with the claim set of `sampleAccessClaims` and
an empty signature. -/
def sampleNoneToken : String := "none-header.claims."

/-- The token service of `cmd/main.go` with another secret. -/
def otherKeyService : TokenService :=
  { sampleTokenService with secretKey := "k2" }

/-- A token service whose access lifetime (15 minutes) is longer than its refresh lifetime
(one minute). -/
def shortRefreshService : TokenService :=
  { sampleTokenService with refreshTokenExp := 60000000000 }

/-- The parser that decodes the sample tokens. -/
def sampleParser : JWTParser :=
  tableParser datedCodec
    [(sampleAccessToken, readBack datedCodec "k" sampleAccessClaims),
     (sampleRefreshToken, readBack datedCodec "k" sampleRefreshClaims),
     (sampleHS384Token,
       { Method := "HS384", Claims := sampleAccessClaims,
         SigningString := "hs384-header.claims", Signature := "mac384-k" }),
     (sampleNoneToken,
       { Method := "none", Claims := sampleAccessClaims,
         SigningString := "none-header.claims", Signature := "" }),
     (sampleHS512Token,
       { Method := "HS512", Claims := sampleAccessClaims,
         SigningString := "hs512-header.claims", Signature := "mac512-k" })]

end auth

/-! ## `shared/pkg/domain/user.go`: quota report -/

namespace domain

structure Quota where
  Used : Int
  Limit : Int
  deriving DecidableEq, Repr

structure QuotaInfo where
  AIDescription : Quota
  AIVideo : Quota
  AutoPosting : Quota
  deriving DecidableEq, Repr

def User.GetQuotaInfo (u : User) : QuotaInfo :=
  { AIDescription := { Used := u.AIDescriptionQuotaUsed, Limit := u.AIDescriptionQuotaLimit }
    AIVideo := { Used := u.AIVideoQuotaUsed, Limit := u.AIVideoQuotaLimit }
    AutoPosting := { Used := u.AutoPostingQuotaUsed, Limit := u.AutoPostingQuotaLimit } }

end domain

/-! ## Values of the Go type `interface{}` -/

/-- The dynamic values that the embedded code passes as `interface{}`: a string, a
`domain.UserTier`, a `*domain.User`, a `domain.QuotaInfo`, a `map[string]interface{}`, or
`nil`. -/
inductive GoValue where
  | nil
  | string (s : String)
  | userTier (t : domain.UserTier)
  | userPtr (u : domain.User)
  | quotaInfo (q : domain.QuotaInfo)
  | mapStringAny (m : List (String × GoValue))

/-- The type assertion `v.(string)` on the result of a map lookup: `none` where Go panics
(missing key or a value of another type). -/
def GoValue.assertString : Option GoValue → Option String
  | some (.string s) => some s
  | _ => none

/-! ## `shared/pkg/events` -/

namespace events

structure Event where
  ID : String
  /-- Go field `Type`. -/
  Type_ : String
  Source : String
  Version : String
  Timestamp : Time
  /-- Go `[]byte`. -/
  Data : String
  deriving DecidableEq, Repr

def UserRegisteredEvent : String := "user.registered"

def UserTierUpgradedEvent : String := "user.tier.upgraded"

def UserQuotaUpdatedEvent : String := "user.quota.updated"

structure UserRegisteredData where
  UserID : String
  Email : String
  FullName : String
  Tier : String
  CreatedAt : String
  deriving DecidableEq, Repr

structure UserTierUpgradedData where
  UserID : String
  OldTier : String
  NewTier : String
  UpgradedAt : String
  deriving DecidableEq, Repr

structure QuotaData where
  Used : Int
  Limit : Int
  deriving DecidableEq, Repr

structure QuotaInfoData where
  AIDescription : QuotaData
  AIVideo : QuotaData
  AutoPosting : QuotaData
  deriving DecidableEq, Repr

structure UserQuotaUpdatedData where
  UserID : String
  Quotas : QuotaInfoData
  UpdatedAt : String
  deriving DecidableEq, Repr

/-- The payload records that the publisher hands to `NewEvent`. -/
inductive Payload where
  | userRegistered (d : UserRegisteredData)
  | userTierUpgraded (d : UserTierUpgradedData)
  | userQuotaUpdated (d : UserQuotaUpdatedData)
  deriving DecidableEq, Repr

end events

/-- The functions of the Go standard library and of third-party packages that the services
call and that lie outside the repository: JSON encoding and decoding of the payload records,
`uuid.Parse` and `UUID.String`, `time.Parse` and `Time.Format` with the layout
`time.RFC3339`, `bcrypt.GenerateFromPassword`, and `bcrypt.CompareHashAndPassword`
(`bcryptCompare hash password` tells whether it returns `nil`). -/
structure GoLib where
  jsonMarshal : events.Payload → Except GoError String
  jsonUnmarshalUserRegistered : String → Except GoError events.UserRegisteredData
  jsonUnmarshalUserTierUpgraded : String → Except GoError events.UserTierUpgradedData
  uuidParse : String → Except GoError domain.UUID
  uuidString : domain.UUID → String
  timeParse : String → Except GoError Time
  timeFormat : Time → String
  bcryptGenerate : String → Except GoError String
  bcryptCompare : String → String → Bool

namespace events

/-- Go `NewEvent`; `eventID` is the text of the fresh `uuid.New()`, `now` the reading of
`time.Now()`. -/
def NewEvent (lib : GoLib) (eventID : String) (now : Time) (eventType source version : String)
    (data : Payload) : Except GoError Event :=
  match lib.jsonMarshal data with
  | .error err => .error err
  | .ok dataBytes =>
    .ok { ID := eventID
          Type_ := eventType
          Source := source
          Version := version
          Timestamp := now
          Data := dataBytes }

/-- Go `interface EventBus`, over a state `β` of the channel, as far as the publisher calls
it: `Publish` returns the new state next to its `error`. -/
structure EventBus (β : Type) where
  Publish : β → String → Event → β × Option GoError

structure UniversalEventPublisher (β : Type) where
  eventBus : EventBus β

def NewUniversalEventPublisher {β : Type} (eventBus : EventBus β) :
    UniversalEventPublisher β :=
  { eventBus := eventBus }

/-- Go `convertToString`. -/
def convertToString : GoValue → String
  | .string v => v
  | .userTier v => v
  | _ => "unknown"

namespace UniversalEventPublisher

variable {β : Type}

/-- Go `PublishUserRegistered`. Only a `map[string]interface{}` is converted; for every
other dynamic type the method logs and returns `nil`. A failing type assertion on a map
entry panics. -/
def PublishUserRegistered (u : UniversalEventPublisher β) (lib : GoLib) (bus : β)
    (eventID : String) (now : Time) (user : GoValue) : β × Option GoError :=
  match user with
  | .mapStringAny m =>
    match GoValue.assertString (m.lookup "id"), GoValue.assertString (m.lookup "email"),
      GoValue.assertString (m.lookup "full_name"), GoValue.assertString (m.lookup "tier"),
      GoValue.assertString (m.lookup "created_at") with
    | some id, some email, some fullName, some tier, some createdAt =>
      match NewEvent lib eventID now UserRegisteredEvent "auth-service" "1.0"
          (.userRegistered
            { UserID := id, Email := email, FullName := fullName, Tier := tier,
              CreatedAt := createdAt }) with
      | .error err => (bus, some err)
      | .ok event => u.eventBus.Publish bus "user-events" event
    | _, _, _, _, _ => (bus, some (GoError.Panic "interface conversion"))
  | _ => (bus, none)

/-- Go `PublishUserTierUpgraded`; `nowData` is the reading of `time.Now()` for
`UpgradedAt`, `now` the one of `NewEvent`. -/
def PublishUserTierUpgraded (u : UniversalEventPublisher β) (lib : GoLib) (bus : β)
    (eventID : String) (nowData now : Time) (userID : String) (oldTier newTier : GoValue) :
    β × Option GoError :=
  match NewEvent lib eventID now UserTierUpgradedEvent "auth-service" "1.0"
      (.userTierUpgraded
        { UserID := userID, OldTier := convertToString oldTier,
          NewTier := convertToString newTier, UpgradedAt := lib.timeFormat nowData }) with
  | .error err => (bus, some err)
  | .ok event => u.eventBus.Publish bus "user-events" event

/-- Go `PublishUserQuotaUpdated`; `nowData` is the reading of `time.Now()` for `UpdatedAt`,
`now` the one of `NewEvent`. The argument `quotas` is not read. -/
def PublishUserQuotaUpdated (u : UniversalEventPublisher β) (lib : GoLib) (bus : β)
    (eventID : String) (nowData now : Time) (userID : String) (_quotas : GoValue) :
    β × Option GoError :=
  match NewEvent lib eventID now UserQuotaUpdatedEvent "user-service" "1.0"
      (.userQuotaUpdated
        { UserID := userID
          Quotas :=
            { AIDescription := { Used := 0, Limit := 0 }
              AIVideo := { Used := 0, Limit := 0 }
              AutoPosting := { Used := 0, Limit := 0 } }
          UpdatedAt := lib.timeFormat nowData }) with
  | .error err => (bus, some err)
  | .ok event => u.eventBus.Publish bus "user-events" event

end UniversalEventPublisher

/-- An event channel that records what is handed to it: its state is the list of the
published topic and event pairs, oldest first. -/
def recordingBus : EventBus (List (String × Event)) :=
  { Publish := fun log topic event => (log ++ [(topic, event)], none) }

end events

/-! ## `token_service.go`: password strength -/

namespace auth

/-- The four flags of the loop of `PasswordStrengthCheck`. -/
structure StrengthFlags where
  hasUpper : Bool
  hasLower : Bool
  hasNumber : Bool
  hasSpecial : Bool
  deriving DecidableEq, Repr

/-- One round of the loop: the `switch` on the character, first matching case only. -/
def strengthStep (f : StrengthFlags) (char : Char) : StrengthFlags :=
  if 'A'.toNat ≤ char.toNat ∧ char.toNat ≤ 'Z'.toNat then { f with hasUpper := true }
  else if 'a'.toNat ≤ char.toNat ∧ char.toNat ≤ 'z'.toNat then { f with hasLower := true }
  else if '0'.toNat ≤ char.toNat ∧ char.toNat ≤ '9'.toNat then { f with hasNumber := true }
  else if 33 ≤ char.toNat ∧ char.toNat ≤ 126 then { f with hasSpecial := true }
  else f

/-- Go `PasswordStrengthCheck`; `len(password)` is the number of bytes. -/
def PasswordStrengthCheck (password : String) : Option GoError :=
  if password.utf8ByteSize < 8 then
    some (GoError.New "password must be at least 8 characters long")
  else
    let f := password.toList.foldl strengthStep
      { hasUpper := false, hasLower := false, hasNumber := false, hasSpecial := false }
    if !f.hasUpper || !f.hasLower || !f.hasNumber || !f.hasSpecial then
      some (GoError.New
        "password must contain uppercase, lowercase, number, and special characters")
    else
      none

end auth

/-! ## The `users` tables

The schemas are not part of the sources. `uniqueID` tells whether the column `id` carries a
uniqueness constraint; `idOfText` is how the database reads the text parameter of
`WHERE id = $1`: an error for a text it rejects, `none` for a text that matches no row, the
identifier otherwise. Other constraints are not modelled, and the statements are taken to
reach the database. A table is the list of its rows in insertion order. -/

structure UsersSchema where
  uniqueID : Bool
  idOfText : String → Except GoError (Option domain.UUID)
  /-- The `*sqlx.DB` handle of the repository. -/
  handle : SqlxHandle

abbrev UsersTable := List domain.User

/-- The Go field names of `domain.User`. -/
def domain.User.fieldNames : List String :=
  ["ID", "Email", "PasswordHash", "FullName", "Tier",
   "AIDescriptionQuotaUsed", "AIDescriptionQuotaLimit",
   "AIVideoQuotaUsed", "AIVideoQuotaLimit",
   "AutoPostingQuotaUsed", "AutoPostingQuotaLimit", "CreatedAt", "UpdatedAt"]

/-- The query `SELECT columns FROM users WHERE id = $1` read with `GetContext` into a
`domain.User`: the error of the database for a text it rejects; else the error of the column
check of the handle, if any; else the first row of the result, and `ErrUserNotFound` for
`sql.ErrNoRows` when there is no row. -/
def UsersTable.selectByID (schema : UsersSchema) (columns : List String) (db : UsersTable)
    (id : String) : Except GoError domain.User :=
  match schema.idOfText id with
  | .error err => .error err
  | .ok key =>
    match schema.handle.scanError domain.User.fieldNames columns "*domain.User" with
    | some err => .error err
    | none =>
      match key with
      | none => .error GoError.ErrUserNotFound
      | some key =>
        match db.find? (fun row => row.ID == key) with
        | none => .error GoError.ErrUserNotFound
        | some row => .ok row

/-- The query `SELECT columns FROM users WHERE email = $1` read with `GetContext` into a
`domain.User`. -/
def UsersTable.selectByEmail (schema : UsersSchema) (columns : List String) (db : UsersTable)
    (email : String) : Except GoError domain.User :=
  match schema.handle.scanError domain.User.fieldNames columns "*domain.User" with
  | some err => .error err
  | none =>
    match db.find? (fun row => row.Email == email) with
    | none => .error GoError.ErrUserNotFound
    | some row => .ok row

/-! ## `services/auth`: ports, user repository and `AuthService.Register` -/

namespace authservice

open domain

/-- Go `ports.UserRepository` of the auth service, over a store state `ρ`. -/
structure UserRepository (ρ : Type) where
  Create : ρ → User → ρ × Option GoError
  FindByID : ρ → String → Except GoError User
  FindByEmail : ρ → String → Except GoError User
  Update : ρ → User → ρ × Option GoError

/-- Go `ports.EventPublisher` of the auth service, over a channel state `β`. The readings
that an implementation takes during a call (event ID, clock) are fixed in the
implementation. -/
structure EventPublisher (β : Type) where
  PublishUserRegistered : β → GoValue → β × Option GoError
  PublishUserTierUpgraded : β → String → GoValue → GoValue → β × Option GoError

/-- The `UniversalEventPublisher` as the auth service's `EventPublisher`, as `cmd/main.go`
wires it, for a call with the given readings. -/
def universalPublisher {β : Type} (u : events.UniversalEventPublisher β) (lib : GoLib)
    (eventID : String) (nowData now : Time) : EventPublisher β :=
  { PublishUserRegistered := fun bus user => u.PublishUserRegistered lib bus eventID now user
    PublishUserTierUpgraded := fun bus userID oldTier newTier =>
      u.PublishUserTierUpgraded lib bus eventID nowData now userID oldTier newTier }

namespace PostgresUserRepository

/-- The columns that the auth service writes and reads: the six quota columns are none of
them, so a row read back has them at zero. -/
def row (user : User) : User :=
  { user with
      AIDescriptionQuotaUsed := 0, AIDescriptionQuotaLimit := 0
      AIVideoQuotaUsed := 0, AIVideoQuotaLimit := 0
      AutoPostingQuotaUsed := 0, AutoPostingQuotaLimit := 0 }

/-- The statement `INSERT INTO users (id, email, password_hash, full_name, tier, created_at,
updated_at)`. -/
def Create (schema : UsersSchema) (db : UsersTable) (user : User) :
    UsersTable × Option GoError :=
  if schema.uniqueID && db.any (fun r => r.ID == user.ID) then
    (db, some (GoError.New "pq: duplicate key value violates unique constraint"))
  else
    (db ++ [row user], none)

/-- The columns that `FindByID` and `FindByEmail` select. -/
def columns : List String :=
  ["id", "email", "password_hash", "full_name", "tier", "created_at", "updated_at"]

/-- The query `SELECT ... FROM users WHERE id = $1`. -/
def FindByID (schema : UsersSchema) (db : UsersTable) (id : String) : Except GoError User :=
  db.selectByID schema columns id

/-- The query `SELECT ... FROM users WHERE email = $1`. -/
def FindByEmail (schema : UsersSchema) (db : UsersTable) (email : String) :
    Except GoError User :=
  db.selectByEmail schema columns email

/-- The statement `UPDATE users SET email, password_hash, full_name, tier, updated_at WHERE
id = $6`. -/
def Update (db : UsersTable) (user : User) : UsersTable × Option GoError :=
  (db.map (fun r =>
    if r.ID == user.ID then
      { r with Email := user.Email, PasswordHash := user.PasswordHash,
               FullName := user.FullName, Tier := user.Tier, UpdatedAt := user.UpdatedAt }
    else r), none)

end PostgresUserRepository

def NewPostgresUserRepository (schema : UsersSchema) : UserRepository UsersTable :=
  { Create := PostgresUserRepository.Create schema
    FindByID := PostgresUserRepository.FindByID schema
    FindByEmail := PostgresUserRepository.FindByEmail schema
    Update := PostgresUserRepository.Update }

/-- A stand-in `UserRepository` that keeps the users in a list and reads them back as they
were stored, with the text `id-n` for the identifier `n`, to evaluate the service at concrete
inputs. -/
def memoryUserRepository : UserRepository UsersTable :=
  { Create := fun db user => (db ++ [user], none)
    FindByID := fun db id =>
      match db.find? (fun r => "id-" ++ toString r.ID == id) with
      | none => .error GoError.ErrUserNotFound
      | some r => .ok r
    FindByEmail := fun db email =>
      match db.find? (fun r => r.Email == email) with
      | none => .error GoError.ErrUserNotFound
      | some r => .ok r
    Update := fun db user => (db.map (fun r => if r.ID == user.ID then user else r), none) }

structure AuthService (ρ σ β : Type) where
  userRepo : UserRepository ρ
  sessionManager : auth.SessionManager σ
  eventPublisher : EventPublisher β
  tokenService : auth.TokenService

structure RegisterRequest where
  Email : String
  Password : String
  FullName : String
  deriving DecidableEq, Repr

structure RegisterResponse where
  User : User
  TokenPair : auth.TokenPair
  deriving DecidableEq, Repr

/-- Go `AuthService.Register`. `newID` is the fresh `uuid.New()`, `nowCreated` and
`nowUpdated` are the readings of `time.Now()` for the two dates, `rnd` and `clock` those of
`GenerateTokenPair`. The result of the `FindByEmail` call counts only through the returned
user, and the `error` of `PublishUserRegistered` is dropped, as in the source. -/
def AuthService.Register {ρ σ β : Type} (s : AuthService ρ σ β) (lib : GoLib)
    (jwt : auth.JWTCodec) (db : ρ) (bus : β) (newID : UUID) (nowCreated nowUpdated : Time)
    (rnd : List Nat) (clock : auth.TokenClock) (req : RegisterRequest) :
    ρ × β × Except GoError RegisterResponse :=
  match auth.PasswordStrengthCheck req.Password with
  | some err => (db, bus, .error err)
  | none =>
    match s.userRepo.FindByEmail db req.Email with
    | .ok _ => (db, bus, .error GoError.ErrUserNotFound)
    | .error _ =>
      match lib.bcryptGenerate req.Password with
      | .error err => (db, bus, .error err)
      | .ok passwordHash =>
        let user : User :=
          { ID := newID
            Email := req.Email
            PasswordHash := passwordHash
            FullName := req.FullName
            Tier := UserTierFree
            AIDescriptionQuotaUsed := 0, AIDescriptionQuotaLimit := 0
            AIVideoQuotaUsed := 0, AIVideoQuotaLimit := 0
            AutoPostingQuotaUsed := 0, AutoPostingQuotaLimit := 0
            CreatedAt := nowCreated
            UpdatedAt := nowUpdated }
        match s.userRepo.Create db user with
        | (db1, some err) => (db1, bus, .error err)
        | (db1, none) =>
          match s.tokenService.GenerateTokenPair jwt rnd clock (lib.uuidString user.ID)
              user.Email with
          | .error err => (db1, bus, .error err)
          | .ok tokenPair =>
            ((db1, (s.eventPublisher.PublishUserRegistered bus (.userPtr user)).1,
              .ok { User := user, TokenPair := tokenPair }))

end authservice

/-! ## Concrete data for evaluating the services -/

/-- Stand-ins for the library functions, to evaluate the code at concrete inputs: the
decoders know the listed payloads and identifiers and reject every other text. -/
def sampleLib : GoLib :=
  { jsonMarshal := fun p =>
      match p with
      | .userRegistered d => .ok ("registered:" ++ d.UserID)
      | .userTierUpgraded d => .ok ("upgraded:" ++ d.UserID)
      | .userQuotaUpdated d => .ok ("quota:" ++ d.UserID)
    jsonUnmarshalUserRegistered := fun s =>
      if s == "registered-free" then
        .ok { UserID := "id-7", Email := "a@example.com", FullName := "A", Tier := "free",
              CreatedAt := "" }
      else if s == "registered-pro" then
        .ok { UserID := "id-8", Email := "b@example.com", FullName := "B", Tier := "pro",
              CreatedAt := "" }
      else if s == "registered-gold" then
        .ok { UserID := "id-9", Email := "c@example.com", FullName := "C", Tier := "gold",
              CreatedAt := "" }
      else .error (GoError.New "invalid character")
    jsonUnmarshalUserTierUpgraded := fun s =>
      if s == "upgraded-7" then
        .ok { UserID := "id-7", OldTier := "free", NewTier := "pro", UpgradedAt := "" }
      else if s == "upgraded-9" then
        .ok { UserID := "id-9", OldTier := "free", NewTier := "pro", UpgradedAt := "" }
      else .error (GoError.New "invalid character")
    uuidParse := fun s =>
      if s == "id-7" then .ok 7 else if s == "id-8" then .ok 8
      else if s == "id-9" then .ok 9 else .error (GoError.New "invalid UUID length")
    uuidString := fun u => "id-" ++ toString u
    timeParse := fun _ => .error (GoError.New "parsing time")
    timeFormat := fun t => toString t
    bcryptGenerate := fun p => .ok ("hash:" ++ p)
    bcryptCompare := fun hash p => hash == "hash:" ++ p }

/-- A schema with a unique `id` that reads the three sample identifiers, on a handle on which
no mapper was set. -/
def sampleSchema : UsersSchema :=
  { uniqueID := true
    handle := sqlxDefaultHandle
    idOfText := fun s =>
      if s == "id-7" then .ok (some 7) else if s == "id-8" then .ok (some 8)
      else if s == "id-9" then .ok (some 9)
      else .error (GoError.New "pq: invalid input syntax for type uuid") }

namespace authservice

/-- The auth service of `cmd/main.go` on the Postgres repositories, with the universal
publisher on a recording channel. -/
def sampleAuthService :
    AuthService UsersTable persistence.SessionsTable (List (String × events.Event)) :=
  { userRepo := NewPostgresUserRepository sampleSchema
    sessionManager := auth.sampleManager
    eventPublisher :=
      universalPublisher (events.NewUniversalEventPublisher events.recordingBus) sampleLib
        "event-1" 3000 3001
    tokenService := auth.sampleTokenService }

/-- A registration on empty stores and an empty channel. -/
def sampleRegister :
    UsersTable × List (String × events.Event) × Except GoError RegisterResponse :=
  sampleAuthService.Register sampleLib auth.plainCodec [] [] 7 2000 2001 auth.sampleRnd
    auth.sampleClock { Email := "a@example.com", Password := "Abcdef1!", FullName := "A" }

end authservice

/-! ## `services/user`: ports, user repository, `UserService.UpgradeToPro` and the event
subscriber -/

namespace userservice

open domain

/-- Go `ports.UserRepository` of the user service, over a store state `ρ`; the `Time`
argument of the last two methods is the reading of `time.Now()` that the statement
carries. -/
structure UserRepository (ρ : Type) where
  Create : ρ → User → ρ × Option GoError
  FindByID : ρ → String → Except GoError User
  FindByEmail : ρ → String → Except GoError User
  Update : ρ → User → ρ × Option GoError
  UpdateQuotas : ρ → Time → String → QuotaInfo → ρ × Option GoError
  ResetAllMonthlyQuotas : ρ → Time → ρ × Option GoError

/-- Go `ports.EventPublisher` of the user service, over a channel state `β`. The readings
that an implementation takes during a call (event ID, clock) are fixed in the
implementation. -/
structure EventPublisher (β : Type) where
  PublishUserQuotaUpdated : β → String → GoValue → β × Option GoError

/-- The `UniversalEventPublisher` as the user service's `EventPublisher`, as `cmd/main.go`
wires it, for a call with the given readings. -/
def universalPublisher {β : Type} (u : events.UniversalEventPublisher β) (lib : GoLib)
    (eventID : String) (nowData now : Time) : EventPublisher β :=
  { PublishUserQuotaUpdated := fun bus userID quotas =>
      u.PublishUserQuotaUpdated lib bus eventID nowData now userID quotas }

/-- Go `PostgresUserRepository` of the user service: the handle of a database with the given
schema; the content of the table is passed to the methods. -/
structure PostgresUserRepository where
  schema : UsersSchema

namespace PostgresUserRepository

/-- The columns that the user service writes and reads: `password_hash` is none of them, so
a row read back has an empty `PasswordHash`. -/
def row (user : User) : User :=
  { user with PasswordHash := "" }

/-- The statement `INSERT INTO users (id, email, full_name, tier, the six quota columns,
created_at, updated_at)`. -/
def Create (r : PostgresUserRepository) (db : UsersTable) (user : User) :
    UsersTable × Option GoError :=
  if r.schema.uniqueID && db.any (fun x => x.ID == user.ID) then
    (db, some (GoError.New "pq: duplicate key value violates unique constraint"))
  else
    (db ++ [row user], none)

/-- The columns that `FindByID` and `FindByEmail` select. -/
def columns : List String :=
  ["id", "email", "full_name", "tier",
   "ai_description_quota_used", "ai_description_quota_limit",
   "ai_video_quota_used", "ai_video_quota_limit",
   "auto_posting_quota_used", "auto_posting_quota_limit", "created_at", "updated_at"]

/-- The query `SELECT ... FROM users WHERE id = $1`. -/
def FindByID (r : PostgresUserRepository) (db : UsersTable) (id : String) :
    Except GoError User :=
  db.selectByID r.schema columns id

/-- The query `SELECT ... FROM users WHERE email = $1`. -/
def FindByEmail (r : PostgresUserRepository) (db : UsersTable) (email : String) :
    Except GoError User :=
  db.selectByEmail r.schema columns email

/-- The statement `UPDATE users SET email, full_name, tier, the six quota columns,
updated_at WHERE id = $11`. -/
def Update (_r : PostgresUserRepository) (db : UsersTable) (user : User) :
    UsersTable × Option GoError :=
  (db.map (fun x =>
    if x.ID == user.ID then
      { x with
          Email := user.Email, FullName := user.FullName, Tier := user.Tier
          AIDescriptionQuotaUsed := user.AIDescriptionQuotaUsed
          AIDescriptionQuotaLimit := user.AIDescriptionQuotaLimit
          AIVideoQuotaUsed := user.AIVideoQuotaUsed
          AIVideoQuotaLimit := user.AIVideoQuotaLimit
          AutoPostingQuotaUsed := user.AutoPostingQuotaUsed
          AutoPostingQuotaLimit := user.AutoPostingQuotaLimit
          UpdatedAt := user.UpdatedAt }
    else x), none)

/-- The statement `UPDATE users SET the three used columns, updated_at WHERE id = $5`. -/
def UpdateQuotas (r : PostgresUserRepository) (db : UsersTable) (now : Time)
    (userID : String) (quotas : QuotaInfo) : UsersTable × Option GoError :=
  match r.schema.idOfText userID with
  | .error err => (db, some err)
  | .ok none => (db, none)
  | .ok (some key) =>
    (db.map (fun x =>
      if x.ID == key then
        { x with
            AIDescriptionQuotaUsed := quotas.AIDescription.Used
            AIVideoQuotaUsed := quotas.AIVideo.Used
            AutoPostingQuotaUsed := quotas.AutoPosting.Used
            UpdatedAt := now }
      else x), none)

/-- The statement `UPDATE users SET the three used columns = 0, updated_at`. -/
def ResetAllMonthlyQuotas (_r : PostgresUserRepository) (db : UsersTable) (now : Time) :
    UsersTable × Option GoError :=
  (db.map (fun x =>
    { x with
        AIDescriptionQuotaUsed := 0, AIVideoQuotaUsed := 0, AutoPostingQuotaUsed := 0
        UpdatedAt := now }), none)

/-- The repository behind the interface `ports.UserRepository`. -/
def asRepository (r : PostgresUserRepository) : UserRepository UsersTable :=
  { Create := r.Create
    FindByID := r.FindByID
    FindByEmail := r.FindByEmail
    Update := r.Update
    UpdateQuotas := r.UpdateQuotas
    ResetAllMonthlyQuotas := r.ResetAllMonthlyQuotas }

end PostgresUserRepository

structure UserService (ρ β : Type) where
  userRepo : UserRepository ρ
  eventPublisher : EventPublisher β

def NewUserService {ρ β : Type} (userRepo : UserRepository ρ)
    (eventPublisher : EventPublisher β) : UserService ρ β :=
  { userRepo := userRepo, eventPublisher := eventPublisher }

structure UpgradeToProRequest where
  UserID : String
  deriving DecidableEq, Repr

/-- Go `UserService.UpgradeToPro`; `now` is the reading of `time.Now()` in
`User.UpgradeToPro`. The `error` of the publisher is printed and dropped. -/
def UserService.UpgradeToPro {ρ β : Type} (s : UserService ρ β) (lib : GoLib) (db : ρ)
    (bus : β) (now : Time) (req : UpgradeToProRequest) : ρ × β × Option GoError :=
  match s.userRepo.FindByID db req.UserID with
  | .error err => (db, bus, some err)
  | .ok found =>
    match s.userRepo.Update db (found.UpgradeToPro now) with
    | (db1, some err) => (db1, bus, some err)
    | (db1, none) =>
      (db1,
        (s.eventPublisher.PublishUserQuotaUpdated bus
          (lib.uuidString (found.UpgradeToPro now).ID)
          (.quotaInfo (found.UpgradeToPro now).GetQuotaInfo)).1,
        none)

/-- Go `UniversalEventSubscriber` of the user service. -/
structure UniversalEventSubscriber (β : Type) where
  eventBus : events.EventBus β
  userService : UserService UsersTable β
  userRepo : PostgresUserRepository

/-- Go `parseTime`; `now` is the reading of `time.Now()` of its two fallback branches. -/
def parseTime (lib : GoLib) (now : Time) (timeStr : String) : Time :=
  if timeStr == "" then now
  else
    match lib.timeParse timeStr with
    | .error _ => now
    | .ok t => t

namespace UniversalEventSubscriber

variable {β : Type}

/-- Go `handleUserRegistered`; `nowCreated` and `nowUpdated` are the readings of
`time.Now()` of the two `parseTime` calls. -/
def handleUserRegistered (u : UniversalEventSubscriber β) (lib : GoLib) (db : UsersTable)
    (bus : β) (nowCreated nowUpdated : Time) (event : events.Event) :
    UsersTable × β × Option GoError :=
  match lib.jsonUnmarshalUserRegistered event.Data with
  | .error err =>
    (db, bus, some (GoError.Errorf "failed to unmarshal user registered data" err))
  | .ok data =>
    match lib.uuidParse data.UserID with
    | .error err => (db, bus, some (GoError.Errorf "failed to parse user ID" err))
    | .ok userID =>
      let tier : UserTier :=
        if data.Tier == "free" then UserTierFree
        else if data.Tier == "pro" then UserTierPro
        else UserTierFree
      let user : User :=
        { ID := userID
          Email := data.Email
          PasswordHash := ""
          FullName := data.FullName
          Tier := tier
          AIDescriptionQuotaUsed := 0, AIDescriptionQuotaLimit := 0
          AIVideoQuotaUsed := 0, AIVideoQuotaLimit := 0
          AutoPostingQuotaUsed := 0, AutoPostingQuotaLimit := 0
          CreatedAt := parseTime lib nowCreated data.CreatedAt
          UpdatedAt := parseTime lib nowUpdated data.CreatedAt }
      let user : User :=
        if user.Tier == UserTierFree then
          { user with
              AIDescriptionQuotaLimit := 5, AIVideoQuotaLimit := 0, AutoPostingQuotaLimit := 5 }
        else
          { user with
              AIDescriptionQuotaLimit := 100, AIVideoQuotaLimit := 10
              AutoPostingQuotaLimit := 1000 }
      match u.userRepo.Create db user with
      | (db1, some err) =>
        (db1, bus, some (GoError.Errorf "failed to create user in user service" err))
      | (db1, none) => (db1, bus, none)

/-- Go `handleUserTierUpgraded`; `now` is the clock reading of `UserService.UpgradeToPro`. -/
def handleUserTierUpgraded (u : UniversalEventSubscriber β) (lib : GoLib) (db : UsersTable)
    (bus : β) (now : Time) (event : events.Event) : UsersTable × β × Option GoError :=
  match lib.jsonUnmarshalUserTierUpgraded event.Data with
  | .error err =>
    (db, bus, some (GoError.Errorf "failed to unmarshal user tier upgraded data" err))
  | .ok data =>
    match u.userService.UpgradeToPro lib db bus now { UserID := data.UserID } with
    | (db1, bus1, some err) =>
      (db1, bus1, some (GoError.Errorf "failed to upgrade user tier" err))
    | (db1, bus1, none) => (db1, bus1, none)

/-- Go `handleUserEvent`: the `switch` on the type tag; the `default` branch prints the tag
and returns `nil`. -/
def handleUserEvent (u : UniversalEventSubscriber β) (lib : GoLib) (db : UsersTable)
    (bus : β) (nowCreated nowUpdated nowUpgrade : Time) (event : events.Event) :
    UsersTable × β × Option GoError :=
  if event.Type_ == events.UserRegisteredEvent then
    u.handleUserRegistered lib db bus nowCreated nowUpdated event
  else if event.Type_ == events.UserTierUpgradedEvent then
    u.handleUserTierUpgraded lib db bus nowUpgrade event
  else
    (db, bus, none)

end UniversalEventSubscriber

/-- The subscriber of `cmd/main.go`: one Postgres repository behind the service and behind
the subscriber, and the universal publisher on the channel `bus`. -/
def wiredSubscriber {β : Type} (schema : UsersSchema) (bus : events.EventBus β) (lib : GoLib)
    (eventID : String) (nowData now : Time) : UniversalEventSubscriber β :=
  { eventBus := bus
    userService :=
      NewUserService (PostgresUserRepository.asRepository { schema := schema })
        (universalPublisher (events.NewUniversalEventPublisher bus) lib eventID nowData now)
    userRepo := { schema := schema } }

/-- The subscriber on the sample schema and a recording channel. -/
def sampleSubscriber : UniversalEventSubscriber (List (String × events.Event)) :=
  wiredSubscriber sampleSchema events.recordingBus sampleLib "event-2" 4000 4001

/-- A `user.registered` event for user 7 with tier `free`. -/
def registeredFree : events.Event :=
  { ID := "e1", Type_ := "user.registered", Source := "auth-service", Version := "1.0",
    Timestamp := 100, Data := "registered-free" }

/-- A `user.registered` event for user 8 with tier `pro`. -/
def registeredPro : events.Event :=
  { registeredFree with ID := "e2", Data := "registered-pro" }

/-- A `user.registered` event for user 9 with the tier text `gold`. -/
def registeredGold : events.Event :=
  { registeredFree with ID := "e3", Data := "registered-gold" }

/-- A `user.tier.upgraded` event for user 7. -/
def upgraded7 : events.Event :=
  { registeredFree with ID := "e4", Type_ := "user.tier.upgraded", Data := "upgraded-7" }

/-- A `user.tier.upgraded` event for user 9. -/
def upgraded9 : events.Event :=
  { upgraded7 with ID := "e5", Data := "upgraded-9" }

/-- A `user.quota.updated` event whose payload does not decode. -/
def quotaUpdatedGarbage : events.Event :=
  { registeredFree with ID := "e6", Type_ := "user.quota.updated", Data := "\x00garbage" }

/-- The replica of user 7 with 3 of 5 descriptions used. -/
def replica7 : User :=
  { ID := 7, Email := "a@example.com", PasswordHash := "", FullName := "A",
    Tier := UserTierFree,
    AIDescriptionQuotaUsed := 3, AIDescriptionQuotaLimit := 5,
    AIVideoQuotaUsed := 0, AIVideoQuotaLimit := 0,
    AutoPostingQuotaUsed := 2, AutoPostingQuotaLimit := 5,
    CreatedAt := 10, UpdatedAt := 20 }

/-- The replica of user 8. -/
def replica8 : User :=
  { replica7 with ID := 8, Email := "b@example.com", FullName := "B" }

end userservice

/-! ## `token_service.go`: password hashes -/

namespace auth

/-- Go `GenerateSecurePasswordHash`. -/
def GenerateSecurePasswordHash (lib : GoLib) (password : String) : Except GoError String :=
  match lib.bcryptGenerate password with
  | .error err => .error err
  | .ok hash => .ok hash

/-- Go `VerifyPassword`. -/
def VerifyPassword (lib : GoLib) (password hash : String) : Bool :=
  lib.bcryptCompare hash password

end auth

/-! ## `services/auth`: `AuthService.Login` and `AuthService.UpgradeTier` -/

namespace authservice

open domain

structure LoginRequest where
  Email : String
  Password : String
  deriving DecidableEq, Repr

structure LoginResponse where
  User : User
  TokenPair : auth.TokenPair
  deriving DecidableEq, Repr

/-- Go `AuthService.Login`. It reads the users store `db` and writes the session store
`sessions`; `rnd`, `clock`, `nowExpires` and `nowCreated` are the readings of
`CreateSession`. -/
def AuthService.Login {ρ σ β : Type} (s : AuthService ρ σ β) (lib : GoLib)
    (jwt : auth.JWTCodec) (db : ρ) (sessions : σ) (rnd : List Nat) (clock : auth.TokenClock)
    (nowExpires nowCreated : Time) (req : LoginRequest) (userAgent ipAddress : String) :
    σ × Except GoError (LoginResponse × auth.Session) :=
  match s.userRepo.FindByEmail db req.Email with
  | .error _ => (sessions, .error GoError.ErrUserNotFound)
  | .ok user =>
    if !auth.VerifyPassword lib req.Password user.PasswordHash then
      (sessions, .error GoError.ErrUserNotFound)
    else
      match s.sessionManager.CreateSession jwt sessions rnd clock nowExpires nowCreated
          (lib.uuidString user.ID) userAgent ipAddress with
      | (sessions1, .error err) => (sessions1, .error err)
      | (sessions1, .ok (session, tokenPair)) =>
        (sessions1, .ok ({ User := user, TokenPair := tokenPair }, session))

structure UpgradeTierRequest where
  UserID : String
  deriving DecidableEq, Repr

/-- Go `AuthService.UpgradeTier`; `now` is the reading of `time.Now()` for `UpdatedAt`. The
`error` of `PublishUserTierUpgraded` is dropped, as in the source. -/
def AuthService.UpgradeTier {ρ σ β : Type} (s : AuthService ρ σ β) (lib : GoLib) (db : ρ)
    (bus : β) (now : Time) (req : UpgradeTierRequest) : ρ × β × Option GoError :=
  match s.userRepo.FindByID db req.UserID with
  | .error err => (db, bus, some err)
  | .ok found =>
    let oldTier := found.Tier
    let user : User := { found with Tier := UserTierPro, UpdatedAt := now }
    match s.userRepo.Update db user with
    | (db1, some err) => (db1, bus, some err)
    | (db1, none) =>
      (db1,
        (s.eventPublisher.PublishUserTierUpgraded bus (lib.uuidString user.ID)
          (.userTier oldTier) (.userTier user.Tier)).1,
        none)

end authservice

/-! ## `services/user`: the `Use...Quota` operations -/

namespace userservice

open domain

structure UseAIDescriptionQuotaRequest where
  UserID : String
  deriving DecidableEq, Repr

structure UseAIVideoQuotaRequest where
  UserID : String
  deriving DecidableEq, Repr

structure UseAutoPostingQuotaRequest where
  UserID : String
  deriving DecidableEq, Repr

namespace UserService

variable {ρ β : Type}

/-- The part of Go `UserService.UseAIDescriptionQuota` that follows the `FindByID` call,
given what that call returned; `now` is the reading of `time.Now()` in
`User.UseAIDescriptionQuota`. The `error` of the publisher is printed and dropped. -/
def useAIDescriptionQuotaAfterFind (s : UserService ρ β) (lib : GoLib) (db : ρ) (bus : β)
    (now : Time) (found : Except GoError User) : ρ × β × Option GoError :=
  match found with
  | .error err => (db, bus, some err)
  | .ok user =>
    match user.UseAIDescriptionQuota now with
    | (_, some err) => (db, bus, some err)
    | (user1, none) =>
      match s.userRepo.Update db user1 with
      | (db1, some err) => (db1, bus, some err)
      | (db1, none) =>
        (db1,
          (s.eventPublisher.PublishUserQuotaUpdated bus (lib.uuidString user1.ID)
            (.quotaInfo user1.GetQuotaInfo)).1,
          none)

/-- Go `UserService.UseAIDescriptionQuota`. -/
def UseAIDescriptionQuota (s : UserService ρ β) (lib : GoLib) (db : ρ) (bus : β)
    (now : Time) (req : UseAIDescriptionQuotaRequest) : ρ × β × Option GoError :=
  s.useAIDescriptionQuotaAfterFind lib db bus now (s.userRepo.FindByID db req.UserID)

/-- Go `UserService.UseAIVideoQuota`. -/
def UseAIVideoQuota (s : UserService ρ β) (lib : GoLib) (db : ρ) (bus : β)
    (now : Time) (req : UseAIVideoQuotaRequest) : ρ × β × Option GoError :=
  match s.userRepo.FindByID db req.UserID with
  | .error err => (db, bus, some err)
  | .ok user =>
    match user.UseAIVideoQuota now with
    | (_, some err) => (db, bus, some err)
    | (user1, none) =>
      match s.userRepo.Update db user1 with
      | (db1, some err) => (db1, bus, some err)
      | (db1, none) =>
        (db1,
          (s.eventPublisher.PublishUserQuotaUpdated bus (lib.uuidString user1.ID)
            (.quotaInfo user1.GetQuotaInfo)).1,
          none)

/-- Go `UserService.UseAutoPostingQuota`. -/
def UseAutoPostingQuota (s : UserService ρ β) (lib : GoLib) (db : ρ) (bus : β)
    (now : Time) (req : UseAutoPostingQuotaRequest) : ρ × β × Option GoError :=
  match s.userRepo.FindByID db req.UserID with
  | .error err => (db, bus, some err)
  | .ok user =>
    match user.UseAutoPostingQuota now with
    | (_, some err) => (db, bus, some err)
    | (user1, none) =>
      match s.userRepo.Update db user1 with
      | (db1, some err) => (db1, bus, some err)
      | (db1, none) =>
        (db1,
          (s.eventPublisher.PublishUserQuotaUpdated bus (lib.uuidString user1.ID)
            (.quotaInfo user1.GetQuotaInfo)).1,
          none)

/-- Two calls of `UseAIDescriptionQuota` in the interleaving in which both `FindByID` reads
are made on the initial store before either call goes on; then the first call runs to its
end, then the second. The result lists the final store and channel and the `error` of each
call. -/
def raceUseAIDescriptionQuota (s : UserService ρ β) (lib : GoLib) (db : ρ) (bus : β)
    (now1 now2 : Time) (req1 req2 : UseAIDescriptionQuotaRequest) :
    ρ × β × Option GoError × Option GoError :=
  let found1 := s.userRepo.FindByID db req1.UserID
  let found2 := s.userRepo.FindByID db req2.UserID
  let r1 := s.useAIDescriptionQuotaAfterFind lib db bus now1 found1
  let r2 := s.useAIDescriptionQuotaAfterFind lib r1.1 r1.2.1 now2 found2
  (r2.1, r2.2.1, r1.2.2, r2.2.2)

end UserService

/-- The user service of `cmd/main.go` on the sample schema and a recording channel. -/
def sampleUserService : UserService UsersTable (List (String × events.Event)) :=
  sampleSubscriber.userService

/-- A stand-in `UserRepository` that keeps the users in a list and reads them back as they
were stored, with the text `id-n` for the identifier `n`, to evaluate the service at concrete
inputs. -/
def memoryUserRepository : UserRepository UsersTable :=
  { Create := fun db user => (db ++ [user], none)
    FindByID := fun db id =>
      match db.find? (fun x => "id-" ++ toString x.ID == id) with
      | none => .error GoError.ErrUserNotFound
      | some x => .ok x
    FindByEmail := fun db email =>
      match db.find? (fun x => x.Email == email) with
      | none => .error GoError.ErrUserNotFound
      | some x => .ok x
    Update := fun db user => (db.map (fun x => if x.ID == user.ID then user else x), none)
    UpdateQuotas := fun db now userID quotas =>
      (db.map (fun x =>
        if "id-" ++ toString x.ID == userID then
          { x with
              AIDescriptionQuotaUsed := quotas.AIDescription.Used
              AIVideoQuotaUsed := quotas.AIVideo.Used
              AutoPostingQuotaUsed := quotas.AutoPosting.Used
              UpdatedAt := now }
        else x), none)
    ResetAllMonthlyQuotas := fun db now =>
      (db.map (fun x =>
        { x with
            AIDescriptionQuotaUsed := 0, AIVideoQuotaUsed := 0, AutoPostingQuotaUsed := 0
            UpdatedAt := now }), none) }

/-- The sample user service on the in-memory stand-in repository. -/
def memoryUserService : UserService UsersTable (List (String × events.Event)) :=
  { sampleUserService with userRepo := memoryUserRepository }

/-- The sample subscriber with its service on the in-memory stand-in repository. -/
def memorySubscriber : UniversalEventSubscriber (List (String × events.Event)) :=
  { sampleSubscriber with userService := memoryUserService }

/-- The replica of user 7 with 4 of 5 descriptions used: one use is left. -/
def replicaLast : User :=
  { replica7 with AIDescriptionQuotaUsed := 4 }

end userservice

/-! ## `shared/pkg/events/memory_eventbus.go` -/

namespace events

/-- Go `MemoryEventBus` over a type `η` of handlers: the map from a topic to the list of its
handlers (`none` for a topic that is no key of the map). The mutex is not modelled. -/
structure MemoryEventBus (η : Type) where
  subscribers : String → Option (List η)

def NewMemoryEventBus {η : Type} : MemoryEventBus η :=
  { subscribers := fun _ => none }

namespace MemoryEventBus

variable {η : Type}

/-- Go `Publish`. The first component lists the goroutines that the call starts, in the
order of the loop: each is one call of a handler with the event, whose `error` is logged
inside the goroutine. The second component is the returned `error`. -/
def Publish (m : MemoryEventBus η) (topic : String) (event : Event) :
    List (η × Event) × Option GoError :=
  match m.subscribers topic with
  | none => ([], none)
  | some handlers => (handlers.map (fun h => (h, event)), none)

/-- Go `Subscribe`: `append(m.subscribers[topic], handler)`. -/
def Subscribe (m : MemoryEventBus η) (topic : String) (handler : η) :
    MemoryEventBus η × Option GoError :=
  ({ subscribers := fun t =>
      if t == topic then some ((m.subscribers topic).getD [] ++ [handler])
      else m.subscribers t }, none)

/-- Go `Close`. -/
def Close (_m : MemoryEventBus η) : Option GoError := none

/-- The bus after a sequence of `Subscribe` calls, each with its topic and handler. -/
def subscribeAll (m : MemoryEventBus η) : List (String × η) → MemoryEventBus η
  | [] => m
  | (topic, handler) :: rest => subscribeAll (m.Subscribe topic handler).1 rest

end MemoryEventBus

/-- An event of type `user.registered`. -/
def sampleEvent : Event :=
  { ID := "e1", Type_ := "user.registered", Source := "auth-service", Version := "1.0",
    Timestamp := 100, Data := "registered-free" }

end events

/-! ## Publishers that fail, for evaluating the fire-and-forget paths -/

namespace authservice

/-- An `EventPublisher` of the auth service whose every call returns an error. -/
def failingPublisher {β : Type} : EventPublisher β :=
  { PublishUserRegistered := fun bus _ => (bus, some (GoError.New "failed to publish event"))
    PublishUserTierUpgraded := fun bus _ _ _ =>
      (bus, some (GoError.New "failed to publish event")) }

/-- The sample auth service with the failing publisher. -/
def failingAuthService :
    AuthService UsersTable persistence.SessionsTable (List (String × events.Event)) :=
  { sampleAuthService with eventPublisher := failingPublisher }

/-- The sample registration request. -/
def sampleRequest : RegisterRequest :=
  { Email := "a@example.com", Password := "Abcdef1!", FullName := "A" }

/-- The user that the sample registration stores. -/
def sampleRegistered : domain.User :=
  { ID := 7, Email := "a@example.com", PasswordHash := "hash:Abcdef1!", FullName := "A",
    Tier := domain.UserTierFree,
    AIDescriptionQuotaUsed := 0, AIDescriptionQuotaLimit := 0,
    AIVideoQuotaUsed := 0, AIVideoQuotaLimit := 0,
    AutoPostingQuotaUsed := 0, AutoPostingQuotaLimit := 0,
    CreatedAt := 2000, UpdatedAt := 2001 }

end authservice

namespace userservice

/-- An `EventPublisher` of the user service whose every call returns an error. -/
def failingPublisher {β : Type} : EventPublisher β :=
  { PublishUserQuotaUpdated := fun bus _ _ =>
      (bus, some (GoError.New "failed to publish event")) }

/-- The user service on the in-memory stand-in repository with the failing publisher. -/
def failingUserService : UserService UsersTable (List (String × events.Event)) :=
  { memoryUserService with eventPublisher := failingPublisher }

end userservice

/-! ## Stand-ins for a login -/

namespace auth

/-- The claim set of the refresh token that the sample login issues: user `id-7`, no
email. -/
def loginRefreshClaims : Claims :=
  sampleTokenService.refreshClaims 1002 1003 "id-7" "" sampleSessionID

/-- The parser that decodes the refresh token of the sample login. -/
def loginParser : JWTParser :=
  tableParser datedCodec
    [(tokenString datedCodec "k" loginRefreshClaims, readBack datedCodec "k" loginRefreshClaims)]

end auth

namespace authservice

/-- The login request of the sample user. -/
def sampleLoginRequest : LoginRequest :=
  { Email := "a@example.com", Password := "Abcdef1!" }

/-- The token pair that the sample login issues. -/
def sampleLoginPair : auth.TokenPair :=
  { AccessToken := auth.tokenString auth.datedCodec "k"
      (auth.sampleTokenService.accessClaims 1000 1001 "id-7" "" auth.sampleSessionID)
    RefreshToken := auth.tokenString auth.datedCodec "k" auth.loginRefreshClaims
    TokenType := "Bearer"
    ExpiresIn := 900 }

def sampleLoginResponse : LoginResponse :=
  { User := sampleRegistered, TokenPair := sampleLoginPair }

/-- The session that the sample login stores. -/
def sampleLoginSession : auth.Session :=
  { ID := sampleLoginPair.AccessToken
    UserID := "id-7"
    RefreshToken := sampleLoginPair.RefreshToken
    UserAgent := "ua"
    IPAddress := "ip"
    ExpiresAt := 86400000001004
    CreatedAt := 1005 }

/-- The sample auth service on the in-memory stand-in repositories. -/
def memoryAuthService :
    AuthService UsersTable (List auth.Session) (List (String × events.Event)) :=
  { sampleAuthService with
    userRepo := memoryUserRepository
    sessionManager := auth.memoryManager }

/-- The login of the sample user on the in-memory repositories, with a users table that holds
`sampleRegistered` and an empty session table. -/
def sampleLogin : List auth.Session × Except GoError (LoginResponse × auth.Session) :=
  memoryAuthService.Login sampleLib auth.datedCodec [sampleRegistered] [] auth.sampleRnd
    auth.sampleClock 1004 1005 sampleLoginRequest "ua" "ip"

end authservice

namespace userservice

/-- The in-memory stand-in repository with an `Update` that fails and leaves the table as it
is, as on a read-only connection. -/
def readOnlyRepository : UserRepository UsersTable :=
  { memoryUserRepository with
    Update := fun db _ =>
      (db, some (GoError.New "pq: cannot execute UPDATE in a read-only transaction")) }

/-- The sample user service on `readOnlyRepository`. -/
def readOnlyUserService : UserService UsersTable (List (String × events.Event)) :=
  { sampleUserService with userRepo := readOnlyRepository }

end userservice

/-! ## The MAC of the signing method `HS256`

The signing method `HS256` of the token library signs and verifies with
`hmac.New(sha256.New, key)` of Go `crypto/hmac`, where `key` is `[]byte(cfg.SecretKey)`.
The hash function and the encoding of the sum are parameters; the preparation of the key
(RFC 2104) is embedded: a key longer than the block of the hash is hashed, and the key is
copied into a block of zero bytes. -/

namespace auth

/-- The UTF-8 encoding of a code point. -/
def utf8EncodeNat (n : Nat) : List Nat :=
  if n < 128 then [n]
  else if n < 2048 then [192 + n / 64, 128 + n % 64]
  else if n < 65536 then [224 + n / 4096, 128 + n / 64 % 64, 128 + n % 64]
  else [240 + n / 262144, 128 + n / 4096 % 64, 128 + n / 64 % 64, 128 + n % 64]

/-- Go `[]byte(s)`: the bytes of the UTF-8 encoding of the string. -/
def goBytes (s : String) : List Nat := s.toList.flatMap (fun c => utf8EncodeNat c.toNat)

/-- Go `hmac.New`: the key block. -/
def hmacKeyBlock (hash : List Nat → List Nat) (blockSize : Nat) (key : List Nat) : List Nat :=
  let k := if blockSize < key.length then hash key else key
  k ++ List.replicate (blockSize - k.length) 0

/-- Go `hmac.Sum` after `Write(msg)`: the outer hash over the key block xor `0x5c` and the
inner hash, which is over the key block xor `0x36` and the message. -/
def hmacSum (hash : List Nat → List Nat) (blockSize : Nat) (key msg : List Nat) : List Nat :=
  hash ((hmacKeyBlock hash blockSize key).map (fun b => b ^^^ 92) ++
    hash ((hmacKeyBlock hash blockSize key).map (fun b => b ^^^ 54) ++ msg))

/-- Go `SigningMethodHMAC.Sign` for `HS256` (block size 64): the encoded sum. -/
def hs256Sign (hash : List Nat → List Nat) (encode : List Nat → String)
    (key signingString : String) : String :=
  encode (hmacSum hash 64 (goBytes key) (goBytes signingString))

/-- Go `SigningMethodHMAC.Verify` for `HS256`: the signature is compared with the sum that
the key gives. -/
def hs256Verify (hash : List Nat → List Nat) (encode : List Nat → String)
    (signingString signature key : String) : Bool :=
  signature == hs256Sign hash encode key signingString

/-- A stand-in for the hash function, to evaluate the MAC at concrete inputs. -/
def standInHash (bytes : List Nat) : List Nat :=
  [bytes.foldl (fun acc b => (acc * 31 + b) % 65521) 7]

/-- A stand-in for the encoding of the sum. -/
def standInEncode (bytes : List Nat) : String := String.intercalate "." (bytes.map toString)

/-- The stand-in codec `datedCodec` with the MAC of `HS256` over the stand-in hash. -/
def hmacCodec : JWTCodec :=
  { encodeClaims := datedCodec.encodeClaims
    signHS256 := hs256Sign standInHash standInEncode }

/-- A parser that decodes the access token that `hmacCodec` makes of `sampleAccessClaims`
with the secret `k`, and verifies `HS256` as the library does. -/
def hmacParser : JWTParser :=
  { ParseUnverified := fun tok =>
      if tok == tokenString hmacCodec "k" sampleAccessClaims then
        .ok (readBack hmacCodec "k" sampleAccessClaims)
      else .error (GoError.ValidationError ValidationErrorMalformed)
    Verify := fun alg signingString signature key =>
      alg == "HS256" && hs256Verify standInHash standInEncode signingString signature key }

/-- The token service of `cmd/main.go` whose secret is `k` followed by a zero byte. -/
def paddedKeyService : TokenService :=
  { sampleTokenService with secretKey := "k\x00" }

/-- The parser `sampleParser` with the order of jwt v4.5.1 and later. -/
def signatureFirstParser : JWTParser :=
  { sampleParser with signatureFirst := true }

end auth

/-! ## Theorems -/

namespace domain

theorem wrapInt64_of_isInt64 {x : Int} (h : isInt64 x) : wrapInt64 x = x := by
  unfold isInt64 at h
  unfold wrapInt64
  omega

theorem wrapInt64_succ {x y : Int} (hx : isInt64 x) (hy : isInt64 y) (h : x < y) :
    wrapInt64 (x + 1) = x + 1 := by
  unfold isInt64 at hx hy
  unfold wrapInt64
  omega

/-! ### Helper lemmas on one call of a `Use...Quota` method -/

theorem canUse_iff (u : User) (k : QuotaKind) :
    u.canUse k = true ↔ u.used k < u.limit k := by
  cases k <;>
    simp [User.canUse, User.CanGenerateAIDescription, User.CanGenerateAIVideo,
      User.CanAutoPost, User.limit, User.used]

theorem useQuota_of_not_canUse (u : User) (k : QuotaKind) (now : Time)
    (h : u.limit k ≤ u.used k) :
    u.useQuota k now = (u, some GoError.ErrQuotaExceeded) := by
  cases k <;>
    simp [User.useQuota, User.UseAIDescriptionQuota, User.UseAIVideoQuota,
      User.UseAutoPostingQuota, User.CanGenerateAIDescription, User.CanGenerateAIVideo,
      User.CanAutoPost, User.limit, User.used] at h ⊢ <;>
    omega

theorem useQuota_of_canUse (u : User) (k : QuotaKind) (now : Time) (hr : u.InRange)
    (h : u.used k < u.limit k) :
    (u.useQuota k now).2 = none ∧
    (u.useQuota k now).1.used k = u.used k + 1 ∧
    (∀ j, j ≠ k → (u.useQuota k now).1.used j = u.used j) ∧
    (∀ j, (u.useQuota k now).1.limit j = u.limit j) ∧
    (u.useQuota k now).1.InRange := by
  obtain ⟨h1, h2, h3, h4, h5, h6⟩ := hr
  cases k
  · have hw := wrapInt64_succ h1 h2 h
    have hlt : u.AIDescriptionQuotaUsed < u.AIDescriptionQuotaLimit := h
    have hi : isInt64 (u.AIDescriptionQuotaUsed + 1) := by
      unfold isInt64 at h1 h2 ⊢; omega
    simp only [User.useQuota, User.UseAIDescriptionQuota, User.CanGenerateAIDescription, hlt,
      decide_True, Bool.not_true, Bool.false_eq_true, if_false, hw]
    refine ⟨trivial, rfl, ?_, ?_, ?_⟩
    · intro j hj; cases j <;> first | rfl | exact absurd rfl hj
    · intro j; cases j <;> rfl
    · exact ⟨hi, h2, h3, h4, h5, h6⟩
  · have hw := wrapInt64_succ h3 h4 h
    have hlt : u.AIVideoQuotaUsed < u.AIVideoQuotaLimit := h
    have hi : isInt64 (u.AIVideoQuotaUsed + 1) := by
      unfold isInt64 at h3 h4 ⊢; omega
    simp only [User.useQuota, User.UseAIVideoQuota, User.CanGenerateAIVideo, hlt,
      decide_True, Bool.not_true, Bool.false_eq_true, if_false, hw]
    refine ⟨trivial, rfl, ?_, ?_, ?_⟩
    · intro j hj; cases j <;> first | rfl | exact absurd rfl hj
    · intro j; cases j <;> rfl
    · exact ⟨h1, h2, hi, h4, h5, h6⟩
  · have hw := wrapInt64_succ h5 h6 h
    have hlt : u.AutoPostingQuotaUsed < u.AutoPostingQuotaLimit := h
    have hi : isInt64 (u.AutoPostingQuotaUsed + 1) := by
      unfold isInt64 at h5 h6 ⊢; omega
    simp only [User.useQuota, User.UseAutoPostingQuota, User.CanAutoPost, hlt,
      decide_True, Bool.not_true, Bool.false_eq_true, if_false, hw]
    refine ⟨trivial, rfl, ?_, ?_, ?_⟩
    · intro j hj; cases j <;> first | rfl | exact absurd rfl hj
    · intro j; cases j <;> rfl
    · exact ⟨h1, h2, h3, h4, hi, h6⟩

theorem useQuota_frame (u : User) (k : QuotaKind) (now : Time) :
    (u.useQuota k now).1.Tier = u.Tier ∧
    (u.useQuota k now).1.ID = u.ID ∧
    (u.useQuota k now).1.Email = u.Email := by
  cases k <;>
    simp only [User.useQuota, User.UseAIDescriptionQuota, User.UseAIVideoQuota,
      User.UseAutoPostingQuota] <;>
    split <;> exact ⟨rfl, rfl, rfl⟩

/-! ### Helper lemmas on a sequence of calls -/

theorem useQuotaSeq_exhausted (k : QuotaKind) (u : User) (nows : List Time)
    (h : u.limit k ≤ u.used k) :
    User.useQuotaSeq k u nows =
      (u, List.replicate nows.length (some GoError.ErrQuotaExceeded)) := by
  induction nows with
  | nil => rfl
  | cons t rest ih =>
    simp only [User.useQuotaSeq, useQuota_of_not_canUse u k t h, ih, List.length_cons,
      List.replicate_succ]

theorem useQuotaSeq_remaining (k : QuotaKind) (d : Nat) :
    ∀ (u : User) (nows : List Time), u.InRange → u.used k + d = u.limit k →
      d ≤ nows.length →
      (User.useQuotaSeq k u nows).2 =
          List.replicate d none ++
            List.replicate (nows.length - d) (some GoError.ErrQuotaExceeded) ∧
        (User.useQuotaSeq k u nows).1.used k = u.limit k ∧
        (User.useQuotaSeq k u nows).1.limit k = u.limit k := by
  induction d with
  | zero =>
    intro u nows _ hd _
    have hle : u.limit k ≤ u.used k := by omega
    rw [useQuotaSeq_exhausted k u nows hle]
    have hd0 : u.used k = u.limit k := by omega
    exact ⟨by simp, hd0, rfl⟩
  | succ d ih =>
    intro u nows hr hd hlen
    cases nows with
    | nil => simp at hlen
    | cons t rest =>
      have hlt : u.used k < u.limit k := by omega
      obtain ⟨h1, h2, _, h4, h5⟩ := useQuota_of_canUse u k t hr hlt
      have hl := h4 k
      have hd1 : (u.useQuota k t).1.used k + d = (u.useQuota k t).1.limit k := by
        rw [h2, hl]; omega
      have hlen1 : d ≤ rest.length := by simpa using hlen
      obtain ⟨r1, r2, r3⟩ := ih (u.useQuota k t).1 rest h5 hd1 hlen1
      simp only [User.useQuotaSeq, List.length_cons]
      refine ⟨?_, ?_, ?_⟩
      · rw [r1, h1, Nat.add_sub_add_right, List.replicate_succ, List.cons_append]
      · rw [r2, hl]
      · rw [r3, hl]

/-! ### The quota ledger -/

/-- C1: for each of the three quota kinds, when the used counter is greater than or equal to
the limit the `Use...Quota` method returns `ErrQuotaExceeded` and the `User` is unchanged in
every field (so also in the used counter and in `UpdatedAt`). -/
theorem use_quota_exceeded (u : User) (k : QuotaKind) (now : Time)
    (h : u.limit k ≤ u.used k) :
    u.useQuota k now = (u, some GoError.ErrQuotaExceeded) :=
  useQuota_of_not_canUse u k now h

/-- Witness of C1 at the example of the specification: limit 5, used 5. -/
theorem use_quota_exceeded_witness :
    sampleUser.limit .aiDescription ≤ sampleUser.used .aiDescription ∧
    sampleUser.useQuota .aiDescription 99 = (sampleUser, some GoError.ErrQuotaExceeded) :=
  ⟨by decide, use_quota_exceeded sampleUser .aiDescription 99 (by decide)⟩

/-- C2: for each of the three quota kinds, when the used counter is strictly below the limit
(which is exactly when the matching `Can...` method returns true) the `Use...Quota` method
returns no error, raises that used counter by exactly 1 and leaves the other two used
counters, the three limits, the tier, the ID and the email unchanged. The fields of the
`User` hold Go `int` values. -/
theorem use_quota_success (u : User) (k : QuotaKind) (now : Time) (hr : u.InRange)
    (h : u.used k < u.limit k) :
    (∀ v : User, v.canUse k = true ↔ v.used k < v.limit k) ∧
    u.canUse k = true ∧
    (u.useQuota k now).2 = none ∧
    (u.useQuota k now).1.used k = u.used k + 1 ∧
    (∀ j, j ≠ k → (u.useQuota k now).1.used j = u.used j) ∧
    (∀ j, (u.useQuota k now).1.limit j = u.limit j) ∧
    (u.useQuota k now).1.Tier = u.Tier ∧
    (u.useQuota k now).1.ID = u.ID ∧
    (u.useQuota k now).1.Email = u.Email := by
  obtain ⟨h1, h2, h3, h4, _⟩ := useQuota_of_canUse u k now hr h
  obtain ⟨f1, f2, f3⟩ := useQuota_frame u k now
  exact ⟨fun v => canUse_iff v k, (canUse_iff u k).2 h, h1, h2, h3, h4, f1, f2, f3⟩

/-- Witness of C2: a free-tier user with 3 of 5 descriptions used. -/
theorem use_quota_success_witness :
    freeUser3.InRange ∧ freeUser3.used .aiDescription < freeUser3.limit .aiDescription ∧
    (freeUser3.useQuota .aiDescription 99).2 = none ∧
    (freeUser3.useQuota .aiDescription 99).1.used .aiDescription = 4 :=
  ⟨by decide, by decide,
    (use_quota_success freeUser3 .aiDescription 99 (by decide) (by decide)).2.2.1,
    (use_quota_success freeUser3 .aiDescription 99 (by decide) (by decide)).2.2.2.1⟩

/-- C3, as stated, fails: `used ≤ limit` holds for `bigQuotaUser` (150 of 200) and is broken
by `UpgradeToPro`, which sets the limit to 100; it holds for `negativeQuotaUser` (-2 of -1)
and is broken by `ResetMonthlyQuotas`, which sets used to 0. -/
theorem quota_inv_not_preserved :
    (bigQuotaUser.InRange ∧ bigQuotaUser.QuotaInv ∧ ¬ (bigQuotaUser.UpgradeToPro 99).QuotaInv) ∧
    (negativeQuotaUser.InRange ∧ negativeQuotaUser.QuotaInv ∧
      ¬ (negativeQuotaUser.ResetMonthlyQuotas 99).QuotaInv) := by
  decide

/-- C3, amended: for every `User` with `used ≤ limit` for the three kinds, the invariant
still holds after each `Use...Quota` method; it holds after `UpgradeToPro` exactly when the
three used counters are at most the pro limits 100, 10 and 1000, and after
`ResetMonthlyQuotas` exactly when no limit is negative. -/
theorem quota_inv_preserved (u : User) (now : Time) (hr : u.InRange) (hi : u.QuotaInv) :
    (∀ k, (u.useQuota k now).1.QuotaInv) ∧
    ((u.UpgradeToPro now).QuotaInv ↔
      u.AIDescriptionQuotaUsed ≤ 100 ∧ u.AIVideoQuotaUsed ≤ 10 ∧
      u.AutoPostingQuotaUsed ≤ 1000) ∧
    ((u.ResetMonthlyQuotas now).QuotaInv ↔
      0 ≤ u.AIDescriptionQuotaLimit ∧ 0 ≤ u.AIVideoQuotaLimit ∧
      0 ≤ u.AutoPostingQuotaLimit) := by
  refine ⟨?_, Iff.rfl, Iff.rfl⟩
  intro k
  obtain ⟨i1, i2, i3⟩ := hi
  by_cases h : u.used k < u.limit k
  · obtain ⟨_, hk, hj, hl, _⟩ := useQuota_of_canUse u k now hr h
    have e1 := hl .aiDescription
    have e2 := hl .aiVideo
    have e3 := hl .autoPosting
    simp only [User.limit] at e1 e2 e3
    unfold User.QuotaInv
    rw [e1, e2, e3]
    cases k
    · have a := hj .aiVideo (by decide)
      have b := hj .autoPosting (by decide)
      simp only [User.used, User.limit] at hk a b h
      rw [hk, a, b]
      exact ⟨by omega, i2, i3⟩
    · have a := hj .aiDescription (by decide)
      have b := hj .autoPosting (by decide)
      simp only [User.used, User.limit] at hk a b h
      rw [hk, a, b]
      exact ⟨i1, by omega, i3⟩
    · have a := hj .aiDescription (by decide)
      have b := hj .aiVideo (by decide)
      simp only [User.used, User.limit] at hk a b h
      rw [hk, a, b]
      exact ⟨i1, i2, by omega⟩
  · rw [useQuota_of_not_canUse u k now (not_lt.mp h)]
    exact ⟨i1, i2, i3⟩

/-- Witness of the amended C3: the user with 3 of 5 descriptions used. -/
theorem quota_inv_preserved_witness :
    freeUser3.InRange ∧ freeUser3.QuotaInv ∧
    (freeUser3.useQuota .aiDescription 99).1.QuotaInv ∧
    (freeUser3.UpgradeToPro 99).QuotaInv ∧ (freeUser3.ResetMonthlyQuotas 99).QuotaInv :=
  ⟨by decide, by decide,
    (quota_inv_preserved freeUser3 99 (by decide) (by decide)).1 .aiDescription,
    (quota_inv_preserved freeUser3 99 (by decide) (by decide)).2.1.2 (by decide),
    (quota_inv_preserved freeUser3 99 (by decide) (by decide)).2.2.2 (by decide)⟩

/-- C4: `UpgradeToPro` sets the tier to pro and the limits to 100, 10 and 1000 and leaves the
three used counters unchanged; for a user with description used = 3 (a free-tier user in
particular) used stays 3 and `CanGenerateAIDescription` is true afterwards. -/
theorem upgrade_to_pro_effect (u : User) (now : Time) :
    (u.UpgradeToPro now).Tier = UserTierPro ∧
    (u.UpgradeToPro now).AIDescriptionQuotaLimit = 100 ∧
    (u.UpgradeToPro now).AIVideoQuotaLimit = 10 ∧
    (u.UpgradeToPro now).AutoPostingQuotaLimit = 1000 ∧
    (u.UpgradeToPro now).AIDescriptionQuotaUsed = u.AIDescriptionQuotaUsed ∧
    (u.UpgradeToPro now).AIVideoQuotaUsed = u.AIVideoQuotaUsed ∧
    (u.UpgradeToPro now).AutoPostingQuotaUsed = u.AutoPostingQuotaUsed ∧
    (u.Tier = UserTierFree → u.AIDescriptionQuotaUsed = 3 →
      (u.UpgradeToPro now).AIDescriptionQuotaUsed = 3 ∧
      (u.UpgradeToPro now).CanGenerateAIDescription = true) := by
  refine ⟨rfl, rfl, rfl, rfl, rfl, rfl, rfl, ?_⟩
  intro _ h3
  simp [User.UpgradeToPro, User.CanGenerateAIDescription, h3]

/-- Witness of C4: the free-tier user with 3 descriptions used. -/
theorem upgrade_to_pro_effect_witness :
    freeUser3.Tier = UserTierFree ∧ freeUser3.AIDescriptionQuotaUsed = 3 ∧
    (freeUser3.UpgradeToPro 99).AIDescriptionQuotaUsed = 3 ∧
    (freeUser3.UpgradeToPro 99).CanGenerateAIDescription = true :=
  ⟨by decide, by decide,
    (upgrade_to_pro_effect freeUser3 99).2.2.2.2.2.2.2 (by decide) (by decide)⟩

/-- C5: for every quota kind and every `User` with `k = limit - used ≥ 0`, calling the
`Use...Quota` method `N > k` times one after the other gives exactly `k` successes followed
by `N - k` results `ErrQuotaExceeded`, and used is equal to limit at the end. -/
theorem use_quota_serialised (u : User) (q : QuotaKind) (nows : List Time) (hr : u.InRange)
    (hk : 0 ≤ u.limit q - u.used q) (hN : (u.limit q - u.used q).toNat < nows.length) :
    (User.useQuotaSeq q u nows).2 =
        List.replicate (u.limit q - u.used q).toNat none ++
          List.replicate (nows.length - (u.limit q - u.used q).toNat)
            (some GoError.ErrQuotaExceeded) ∧
      (User.useQuotaSeq q u nows).1.used q = u.limit q := by
  have hd : u.used q + ((u.limit q - u.used q).toNat : Int) = u.limit q := by
    rw [Int.toNat_of_nonneg hk]; omega
  obtain ⟨r1, r2, _⟩ :=
    useQuotaSeq_remaining q (u.limit q - u.used q).toNat u nows hr hd (Nat.le_of_lt hN)
  exact ⟨r1, r2⟩

/-- Witness of C5: 3 of 5 used, four calls: two successes, then two rejections. -/
theorem use_quota_serialised_witness :
    (User.useQuotaSeq .aiDescription freeUser3 [1, 2, 3, 4]).2 =
        [none, none, some GoError.ErrQuotaExceeded, some GoError.ErrQuotaExceeded] ∧
      (User.useQuotaSeq .aiDescription freeUser3 [1, 2, 3, 4]).1.used .aiDescription = 5 :=
  use_quota_serialised freeUser3 .aiDescription [1, 2, 3, 4] (by decide) (by decide)
    (by decide)

/-- C6: `ResetMonthlyQuotas` sets the three used counters to 0 and leaves the three limits,
the tier, the ID and the email unchanged. -/
theorem reset_monthly_quotas_effect (u : User) (now : Time) :
    (u.ResetMonthlyQuotas now).AIDescriptionQuotaUsed = 0 ∧
    (u.ResetMonthlyQuotas now).AIVideoQuotaUsed = 0 ∧
    (u.ResetMonthlyQuotas now).AutoPostingQuotaUsed = 0 ∧
    (u.ResetMonthlyQuotas now).AIDescriptionQuotaLimit = u.AIDescriptionQuotaLimit ∧
    (u.ResetMonthlyQuotas now).AIVideoQuotaLimit = u.AIVideoQuotaLimit ∧
    (u.ResetMonthlyQuotas now).AutoPostingQuotaLimit = u.AutoPostingQuotaLimit ∧
    (u.ResetMonthlyQuotas now).Tier = u.Tier ∧
    (u.ResetMonthlyQuotas now).ID = u.ID ∧
    (u.ResetMonthlyQuotas now).Email = u.Email :=
  ⟨rfl, rfl, rfl, rfl, rfl, rfl, rfl, rfl, rfl⟩

end domain

namespace auth

/-! ### Helper lemmas on token issuing -/

theorem hexDigit_mem (n : Nat) (h : n < 16) : hexDigit n ∈ "0123456789abcdef".toList := by
  interval_cases n <;> decide

theorem hexChars_mem (bytes : List Nat) :
    ∀ c ∈ hexChars bytes, c ∈ "0123456789abcdef".toList := by
  induction bytes with
  | nil => intro c hc; simp [hexChars] at hc
  | cons b bs ih =>
    intro c hc
    simp only [hexChars, List.mem_cons] at hc
    rcases hc with hc | hc | hc
    · rw [hc]; exact hexDigit_mem _ (by omega)
    · rw [hc]; exact hexDigit_mem _ (by omega)
    · exact ih c hc

theorem generateSecureToken_inv (rnd : List Nat) (length : Nat) (sid : String)
    (h : generateSecureToken rnd length = .ok sid) :
    sid = hexEncodeToString (rnd.take length) := by
  unfold generateSecureToken at h
  split at h
  · cases h
  · cases h; rfl

theorem signedString_ne_hex (lib : JWTCodec) (key : String) (claims : Claims)
    (bytes : List Nat) (tok : String) (h : SignedString lib key claims = .ok tok) :
    tok ≠ hexEncodeToString bytes := by
  intro heq
  unfold SignedString at h
  cases h
  have hy : 'y' ∈ (hexEncodeToString bytes).data := by
    rw [← heq]
    simp [SigningString, hs256Header]
  have hmem := hexChars_mem bytes 'y' hy
  revert hmem
  decide

theorem GenerateTokenPair_inv (s : TokenService) (lib : JWTCodec) (rnd : List Nat)
    (clock : TokenClock) (userID email : String) (pair : TokenPair)
    (h : s.GenerateTokenPair lib rnd clock userID email = .ok pair) :
    ∃ sid, generateSecureToken rnd 32 = .ok sid ∧
      s.generateAccessToken lib clock.accessExp clock.accessIat userID email sid =
        .ok pair.AccessToken ∧
      s.generateRefreshToken lib clock.refreshExp clock.refreshIat userID email sid =
        .ok pair.RefreshToken := by
  unfold TokenService.GenerateTokenPair at h
  split at h
  · cases h
  · rename_i sid hsid
    split at h
    · cases h
    · rename_i acc hacc
      split at h
      · cases h
      · rename_i ref href
        cases h
        exact ⟨sid, hsid, hacc, href⟩

theorem CreateSession_inv {σ : Type} (sm : SessionManager σ) (lib : JWTCodec) (db : σ)
    (rnd : List Nat) (clock : TokenClock) (nowExpires nowCreated : Time)
    (userID userAgent ipAddress : String) (session : Session) (pair : TokenPair)
    (h : (sm.CreateSession lib db rnd clock nowExpires nowCreated userID userAgent
      ipAddress).2 = .ok (session, pair)) :
    sm.tokenService.GenerateTokenPair lib rnd clock userID "" = .ok pair ∧
    session =
      { ID := pair.AccessToken, UserID := userID, RefreshToken := pair.RefreshToken,
        UserAgent := userAgent, IPAddress := ipAddress,
        ExpiresAt := nowExpires + sm.sessionExpiry, CreatedAt := nowCreated } ∧
    sm.repo.Create db session =
      ((sm.CreateSession lib db rnd clock nowExpires nowCreated userID userAgent
        ipAddress).1, none) := by
  unfold SessionManager.CreateSession at h ⊢
  split at h
  · cases h
  · rename_i tp htp
    simp only [htp]
    simp only [] at h
    rcases hc : sm.repo.Create db
      { ID := tp.AccessToken, UserID := userID, RefreshToken := tp.RefreshToken,
        UserAgent := userAgent, IPAddress := ipAddress,
        ExpiresAt := nowExpires + sm.sessionExpiry, CreatedAt := nowCreated } with ⟨db1, _ | err⟩
    · rw [hc] at h
      simp only [Except.ok.injEq, Prod.mk.injEq] at h
      obtain ⟨hs, hp⟩ := h
      subst hp
      subst hs
      exact ⟨rfl, rfl, hc⟩
    · rw [hc] at h
      cases h

end auth

namespace persistence

open auth

/-! ### Helper lemmas on the sessions table -/

/-- On a handle on which no mapper was set, `GetByID` fails in the column check for every
table and every key: the lower-cased field name `userid` is not the column `user_id`. -/
theorem GetByID_sqlxDefault (db : SessionsTable) (sessionID : String) :
    PostgresSessionRepository.GetByID sqlxDefaultHandle db sessionID =
      .error (GoError.New "missing destination name user_id in *auth.Session") :=
  rfl

theorem GetByID_of_scanError (h : SqlxHandle) (db : SessionsTable) (sessionID : String)
    (err : GoError)
    (hs : h.scanError Session.fieldNames sessionColumns "*auth.Session" = some err) :
    PostgresSessionRepository.GetByID h db sessionID = .error err := by
  simp only [PostgresSessionRepository.GetByID, hs]

theorem GetByID_absent (h : SqlxHandle) (db : SessionsTable) (sessionID : String)
    (habs : ∀ row ∈ db, row.ID ≠ sessionID) :
    PostgresSessionRepository.GetByID h db sessionID =
      .error ((h.scanError Session.fieldNames sessionColumns "*auth.Session").getD
        GoError.ErrSessionNotFound) := by
  have hf : db.find? (fun row => row.ID == sessionID) = none := by
    rw [List.find?_eq_none]
    intro row hrow
    simpa using habs row hrow
  unfold PostgresSessionRepository.GetByID
  cases hs : h.scanError Session.fieldNames sessionColumns "*auth.Session" with
  | some err => rfl
  | none => simp only [hf, Option.getD_none]

theorem mem_Delete (db : SessionsTable) (sessionID : String) (row : Session) :
    row ∈ (PostgresSessionRepository.Delete db sessionID).1 ↔
      row ∈ db ∧ row.ID ≠ sessionID := by
  simp [PostgresSessionRepository.Delete, List.mem_filter]

theorem mem_DeleteByUserID (db : SessionsTable) (userID : String) (row : Session) :
    row ∈ (PostgresSessionRepository.DeleteByUserID db userID).1 ↔
      row ∈ db ∧ row.UserID ≠ userID := by
  simp [PostgresSessionRepository.DeleteByUserID, List.mem_filter]

end persistence

namespace auth

open persistence

/-! ### The session manager -/

/-- C7, as stated, fails at `now = expiresAt`: on the in-memory repository the stored
session `sessionA` expires at instant 100, and `ValidateSession` at instant 100 returns it and
leaves the store as it is. -/
theorem validate_session_at_expiry_instant :
    memoryManager.repo.GetByID [sessionA, sessionB] "tok-a" = .ok sessionA ∧
    ¬ ((100 : Time) < sessionA.ExpiresAt) ∧ (100 : Time) ≥ sessionA.ExpiresAt ∧
    memoryManager.ValidateSession [sessionA, sessionB] 100 "tok-a" =
      ([sessionA, sessionB], .ok sessionA) := by
  refine ⟨rfl, by decide, by decide, rfl⟩

/-- C7, amended: for every session repository, every session that its `GetByID` returns for
the ID and every clock value `now`, `ValidateSession` returns the session and leaves the store
unchanged if and only if `now ≤ expiresAt`; when `now > expiresAt` it signals the error
"session expired" and the store is the one that the repository's `Delete` of that ID leaves.
On the Postgres table that `Delete` removes every row with that ID and no other row. -/
theorem validate_session_expiry {σ : Type} (sm : SessionManager σ) (db : σ) (now : Time)
    (sessionID : String) (session : Session)
    (h : sm.repo.GetByID db sessionID = .ok session) :
    (sm.ValidateSession db now sessionID = (db, .ok session) ↔ now ≤ session.ExpiresAt) ∧
    (session.ExpiresAt < now →
      sm.ValidateSession db now sessionID =
        ((sm.repo.Delete db sessionID).1, .error (GoError.New "session expired"))) ∧
    (∀ (table : SessionsTable) (row : Session),
      row ∈ (PostgresSessionRepository.Delete table sessionID).1 ↔
        row ∈ table ∧ row.ID ≠ sessionID) := by
  have hv : sm.ValidateSession db now sessionID =
      if now > session.ExpiresAt then
        ((sm.repo.Delete db sessionID).1, .error (GoError.New "session expired"))
      else (db, .ok session) := by
    simp only [SessionManager.ValidateSession, h]
  refine ⟨?_, ?_, fun table row => mem_Delete table sessionID row⟩
  · rw [hv]
    by_cases hlt : now > session.ExpiresAt
    · rw [if_pos hlt]
      constructor
      · intro heq
        have h2 := congrArg Prod.snd heq
        cases h2
      · intro hle
        exact absurd hlt (not_lt.mpr hle)
    · rw [if_neg hlt]
      exact ⟨fun _ => not_lt.mp hlt, fun _ => rfl⟩
  · intro hlt
    rw [hv, if_pos hlt]

/-- Witness of the amended C7: on the in-memory repository, `sessionA` (expiry 100) validated
at instant 101 is refused and its record is gone. -/
theorem validate_session_expiry_witness :
    memoryManager.repo.GetByID [sessionA, sessionB] "tok-a" = .ok sessionA ∧
    sessionA.ExpiresAt < 101 ∧
    memoryManager.ValidateSession [sessionA, sessionB] 101 "tok-a" =
      ([sessionB], .error (GoError.New "session expired")) :=
  ⟨rfl, by decide,
    (validate_session_expiry memoryManager [sessionA, sessionB] 101 "tok-a" sessionA
      rfl).2.1 (by decide)⟩

/-- C8, as stated, fails: in the login `sampleCreate` the persisted and returned session
has the whole access token string as its ID, and that string differs from the session
identifier `sampleSessionID` that the access token carries in its claims. -/
theorem create_session_id_differs_from_claim :
    ∃ session pair,
      sampleCreate = ([session], .ok (session, pair)) ∧
      generateSecureToken sampleRnd 32 = .ok sampleSessionID ∧
      sampleTokenService.generateAccessToken plainCodec 1000 1001 "u1" "" sampleSessionID =
        .ok pair.AccessToken ∧
      session.ID = pair.AccessToken ∧
      session.ID ≠ sampleSessionID :=
  ⟨_, _, rfl, rfl, rfl, rfl, by decide⟩

/-- C8, amended: the session that `CreateSession` persists and returns has as its ID the
issued access token string itself (the `AccessToken` of the returned pair); that string is
never equal to the session identifier `sid` embedded in the token's claims. -/
theorem create_session_id_is_access_token {σ : Type} (sm : SessionManager σ)
    (lib : JWTCodec) (db : σ) (rnd : List Nat) (clock : TokenClock)
    (nowExpires nowCreated : Time) (userID userAgent ipAddress : String)
    (session : Session) (pair : TokenPair)
    (h : (sm.CreateSession lib db rnd clock nowExpires nowCreated userID userAgent
      ipAddress).2 = .ok (session, pair)) :
    session.ID = pair.AccessToken ∧
    sm.repo.Create db session =
      ((sm.CreateSession lib db rnd clock nowExpires nowCreated userID userAgent
        ipAddress).1, none) ∧
    ∃ sid, generateSecureToken rnd 32 = .ok sid ∧
      sm.tokenService.generateAccessToken lib clock.accessExp clock.accessIat userID "" sid =
        .ok pair.AccessToken ∧
      session.ID ≠ sid := by
  obtain ⟨hp, hs, hc⟩ := CreateSession_inv sm lib db rnd clock nowExpires nowCreated userID
    userAgent ipAddress session pair h
  obtain ⟨sid, hsid, hacc, _⟩ := GenerateTokenPair_inv _ _ _ _ _ _ _ hp
  have hid : session.ID = pair.AccessToken := by rw [hs]
  refine ⟨hid, hc, sid, hsid, hacc, ?_⟩
  rw [hid, generateSecureToken_inv rnd 32 sid hsid]
  exact signedString_ne_hex lib _ _ _ _ hacc

/-- Witness of the amended C8: the login `sampleCreate`. -/
theorem create_session_id_is_access_token_witness :
    ∃ session pair, sampleCreate.2 = .ok (session, pair) ∧ session.ID = pair.AccessToken :=
  ⟨_, _, rfl,
    (create_session_id_is_access_token sampleManager plainCodec [] sampleRnd sampleClock 1004
      1005 "u1" "ua" "ip" _ _ rfl).1⟩

/-- C9, as stated, fails when the creation time is the `CreatedAt` of the session:
`CreateSession` reads the clock once for `ExpiresAt` and a second time for `CreatedAt`. In the
login `lateCreate` on the in-memory repository (readings 1004 and 1100, session TTL 24 hours)
the expiry differs from `CreatedAt` plus the TTL, and a validation at an instant before
`CreatedAt` plus the TTL finds the session expired. -/
theorem create_then_validate_before_created_plus_ttl :
    ∃ session pair,
      lateCreate = ([session], .ok (session, pair)) ∧
      session.CreatedAt = 1100 ∧
      session.ExpiresAt ≠ session.CreatedAt + memoryManager.sessionExpiry ∧
      (86400000001054 : Time) < session.CreatedAt + memoryManager.sessionExpiry ∧
      memoryManager.ValidateSession lateCreate.1 86400000001054 session.ID =
        ([], .error (GoError.New "session expired")) :=
  ⟨_, _, rfl, rfl, by decide, by decide, by decide⟩

/-- C9, amended: on a session store that returns what was created, `CreateSession` followed by
`ValidateSession` on the returned session's ID, at any time up to the session's expiry,
returns the created session (so the same ID, user ID, refresh token, user agent, IP address
and expiry) and leaves the store as it is; the expiry is `nowExpires`, the clock reading that
`CreateSession` takes for it, plus the configured session TTL, whatever the token lifetimes
are. The `CreatedAt` of the session is the second clock reading `nowCreated`: the expiry is
at most `CreatedAt` plus the TTL when the second reading is not earlier than the first, and
equals it exactly when the two readings coincide. -/
theorem create_then_validate {σ : Type} (sm : SessionManager σ) (lib : JWTCodec) (db : σ)
    (rnd : List Nat) (clock : TokenClock) (nowExpires nowCreated : Time)
    (userID userAgent ipAddress : String) (session : Session) (pair : TokenPair)
    (now : Time)
    (hcreate : (sm.CreateSession lib db rnd clock nowExpires nowCreated userID userAgent
      ipAddress).2 = .ok (session, pair))
    (hstore : sm.repo.GetByID
      (sm.CreateSession lib db rnd clock nowExpires nowCreated userID userAgent ipAddress).1
      session.ID = .ok session)
    (hnow : now ≤ nowExpires + sm.sessionExpiry) :
    sm.ValidateSession
        (sm.CreateSession lib db rnd clock nowExpires nowCreated userID userAgent ipAddress).1
        now session.ID =
      ((sm.CreateSession lib db rnd clock nowExpires nowCreated userID userAgent
        ipAddress).1, .ok session) ∧
    session.ExpiresAt = nowExpires + sm.sessionExpiry ∧
    session.ID = pair.AccessToken ∧
    session.UserID = userID ∧
    session.RefreshToken = pair.RefreshToken ∧
    session.UserAgent = userAgent ∧
    session.IPAddress = ipAddress ∧
    session.CreatedAt = nowCreated ∧
    (nowExpires ≤ nowCreated → session.ExpiresAt ≤ session.CreatedAt + sm.sessionExpiry) ∧
    (session.ExpiresAt = session.CreatedAt + sm.sessionExpiry ↔ nowExpires = nowCreated) := by
  obtain ⟨_, hs, _⟩ := CreateSession_inv sm lib db rnd clock nowExpires nowCreated userID
    userAgent ipAddress session pair hcreate
  have hexp : session.ExpiresAt = nowExpires + sm.sessionExpiry := by rw [hs]
  have hcre : session.CreatedAt = nowCreated := by rw [hs]
  have hnot : ¬ now > session.ExpiresAt := by
    rw [hexp]; exact not_lt.mpr hnow
  refine ⟨?_, hexp, by rw [hs], by rw [hs], by rw [hs], by rw [hs], by rw [hs], hcre, ?_, ?_⟩
  · unfold SessionManager.ValidateSession
    rw [hstore]
    simp only [if_neg hnot]
  · intro hle
    rw [hexp, hcre]
    exact add_le_add_right hle _
  · rw [hexp, hcre]
    exact add_left_inj _

/-- Witness of the amended C9: the login `memoryCreate` on the in-memory repository,
validated at instant 2000. -/
theorem create_then_validate_witness :
    ∃ session pair, memoryCreate.2 = .ok (session, pair) ∧
      memoryManager.ValidateSession memoryCreate.1 2000 session.ID =
        (memoryCreate.1, .ok session) ∧
      session.ExpiresAt = 1004 + 86400000000000 :=
  ⟨_, _, rfl,
    (create_then_validate memoryManager plainCodec [] sampleRnd sampleClock 1004 1005 "u1" "ua"
      "ip" _ _ 2000 rfl rfl (by decide)).1,
    (create_then_validate memoryManager plainCodec [] sampleRnd sampleClock 1004 1005 "u1" "ua"
      "ip" _ _ 2000 rfl rfl (by decide)).2.1⟩

/-- C10: `RevokeSession` and `RevokeAllUserSessions` are idempotent. Called when no matching
record exists they return no error and leave the store unchanged; they never return an
error; calling either twice gives the same store and the same result as calling it once;
`RevokeAllUserSessions` removes exactly the records whose user ID matches and leaves the
records of other users as they are. -/
theorem revoke_idempotent (h : SqlxHandle) (uniqueID : Bool) (ts : TokenService)
    (expiry : Duration) (db : SessionsTable) (sessionID userID : String) :
    ((∀ row ∈ db, row.ID ≠ sessionID) →
      (pgManager h uniqueID ts expiry).RevokeSession db sessionID = (db, none)) ∧
    ((∀ row ∈ db, row.UserID ≠ userID) →
      (pgManager h uniqueID ts expiry).RevokeAllUserSessions db userID = (db, none)) ∧
    ((pgManager h uniqueID ts expiry).RevokeSession db sessionID).2 = none ∧
    ((pgManager h uniqueID ts expiry).RevokeAllUserSessions db userID).2 = none ∧
    (pgManager h uniqueID ts expiry).RevokeSession
        ((pgManager h uniqueID ts expiry).RevokeSession db sessionID).1 sessionID =
      (pgManager h uniqueID ts expiry).RevokeSession db sessionID ∧
    (pgManager h uniqueID ts expiry).RevokeAllUserSessions
        ((pgManager h uniqueID ts expiry).RevokeAllUserSessions db userID).1 userID =
      (pgManager h uniqueID ts expiry).RevokeAllUserSessions db userID ∧
    (∀ row, row ∈ ((pgManager h uniqueID ts expiry).RevokeAllUserSessions db userID).1 ↔
      row ∈ db ∧ row.UserID ≠ userID) ∧
    (∀ row, row.UserID ≠ userID →
      ((pgManager h uniqueID ts expiry).RevokeAllUserSessions db userID).1.count row =
        db.count row) := by
  simp only [SessionManager.RevokeSession, SessionManager.RevokeAllUserSessions, pgManager,
    NewSessionManager, NewPostgresSessionRepository]
  refine ⟨?_, ?_, rfl, rfl, ?_, ?_, mem_DeleteByUserID db userID, ?_⟩
  · intro hno
    simp only [PostgresSessionRepository.Delete, Prod.mk.injEq, and_true]
    rw [List.filter_eq_self]
    intro row hrow
    simpa using hno row hrow
  · intro hno
    simp only [PostgresSessionRepository.DeleteByUserID, Prod.mk.injEq, and_true]
    rw [List.filter_eq_self]
    intro row hrow
    simpa using hno row hrow
  · simp only [PostgresSessionRepository.Delete, List.filter_filter, Bool.and_self]
  · simp only [PostgresSessionRepository.DeleteByUserID, List.filter_filter, Bool.and_self]
  · intro row hrow
    simp only [PostgresSessionRepository.DeleteByUserID]
    rw [List.count_filter]
    simpa using hrow

/-- Witness of C10: revoking an unknown session ID and an unknown user on a store of two
sessions. -/
theorem revoke_idempotent_witness :
    (∀ row ∈ [sessionA, sessionB], row.ID ≠ "tok-z") ∧
    (∀ row ∈ [sessionA, sessionB], row.UserID ≠ "u9") ∧
    sampleManager.RevokeSession [sessionA, sessionB] "tok-z" = ([sessionA, sessionB], none) ∧
    sampleManager.RevokeAllUserSessions [sessionA, sessionB] "u9" =
      ([sessionA, sessionB], none) :=
  ⟨by decide, by decide,
    (revoke_idempotent sqlxDefaultHandle true sampleTokenService 86400000000000
      [sessionA, sessionB] "tok-z" "u9").1 (by decide),
    (revoke_idempotent sqlxDefaultHandle true sampleTokenService 86400000000000
      [sessionA, sessionB] "tok-z" "u9").2.1 (by decide)⟩

end auth

namespace auth

open persistence

/-! ### No way back to an active session -/

theorem pg_step_sublist (h : SqlxHandle) (uniqueID : Bool) (ts : TokenService)
    (expiry : Duration) (db : SessionsTable) (op : SessionOp) :
    ((pgManager h uniqueID ts expiry).step db op).1.Sublist db := by
  cases op with
  | validateSession now sessionID =>
    simp only [SessionManager.step, SessionManager.ValidateSession, pgManager,
      NewSessionManager, NewPostgresSessionRepository]
    cases hg : PostgresSessionRepository.GetByID h db sessionID with
    | error e => exact List.Sublist.refl db
    | ok session =>
      simp only []
      split
      · exact List.filter_sublist db
      · exact List.Sublist.refl db
  | refreshSession lib P rnd clock nowValid nowUntil refreshToken =>
    exact List.Sublist.refl db
  | revokeSession sessionID => exact List.filter_sublist db
  | revokeAllUserSessions userID => exact List.filter_sublist db

theorem pg_run_sublist (h : SqlxHandle) (uniqueID : Bool) (ts : TokenService)
    (expiry : Duration) (ops : List SessionOp) :
    ∀ db : SessionsTable, ((pgManager h uniqueID ts expiry).run db ops).Sublist db := by
  induction ops with
  | nil => intro db; exact List.Sublist.refl db
  | cons op ops ih =>
    intro db
    exact (ih _).trans (pg_step_sublist h uniqueID ts expiry db op)

theorem pg_validate_absent (h : SqlxHandle) (uniqueID : Bool) (ts : TokenService)
    (expiry : Duration) (db : SessionsTable) (now : Time) (sessionID : String)
    (habs : ∀ row ∈ db, row.ID ≠ sessionID) :
    (pgManager h uniqueID ts expiry).ValidateSession db now sessionID =
      (db, .error ((h.scanError Session.fieldNames sessionColumns "*auth.Session").getD
        GoError.ErrSessionNotFound)) := by
  simp only [SessionManager.ValidateSession, pgManager, NewSessionManager,
    NewPostgresSessionRepository, GetByID_absent h db sessionID habs]

/-- C11: once a session ID has been removed by `RevokeSession`, by `RevokeAllUserSessions`
(of the user that owns its records) or by a `ValidateSession` that found it expired, no
record with that ID is in the store; from a store without such a record, after any sequence
of `ValidateSession`, `RefreshSession`, `RevokeSession` and `RevokeAllUserSessions` calls,
`ValidateSession` for that ID fails at every clock value, with `ErrSessionNotFound` when the
handle finds a field for every selected column and with the error of the column check
otherwise; and no sequence of these calls adds a record: the store it leaves is a sublist of
the store it started from. -/
theorem removed_session_stays_invalid (h : SqlxHandle) (uniqueID : Bool) (ts : TokenService)
    (expiry : Duration) (db : SessionsTable) (sessionID : String) :
    (∀ row ∈ ((pgManager h uniqueID ts expiry).RevokeSession db sessionID).1,
      row.ID ≠ sessionID) ∧
    (∀ userID, (∀ row ∈ db, row.ID = sessionID → row.UserID = userID) →
      ∀ row ∈ ((pgManager h uniqueID ts expiry).RevokeAllUserSessions db userID).1,
        row.ID ≠ sessionID) ∧
    (∀ now session, PostgresSessionRepository.GetByID h db sessionID = .ok session →
      session.ExpiresAt < now →
      ∀ row ∈ ((pgManager h uniqueID ts expiry).ValidateSession db now sessionID).1,
        row.ID ≠ sessionID) ∧
    ((∀ row ∈ db, row.ID ≠ sessionID) → ∀ (ops : List SessionOp) (now : Time),
      (pgManager h uniqueID ts expiry).ValidateSession
          ((pgManager h uniqueID ts expiry).run db ops) now sessionID =
        ((pgManager h uniqueID ts expiry).run db ops,
          .error ((h.scanError Session.fieldNames sessionColumns "*auth.Session").getD
            GoError.ErrSessionNotFound))) ∧
    (∀ ops : List SessionOp, ((pgManager h uniqueID ts expiry).run db ops).Sublist db) := by
  refine ⟨?_, ?_, ?_, ?_, fun ops => pg_run_sublist h uniqueID ts expiry ops db⟩
  · intro row hrow
    exact ((mem_Delete db sessionID row).1 hrow).2
  · intro userID hown row hrow hid
    have hm := (mem_DeleteByUserID db userID row).1 hrow
    exact hm.2 (hown row hm.1 hid)
  · intro now session hget hlt row hrow
    have hv : (pgManager h uniqueID ts expiry).ValidateSession db now sessionID =
        ((PostgresSessionRepository.Delete db sessionID).1,
          .error (GoError.New "session expired")) := by
      simp only [SessionManager.ValidateSession, pgManager, NewSessionManager,
        NewPostgresSessionRepository, hget]
      rw [if_pos hlt]
    rw [hv] at hrow
    exact ((mem_Delete db sessionID row).1 hrow).2
  · intro habs ops now
    apply pg_validate_absent
    intro row hrow
    exact habs row ((pg_run_sublist h uniqueID ts expiry ops db).subset hrow)

/-- Witness of C11: on a store without `tok-a`, a validation of `tok-a`, a refresh, a
revocation of all sessions of `u1` and a revocation of `tok-a` are made; a later validation
does not find `tok-a`. The handle is one on which no mapper was set, so the lookup fails in
the column check. -/
theorem removed_session_stays_invalid_witness :
    (∀ row ∈ [sessionB], row.ID ≠ "tok-a") ∧
    sampleManager.ValidateSession
        (sampleManager.run [sessionB]
          [.validateSession 5 "tok-a",
           .refreshSession datedCodec sampleParser sampleRnd sampleClock 5 6 sampleRefreshToken,
           .revokeAllUserSessions "u1", .revokeSession "tok-a"])
        7 "tok-a" =
      (sampleManager.run [sessionB]
          [.validateSession 5 "tok-a",
           .refreshSession datedCodec sampleParser sampleRnd sampleClock 5 6 sampleRefreshToken,
           .revokeAllUserSessions "u1", .revokeSession "tok-a"],
        .error (GoError.New "missing destination name user_id in *auth.Session")) :=
  ⟨by decide,
    (removed_session_stays_invalid sqlxDefaultHandle true sampleTokenService 86400000000000
      [sessionB] "tok-a").2.2.2.1 (by decide) _ 7⟩

end auth

namespace auth

/-! ### Helper lemmas on token validation -/

theorem hexChars_length (bytes : List Nat) : (hexChars bytes).length = 2 * bytes.length := by
  induction bytes with
  | nil => rfl
  | cons b bs ih => simp only [hexChars, List.length_cons, ih]; omega

theorem hexEncodeToString_length (bytes : List Nat) :
    (hexEncodeToString bytes).length = 2 * bytes.length := by
  simp only [hexEncodeToString, String.length, hexChars_length]

theorem generateAccessToken_eq (s : TokenService) (lib : JWTCodec) (nowExp nowIat : Time)
    (userID email sessionID : String) :
    s.generateAccessToken lib nowExp nowIat userID email sessionID =
      .ok (tokenString lib s.secretKey (s.accessClaims nowExp nowIat userID email sessionID)) :=
  rfl

theorem generateRefreshToken_eq (s : TokenService) (lib : JWTCodec) (nowExp nowIat : Time)
    (userID email sessionID : String) :
    s.generateRefreshToken lib nowExp nowIat userID email sessionID =
      .ok (tokenString lib s.secretKey
        (s.refreshClaims nowExp nowIat userID email sessionID)) :=
  rfl

theorem GenerateTokenPair_eq (s : TokenService) (lib : JWTCodec) (rnd : List Nat)
    (clock : TokenClock) (userID email : String) (h : 32 ≤ rnd.length) :
    s.GenerateTokenPair lib rnd clock userID email =
      .ok { AccessToken := tokenString lib s.secretKey
              (s.accessClaims clock.accessExp clock.accessIat userID email
                (hexEncodeToString (rnd.take 32)))
            RefreshToken := tokenString lib s.secretKey
              (s.refreshClaims clock.refreshExp clock.refreshIat userID email
                (hexEncodeToString (rnd.take 32)))
            TokenType := "Bearer"
            ExpiresIn := Int.tdiv s.accessTokenExp 1000000000 } := by
  have hg : generateSecureToken rnd 32 = .ok (hexEncodeToString (rnd.take 32)) := by
    unfold generateSecureToken
    rw [if_neg (by omega)]
  simp only [TokenService.GenerateTokenPair, hg, generateAccessToken_eq,
    generateRefreshToken_eq]

/-- The value of `validateToken` on a token string that parses with a method of the HMAC
family: the flags are those of the claim validation and of the signature check, combined in
the order of the library version. -/
theorem validateToken_of_parsed (s : TokenService) (P : JWTParser) (nowValid nowUntil : Time)
    (tok tokenType : String) (pt : ParsedToken)
    (hparse : P.ParseUnverified tok = .ok pt)
    (hmethod : isSigningMethodHMAC pt.Method = true) :
    s.validateToken P nowValid nowUntil tok tokenType =
      if (if P.Verify pt.Method pt.SigningString pt.Signature s.secretKey then
            pt.Claims.RegisteredClaims.validationErrors nowValid
          else if P.signatureFirst then ValidationErrorSignatureInvalid
          else pt.Claims.RegisteredClaims.validationErrors nowValid |||
            ValidationErrorSignatureInvalid) = 0 then
        if tokenType == "access" then
          match pt.Claims.RegisteredClaims.ExpiresAt with
          | none => .error (GoError.Panic "nil pointer dereference")
          | some exp =>
            if timeSub exp nowUntil > s.refreshTokenExp then
              .error (GoError.New "invalid token type")
            else .ok pt.Claims
        else .ok pt.Claims
      else
        .error (GoError.ValidationError
          (if P.Verify pt.Method pt.SigningString pt.Signature s.secretKey then
            pt.Claims.RegisteredClaims.validationErrors nowValid
          else if P.signatureFirst then ValidationErrorSignatureInvalid
          else pt.Claims.RegisteredClaims.validationErrors nowValid |||
            ValidationErrorSignatureInvalid)) := by
  have hce : (match pt.Claims.RegisteredClaims.Valid nowValid with
      | none => 0
      | some (GoError.ValidationError errs) => errs
      | some _ => ValidationErrorClaimsInvalid) =
      pt.Claims.RegisteredClaims.validationErrors nowValid := by
    unfold RegisteredClaims.Valid
    split_ifs with h0
    · simp only [h0]
    · rfl
  have hsig : ValidationErrorSignatureInvalid ≠ 0 := by decide
  simp only [TokenService.validateToken, ParseWithClaims, hparse, TokenService.keyFunc,
    hmethod, Bool.not_true, Bool.false_eq_true, if_false, hce]
  cases hfirst : P.signatureFirst <;>
    cases hver : P.Verify pt.Method pt.SigningString pt.Signature s.secretKey <;>
    simp only [Bool.false_eq_true, if_false, if_true, Bool.not_false, Bool.not_true,
      if_neg hsig] <;>
    split_ifs <;> rfl

/-- A token string that parses with a method outside the HMAC family is refused by the key
function. -/
theorem validateToken_of_not_hmac (s : TokenService) (P : JWTParser)
    (nowValid nowUntil : Time) (tok tokenType : String) (pt : ParsedToken)
    (hparse : P.ParseUnverified tok = .ok pt)
    (hmethod : isSigningMethodHMAC pt.Method = false) :
    s.validateToken P nowValid nowUntil tok tokenType =
      .error (GoError.ValidationError ValidationErrorUnverifiable) := by
  simp only [TokenService.validateToken, ParseWithClaims, hparse, TokenService.keyFunc,
    hmethod, Bool.not_false, if_true]

theorem validateToken_of_parse_error (s : TokenService) (P : JWTParser)
    (nowValid nowUntil : Time) (tok tokenType : String) (err : GoError)
    (hparse : P.ParseUnverified tok = .error err) :
    s.validateToken P nowValid nowUntil tok tokenType = .error err := by
  simp only [TokenService.validateToken, ParseWithClaims, hparse]

end auth

namespace auth

theorem validationErrors_of_dates (rc : RegisteredClaims) (now exp iat : Time)
    (he : rc.ExpiresAt = some exp) (hi : rc.IssuedAt = some iat) (hn : rc.NotBefore = none) :
    rc.validationErrors now =
      (if now < exp then 0 else ValidationErrorExpired) |||
        (if iat ≤ now then 0 else ValidationErrorIssuedAt) := by
  simp only [RegisteredClaims.validationErrors, RegisteredClaims.VerifyExpiresAt,
    RegisteredClaims.VerifyIssuedAt, RegisteredClaims.VerifyNotBefore, he, hi, hn,
    decide_eq_true_eq, Bool.not_false, if_true, Nat.or_zero]

theorem NewNumericDate_le (t : Time) : NewNumericDate t ≤ t := by
  unfold NewNumericDate
  exact Int.sub_le_self t (Int.emod_nonneg t (by decide))

theorem timeSub_le (t u bound : Time) (hb : isInt64 bound) (h : t - u ≤ bound) :
    timeSub t u ≤ bound := by
  unfold timeSub
  unfold isInt64 at hb
  rcases le_total (2 ^ 63 - 1) (t - u) with h1 | h1
  · rw [min_eq_left h1]
    have h2 : (2 : Int) ^ 63 - 1 ≤ bound := le_trans h1 h
    exact max_le hb.1 h2
  · rw [min_eq_right h1]
    exact max_le hb.1 h

theorem or_signatureInvalid_ne_zero (n : Nat) : n ||| ValidationErrorSignatureInvalid ≠ 0 := by
  intro h
  have := congrArg (fun m => m.testBit 2) h
  simp [Nat.testBit_or, ValidationErrorSignatureInvalid] at this
  exact absurd this.2 (by decide)

end auth

namespace auth

/-! ### Refreshing and validating tokens -/

/-- C12: for every refresh token that passes validation, `RefreshSession` (given 32 random
bytes) returns a pair whose access and refresh tokens are signed over claim sets that carry
the user ID of the presented token as user ID and as subject, its email, and one freshly
generated session identifier shared by both, the hexadecimal text of the 32 bytes that
`crypto/rand` delivers to this call; the subject equals the presented subject when the
presented token has its user ID as subject, as every token of this service has. For a token
that fails validation it returns that error and no pair. -/
theorem refresh_session_same_user {σ : Type} (sm : SessionManager σ) (lib : JWTCodec)
    (P : JWTParser) (rnd : List Nat) (clock : TokenClock) (nowValid nowUntil : Time)
    (refreshToken : String) :
    (∀ claims, sm.tokenService.ValidateRefreshToken P nowValid nowUntil refreshToken =
        .ok claims → 32 ≤ rnd.length →
      ∃ pair ca cr sid,
        sm.RefreshSession lib P rnd clock nowValid nowUntil refreshToken = .ok pair ∧
        generateSecureToken rnd 32 = .ok sid ∧
        sid = hexEncodeToString (rnd.take 32) ∧
        sid.length = 64 ∧
        SignedString lib sm.tokenService.secretKey ca = .ok pair.AccessToken ∧
        SignedString lib sm.tokenService.secretKey cr = .ok pair.RefreshToken ∧
        ca.UserID = claims.UserID ∧ ca.RegisteredClaims.Subject = claims.UserID ∧
        ca.Email = claims.Email ∧ ca.SessionID = sid ∧
        cr.UserID = claims.UserID ∧ cr.RegisteredClaims.Subject = claims.UserID ∧
        cr.Email = claims.Email ∧ cr.SessionID = sid ∧
        (claims.RegisteredClaims.Subject = claims.UserID →
          ca.RegisteredClaims.Subject = claims.RegisteredClaims.Subject ∧
          cr.RegisteredClaims.Subject = claims.RegisteredClaims.Subject)) ∧
    (∀ err, sm.tokenService.ValidateRefreshToken P nowValid nowUntil refreshToken =
        .error err →
      sm.RefreshSession lib P rnd clock nowValid nowUntil refreshToken = .error err) := by
  constructor
  · intro claims hval hrnd
    have hg : generateSecureToken rnd 32 = .ok (hexEncodeToString (rnd.take 32)) := by
      unfold generateSecureToken
      rw [if_neg (by omega)]
    refine ⟨{ AccessToken := tokenString lib sm.tokenService.secretKey
                (sm.tokenService.accessClaims clock.accessExp clock.accessIat claims.UserID
                  claims.Email (hexEncodeToString (rnd.take 32)))
              RefreshToken := tokenString lib sm.tokenService.secretKey
                (sm.tokenService.refreshClaims clock.refreshExp clock.refreshIat claims.UserID
                  claims.Email (hexEncodeToString (rnd.take 32)))
              TokenType := "Bearer"
              ExpiresIn := Int.tdiv sm.tokenService.accessTokenExp 1000000000 },
      sm.tokenService.accessClaims clock.accessExp clock.accessIat claims.UserID
        claims.Email (hexEncodeToString (rnd.take 32)),
      sm.tokenService.refreshClaims clock.refreshExp clock.refreshIat claims.UserID
        claims.Email (hexEncodeToString (rnd.take 32)),
      hexEncodeToString (rnd.take 32), ?_, hg, rfl, ?_, rfl, rfl, rfl, rfl, rfl, rfl, rfl,
      rfl, rfl, rfl, ?_⟩
    · simp only [SessionManager.RefreshSession, hval]
      exact GenerateTokenPair_eq _ lib rnd clock _ _ hrnd
    · rw [hexEncodeToString_length, List.length_take, min_eq_left hrnd]
    · intro hsub
      exact ⟨hsub.symm, hsub.symm⟩
  · intro err hval
    simp only [SessionManager.RefreshSession, hval]

/-- Witness of C12: the refresh token of `samplePair`, presented at instant 5. -/
theorem refresh_session_same_user_witness :
    sampleTokenService.ValidateRefreshToken sampleParser 5 6 sampleRefreshToken =
      .ok sampleRefreshClaims ∧
    ∃ pair, sampleManager.RefreshSession datedCodec sampleParser sampleRnd sampleClock 5 6
      sampleRefreshToken = .ok pair :=
  ⟨by decide,
    match (refresh_session_same_user sampleManager datedCodec sampleParser sampleRnd
      sampleClock 5 6 sampleRefreshToken).1 sampleRefreshClaims (by decide) (by decide) with
    | ⟨pair, _, _, _, h, _⟩ => ⟨pair, h⟩⟩

end auth

namespace auth

/-- C13, as stated, fails. The access token of `samplePair` is issued at the clock reading
1000 ns with a lifetime of 900 s, and its expiry claim is truncated to 900 s: (1) validated
at 900 s + 500 ns, before issue time plus lifetime, it is refused; (2) validated later, it is
refused with the validation error of the library that carries the flag
`ValidationErrorExpired`, which is not `ErrTokenExpired`; (3) the same token issued by a
service whose access lifetime exceeds its refresh lifetime is refused right after issue with
the error "invalid token type". -/
theorem access_token_round_trip_fails :
    (samplePair.map (fun p => p.AccessToken) = .ok sampleAccessToken ∧
      (900000000500 : Time) < sampleClock.accessExp + sampleTokenService.accessTokenExp ∧
      sampleTokenService.ValidateAccessToken sampleParser 900000000500 900000000501
          sampleAccessToken =
        .error (GoError.ValidationError ValidationErrorExpired)) ∧
    (sampleClock.accessExp + sampleTokenService.accessTokenExp < (900000002000 : Time) ∧
      sampleTokenService.ValidateAccessToken sampleParser 900000002000 900000002001
          sampleAccessToken =
        .error (GoError.ValidationError ValidationErrorExpired) ∧
      GoError.ValidationError ValidationErrorExpired ≠ GoError.ErrTokenExpired) ∧
    ((shortRefreshService.GenerateTokenPair datedCodec sampleRnd sampleClock "u1"
          "a@example.com").map (fun p => p.AccessToken) = .ok sampleAccessToken ∧
      shortRefreshService.ValidateAccessToken sampleParser 2000 2001 sampleAccessToken =
        .error (GoError.New "invalid token type")) := by
  decide

/-- C13, amended: with a parser that reads the issued access token back and accepts its own
MAC, `ValidateAccessToken` of the same service returns claims with the given user ID and
email when the validation time is not before the issued-at claim, is before the expiry
claim (issue time plus `accessTokenExp`, truncated to the second) and the time left to the
expiry is at most `refreshTokenExp`; the last condition holds whenever `accessTokenExp` is at
most `refreshTokenExp` and the check is made after the issue. At or after the expiry claim
it fails with the library's validation error that carries `ValidationErrorExpired`. -/
theorem access_token_round_trip (s : TokenService) (lib : JWTCodec) (P : JWTParser)
    (rnd : List Nat) (clock : TokenClock) (userID email : String) (nowValid nowUntil : Time)
    (hrnd : 32 ≤ rnd.length)
    (hread : P.ReadsBack lib s.secretKey
      (s.accessClaims clock.accessExp clock.accessIat userID email
        (hexEncodeToString (rnd.take 32))))
    (hown : P.VerifiesOwn lib s.secretKey
      (s.accessClaims clock.accessExp clock.accessIat userID email
        (hexEncodeToString (rnd.take 32)))) :
    ∃ pair, s.GenerateTokenPair lib rnd clock userID email = .ok pair ∧
      (NewNumericDate clock.accessIat ≤ nowValid →
        nowValid < NewNumericDate (clock.accessExp + s.accessTokenExp) →
        timeSub (NewNumericDate (clock.accessExp + s.accessTokenExp)) nowUntil ≤
          s.refreshTokenExp →
        ∃ claims, s.ValidateAccessToken P nowValid nowUntil pair.AccessToken = .ok claims ∧
          claims.UserID = userID ∧ claims.Email = email) ∧
      (s.accessTokenExp ≤ s.refreshTokenExp → isInt64 s.refreshTokenExp →
        clock.accessExp ≤ nowUntil →
        timeSub (NewNumericDate (clock.accessExp + s.accessTokenExp)) nowUntil ≤
          s.refreshTokenExp) ∧
      (NewNumericDate clock.accessIat ≤ nowValid →
        NewNumericDate (clock.accessExp + s.accessTokenExp) ≤ nowValid →
        s.ValidateAccessToken P nowValid nowUntil pair.AccessToken =
          .error (GoError.ValidationError ValidationErrorExpired)) := by
  refine ⟨_, GenerateTokenPair_eq s lib rnd clock userID email hrnd, ?_, ?_, ?_⟩
  · intro hiat hexp hleft
    refine ⟨s.accessClaims clock.accessExp clock.accessIat userID email
      (hexEncodeToString (rnd.take 32)), ?_, rfl, rfl⟩
    have hv := validateToken_of_parsed s P nowValid nowUntil _ "access" _ hread rfl
    have he := validationErrors_of_dates
      (s.accessClaims clock.accessExp clock.accessIat userID email
        (hexEncodeToString (rnd.take 32))).RegisteredClaims nowValid _ _ rfl rfl rfl
    unfold JWTParser.VerifiesOwn at hown
    simp only [readBack, hown, he, if_pos hexp, if_pos hiat, if_true] at hv
    simp only [TokenService.ValidateAccessToken, hv]
    have hnot : ¬ timeSub (NewNumericDate (clock.accessExp + s.accessTokenExp)) nowUntil >
        s.refreshTokenExp := not_lt.mpr hleft
    simp [TokenService.accessClaims, hnot]
  · intro hle hR hafter
    apply timeSub_le _ _ _ hR
    have h1 := NewNumericDate_le (clock.accessExp + s.accessTokenExp)
    have h2 : clock.accessExp + s.accessTokenExp - nowUntil ≤ s.refreshTokenExp := by
      have : clock.accessExp - nowUntil ≤ 0 := sub_nonpos.mpr hafter
      linarith
    linarith
  · intro hiat hexp
    have hv := validateToken_of_parsed s P nowValid nowUntil _ "access" _ hread rfl
    have he := validationErrors_of_dates
      (s.accessClaims clock.accessExp clock.accessIat userID email
        (hexEncodeToString (rnd.take 32))).RegisteredClaims nowValid _ _ rfl rfl rfl
    unfold JWTParser.VerifiesOwn at hown
    have hnexp : ¬ nowValid < NewNumericDate (clock.accessExp + s.accessTokenExp) :=
      not_lt.mpr hexp
    simp only [readBack, hown, he, if_neg hnexp, if_pos hiat, if_true] at hv
    simp only [TokenService.ValidateAccessToken, hv]
    rw [if_neg (by decide)]
    rfl

/-- Witness of the amended C13: the access token of `samplePair`, validated at instant 5. -/
theorem access_token_round_trip_witness :
    ∃ pair, samplePair = .ok pair ∧
      ∃ claims, sampleTokenService.ValidateAccessToken sampleParser 5 6 pair.AccessToken =
          .ok claims ∧ claims.UserID = "u1" ∧ claims.Email = "a@example.com" :=
  match access_token_round_trip sampleTokenService datedCodec sampleParser sampleRnd
      sampleClock "u1" "a@example.com" 5 6 (by decide) (by decide) (by decide) with
  | ⟨pair, hp, hok, _, _⟩ => ⟨pair, hp, hok (by decide) (by decide) (by decide)⟩

end auth

namespace auth

/-- C14 fails on the code: the refresh token of every pair passes `ValidateAccessToken` of
the service that issued it. With a parser that reads the refresh token back and accepts its
own MAC, at any validation time from the issued-at claim up to the expiry claim, and with the
token type check made after the issue, the time left to the expiry is at most
`refreshTokenExp`, so the check `time.Until(exp) > refreshTokenExp` does not fire and the
claims of the refresh token are returned. -/
theorem refresh_token_passes_as_access (s : TokenService) (lib : JWTCodec) (P : JWTParser)
    (rnd : List Nat) (clock : TokenClock) (userID email : String) (nowValid nowUntil : Time)
    (hrnd : 32 ≤ rnd.length)
    (hread : P.ReadsBack lib s.secretKey
      (s.refreshClaims clock.refreshExp clock.refreshIat userID email
        (hexEncodeToString (rnd.take 32))))
    (hown : P.VerifiesOwn lib s.secretKey
      (s.refreshClaims clock.refreshExp clock.refreshIat userID email
        (hexEncodeToString (rnd.take 32))))
    (hR : isInt64 s.refreshTokenExp)
    (hiat : NewNumericDate clock.refreshIat ≤ nowValid)
    (hexp : nowValid < NewNumericDate (clock.refreshExp + s.refreshTokenExp))
    (hafter : clock.refreshExp ≤ nowUntil) :
    ∃ pair, s.GenerateTokenPair lib rnd clock userID email = .ok pair ∧
      s.ValidateAccessToken P nowValid nowUntil pair.RefreshToken =
        .ok (s.refreshClaims clock.refreshExp clock.refreshIat userID email
          (hexEncodeToString (rnd.take 32))) := by
  refine ⟨_, GenerateTokenPair_eq s lib rnd clock userID email hrnd, ?_⟩
  have hv := validateToken_of_parsed s P nowValid nowUntil _ "access" _ hread rfl
  have he := validationErrors_of_dates
    (s.refreshClaims clock.refreshExp clock.refreshIat userID email
      (hexEncodeToString (rnd.take 32))).RegisteredClaims nowValid _ _ rfl rfl rfl
  unfold JWTParser.VerifiesOwn at hown
  simp only [readBack, hown, he, if_pos hexp, if_pos hiat, if_true] at hv
  simp only [TokenService.ValidateAccessToken, hv]
  have hleft : timeSub (NewNumericDate (clock.refreshExp + s.refreshTokenExp)) nowUntil ≤
      s.refreshTokenExp := by
    apply timeSub_le _ _ _ hR
    have h1 := NewNumericDate_le (clock.refreshExp + s.refreshTokenExp)
    have h2 : clock.refreshExp - nowUntil ≤ 0 := sub_nonpos.mpr hafter
    linarith
  have hnot : ¬ timeSub (NewNumericDate (clock.refreshExp + s.refreshTokenExp)) nowUntil >
      s.refreshTokenExp := not_lt.mpr hleft
  simp [TokenService.refreshClaims, hnot]

/-- Witness of C14: the refresh token of `samplePair` (access lifetime 15 minutes, refresh
lifetime 7 days), presented to `ValidateAccessToken` at instant 2000. -/
theorem refresh_token_passes_as_access_witness :
    sampleTokenService.accessTokenExp < sampleTokenService.refreshTokenExp ∧
    ∃ pair, samplePair = .ok pair ∧
      sampleTokenService.ValidateAccessToken sampleParser 2000 2001 pair.RefreshToken =
        .ok sampleRefreshClaims :=
  ⟨by decide,
    refresh_token_passes_as_access sampleTokenService datedCodec sampleParser sampleRnd
      sampleClock "u1" "a@example.com" 2000 2001 (by decide) (by decide) (by decide)
      (by decide) (by decide) (by decide) (by decide)⟩

theorem hmacKeyBlock_append_zero (hash : List Nat → List Nat) (blockSize : Nat)
    (key : List Nat) (h : key.length < blockSize) :
    hmacKeyBlock hash blockSize (key ++ [0]) = hmacKeyBlock hash blockSize key := by
  unfold hmacKeyBlock
  have h1 : ¬ blockSize < (key ++ [0]).length := by
    simp only [List.length_append, List.length_singleton]; omega
  have h2 : ¬ blockSize < key.length := by omega
  simp only [h1, h2, if_false]
  rw [List.append_assoc]
  congr 1
  have h3 : blockSize - key.length = (blockSize - (key ++ [0]).length) + 1 := by
    simp only [List.length_append, List.length_singleton]; omega
  rw [h3, List.replicate_succ]
  rfl

theorem goBytes_append (a b : String) : goBytes (a ++ b) = goBytes a ++ goBytes b := by
  simp [goBytes]

/-- A key shorter than the block and the same key followed by a zero byte give the same
`HS256` signature, whatever the hash function is. -/
theorem hs256Sign_append_zero (hash : List Nat → List Nat) (encode : List Nat → String)
    (key signingString : String) (h : (goBytes key).length < 64) :
    hs256Sign hash encode (key ++ "\x00") signingString =
      hs256Sign hash encode key signingString := by
  have hz : goBytes "\x00" = [0] := by decide
  unfold hs256Sign hmacSum
  rw [goBytes_append, hz, hmacKeyBlock_append_zero hash 64 (goBytes key) h]

/-- C15, as stated, fails. On the error value: the access and the refresh token of
`samplePair`, signed with the secret `k`, are refused by the service with the secret `k2`
with the validation error of the library that carries `ValidationErrorSignatureInvalid`,
which is not `ErrInvalidToken`. On the keys: the service whose secret is `k` followed by a
zero byte, a secret different from `k`, accepts the access token signed with `k`, because
`HS256` pads both keys to the same block. -/
theorem foreign_key_error_is_not_ErrInvalidToken :
    otherKeyService.secretKey ≠ sampleTokenService.secretKey ∧
    otherKeyService.ValidateAccessToken sampleParser 5 6 sampleAccessToken =
      .error (GoError.ValidationError ValidationErrorSignatureInvalid) ∧
    otherKeyService.ValidateRefreshToken sampleParser 5 6 sampleRefreshToken =
      .error (GoError.ValidationError ValidationErrorSignatureInvalid) ∧
    GoError.ValidationError ValidationErrorSignatureInvalid ≠ GoError.ErrInvalidToken ∧
    paddedKeyService.secretKey ≠ sampleTokenService.secretKey ∧
    SignedString hmacCodec sampleTokenService.secretKey sampleAccessClaims =
      .ok (tokenString hmacCodec "k" sampleAccessClaims) ∧
    paddedKeyService.ValidateAccessToken hmacParser 5 6
        (tokenString hmacCodec "k" sampleAccessClaims) = .ok sampleAccessClaims := by
  refine ⟨by decide, by decide, by decide, by decide, by decide, rfl, ?_⟩
  have hpad : hs256Sign standInHash standInEncode "k\x00"
      (SigningString hmacCodec sampleAccessClaims) =
      hs256Sign standInHash standInEncode "k" (SigningString hmacCodec sampleAccessClaims) :=
    hs256Sign_append_zero standInHash standInEncode "k" _ (by decide)
  have hparse : hmacParser.ParseUnverified (tokenString hmacCodec "k" sampleAccessClaims) =
      .ok (readBack hmacCodec "k" sampleAccessClaims) := by
    simp only [hmacParser, beq_self_eq_true, if_true]
  have hverify : hmacParser.Verify "HS256" (SigningString hmacCodec sampleAccessClaims)
      (hmacCodec.signHS256 "k" (SigningString hmacCodec sampleAccessClaims))
      paddedKeyService.secretKey = true := by
    show ("HS256" == "HS256" &&
      hs256Verify standInHash standInEncode (SigningString hmacCodec sampleAccessClaims)
        (hs256Sign standInHash standInEncode "k" (SigningString hmacCodec sampleAccessClaims))
        "k\x00") = true
    unfold hs256Verify
    rw [hpad]
    simp
  have hv := validateToken_of_parsed paddedKeyService hmacParser 5 6 _ "access" _ hparse rfl
  simp only [readBack, hverify, if_true] at hv
  unfold TokenService.ValidateAccessToken
  rw [hv]
  decide

/-- C15, amended: a token signed by a service with secret `k1` over any claim set, read back
by the parser, whose MAC the HS256 check refuses under the secret `k2` of a second service,
fails both `ValidateAccessToken` and `ValidateRefreshToken` of the second service; the
failure is the library's validation error, returned unchanged, whose flags are
`ValidationErrorSignatureInvalid` alone (jwt v4.5.1 and later) or together with those of the
claim validation (up to v4.5.0); in both cases the signature flag is set and the error is not
`ErrInvalidToken`. Not every `k2` different from `k1` refuses the MAC: a key shorter than the
block of the hash and the same key followed by a zero byte sign alike. -/
theorem foreign_key_token_rejected (s1 s2 : TokenService) (lib : JWTCodec) (P : JWTParser)
    (claims : Claims) (nowValid nowUntil : Time)
    (hread : P.ReadsBack lib s1.secretKey claims)
    (hrefused : P.Verify "HS256" (SigningString lib claims)
      (lib.signHS256 s1.secretKey (SigningString lib claims)) s2.secretKey = false) :
    SignedString lib s1.secretKey claims = .ok (tokenString lib s1.secretKey claims) ∧
    s2.ValidateAccessToken P nowValid nowUntil (tokenString lib s1.secretKey claims) =
      .error (GoError.ValidationError
        (if P.signatureFirst then ValidationErrorSignatureInvalid
         else claims.RegisteredClaims.validationErrors nowValid |||
          ValidationErrorSignatureInvalid)) ∧
    s2.ValidateRefreshToken P nowValid nowUntil (tokenString lib s1.secretKey claims) =
      .error (GoError.ValidationError
        (if P.signatureFirst then ValidationErrorSignatureInvalid
         else claims.RegisteredClaims.validationErrors nowValid |||
          ValidationErrorSignatureInvalid)) ∧
    (if P.signatureFirst then ValidationErrorSignatureInvalid
      else claims.RegisteredClaims.validationErrors nowValid |||
        ValidationErrorSignatureInvalid).testBit 2 = true ∧
    (∀ errs, GoError.ValidationError errs ≠ GoError.ErrInvalidToken) ∧
    (∀ (hash : List Nat → List Nat) (encode : List Nat → String) (key signingString : String),
      (goBytes key).length < 64 →
      hs256Sign hash encode (key ++ "\x00") signingString =
        hs256Sign hash encode key signingString) := by
  have hne : (if P.signatureFirst then ValidationErrorSignatureInvalid
      else claims.RegisteredClaims.validationErrors nowValid |||
        ValidationErrorSignatureInvalid) ≠ 0 := by
    split
    · decide
    · exact or_signatureInvalid_ne_zero _
  refine ⟨rfl, ?_, ?_, ?_, fun errs h => GoError.noConfusion h,
    fun hash encode key signingString h => hs256Sign_append_zero hash encode key signingString h⟩
  · have hv := validateToken_of_parsed s2 P nowValid nowUntil _ "access" _ hread rfl
    simp only [readBack, hrefused, Bool.false_eq_true, if_false, if_neg hne] at hv
    exact hv
  · have hv := validateToken_of_parsed s2 P nowValid nowUntil _ "refresh" _ hread rfl
    simp only [readBack, hrefused, Bool.false_eq_true, if_false, if_neg hne] at hv
    exact hv
  · split
    · decide
    · simp [Nat.testBit_or, ValidationErrorSignatureInvalid]
      right
      decide

/-- Witness of the amended C15: the access token of `samplePair` at the service with the
secret `k2`, after its expiry, in both orders of the library. -/
theorem foreign_key_token_rejected_witness :
    otherKeyService.ValidateAccessToken sampleParser 900000002000
        901000000000 (tokenString datedCodec sampleTokenService.secretKey sampleAccessClaims) =
      .error (GoError.ValidationError 20) ∧
    otherKeyService.ValidateAccessToken signatureFirstParser 900000002000
        901000000000 (tokenString datedCodec sampleTokenService.secretKey sampleAccessClaims) =
      .error (GoError.ValidationError 4) :=
  ⟨(foreign_key_token_rejected sampleTokenService otherKeyService datedCodec sampleParser
      sampleAccessClaims 900000002000 901000000000 (by decide) (by decide)).2.1,
    (foreign_key_token_rejected sampleTokenService otherKeyService datedCodec
      signatureFirstParser sampleAccessClaims 900000002000 901000000000 (by decide)
      (by decide)).2.1⟩

/-- C16, as stated, fails: the key function accepts every method of the HMAC family, so the
token `sampleHS384Token`, whose header names `HS384` (not `HS256`) and whose signature
passes the HS384 check under the secret, is accepted and its claims are returned. -/
theorem hs384_token_accepted :
    sampleParser.ParseUnverified sampleHS384Token =
      .ok { Method := "HS384", Claims := sampleAccessClaims,
            SigningString := "hs384-header.claims", Signature := "mac384-k" } ∧
    sampleTokenService.ValidateAccessToken sampleParser 5 6 sampleHS384Token =
      .ok sampleAccessClaims ∧
    sampleTokenService.ValidateRefreshToken sampleParser 5 6 sampleHS384Token =
      .ok sampleAccessClaims := by
  decide

/-- C16, amended: `validateToken` rejects every token whose signing method is not of the
HMAC family (`HS256`, `HS384`, `HS512`), `none` included, with the library's validation
error `ValidationErrorUnverifiable`, for both token types, at every clock value and whatever
its claims and signature are; a token that the library cannot parse is rejected with the
parse error. A token whose method is of the HMAC family, `HS384` and `HS512` included, is
not rejected for its algorithm: when its signature verifies under that method with the
service's secret, it is accepted when its claims pass the validation of the dates and, for
an access token, the token type check; when the validation of the dates fails it is rejected
with the flags of that validation. -/
theorem non_hmac_token_rejected (s : TokenService) (P : JWTParser) (nowValid nowUntil : Time)
    (tok tokenType : String) :
    (∀ pt, P.ParseUnverified tok = .ok pt → isSigningMethodHMAC pt.Method = false →
      s.validateToken P nowValid nowUntil tok tokenType =
        .error (GoError.ValidationError ValidationErrorUnverifiable)) ∧
    (∀ err, P.ParseUnverified tok = .error err →
      s.validateToken P nowValid nowUntil tok tokenType = .error err) ∧
    (∀ alg, isSigningMethodHMAC alg = true ↔ alg = "HS256" ∨ alg = "HS384" ∨ alg = "HS512") ∧
    isSigningMethodHMAC "none" = false ∧
    (∀ pt, P.ParseUnverified tok = .ok pt →
      (pt.Method = "HS256" ∨ pt.Method = "HS384" ∨ pt.Method = "HS512") →
      P.Verify pt.Method pt.SigningString pt.Signature s.secretKey = true →
      pt.Claims.RegisteredClaims.validationErrors nowValid = 0 →
      (tokenType ≠ "access" ∨
        ∃ exp, pt.Claims.RegisteredClaims.ExpiresAt = some exp ∧
          timeSub exp nowUntil ≤ s.refreshTokenExp) →
      s.validateToken P nowValid nowUntil tok tokenType = .ok pt.Claims) ∧
    (∀ pt, P.ParseUnverified tok = .ok pt →
      (pt.Method = "HS256" ∨ pt.Method = "HS384" ∨ pt.Method = "HS512") →
      P.Verify pt.Method pt.SigningString pt.Signature s.secretKey = true →
      pt.Claims.RegisteredClaims.validationErrors nowValid ≠ 0 →
      s.validateToken P nowValid nowUntil tok tokenType =
        .error (GoError.ValidationError
          (pt.Claims.RegisteredClaims.validationErrors nowValid))) := by
  have hfam : ∀ alg, isSigningMethodHMAC alg = true ↔
      alg = "HS256" ∨ alg = "HS384" ∨ alg = "HS512" := by
    intro alg
    simp [isSigningMethodHMAC, or_assoc]
  refine ⟨fun pt hp hm => validateToken_of_not_hmac s P nowValid nowUntil tok tokenType pt hp hm,
    fun err hp => validateToken_of_parse_error s P nowValid nowUntil tok tokenType err hp,
    hfam, by decide, ?_, ?_⟩
  · intro pt hp hm hver hclaims htype
    have hv := validateToken_of_parsed s P nowValid nowUntil tok tokenType pt hp
      ((hfam pt.Method).2 hm)
    simp only [hver, if_true, hclaims] at hv
    rw [hv]
    rcases htype with hne | ⟨exp, hexp, hle⟩
    · have hb : (tokenType == "access") = false := by simpa using hne
      simp only [hb, Bool.false_eq_true, if_false]
    · have hnot : ¬ timeSub exp nowUntil > s.refreshTokenExp := not_lt.mpr hle
      simp only [hexp, hnot, if_false]
      split <;> rfl
  · intro pt hp hm hver hclaims
    have hv := validateToken_of_parsed s P nowValid nowUntil tok tokenType pt hp
      ((hfam pt.Method).2 hm)
    simp only [hver, if_true, if_neg hclaims] at hv
    exact hv

/-- Witness of the amended C16: the token `sampleNoneToken`, whose header names `none`, is
rejected; the tokens `sampleHS384Token` and `sampleHS512Token` are accepted before their
expiry, and `sampleHS384Token` is rejected as expired after it. -/
theorem non_hmac_token_rejected_witness :
    sampleTokenService.validateToken sampleParser 5 6 sampleNoneToken "access" =
      .error (GoError.ValidationError ValidationErrorUnverifiable) ∧
    sampleTokenService.validateToken sampleParser 5 6 sampleHS384Token "access" =
      .ok sampleAccessClaims ∧
    sampleTokenService.validateToken sampleParser 5 6 sampleHS512Token "refresh" =
      .ok sampleAccessClaims ∧
    sampleTokenService.validateToken sampleParser 900000002000 900000002001
        sampleHS384Token "access" =
      .error (GoError.ValidationError ValidationErrorExpired) :=
  ⟨(non_hmac_token_rejected sampleTokenService sampleParser 5 6 sampleNoneToken "access").1
      { Method := "none", Claims := sampleAccessClaims,
        SigningString := "none-header.claims", Signature := "" } (by decide) (by decide),
    (non_hmac_token_rejected sampleTokenService sampleParser 5 6 sampleHS384Token
      "access").2.2.2.2.1
      { Method := "HS384", Claims := sampleAccessClaims,
        SigningString := "hs384-header.claims", Signature := "mac384-k" } (by decide)
      (by decide) (by decide) (by decide) (Or.inr ⟨900000000000, by decide, by decide⟩),
    (non_hmac_token_rejected sampleTokenService sampleParser 5 6 sampleHS512Token
      "refresh").2.2.2.2.1
      { Method := "HS512", Claims := sampleAccessClaims,
        SigningString := "hs512-header.claims", Signature := "mac512-k" } (by decide)
      (by decide) (by decide) (by decide) (Or.inl (by decide)),
    (non_hmac_token_rejected sampleTokenService sampleParser 900000002000 900000002001
      sampleHS384Token "access").2.2.2.2.2
      { Method := "HS384", Claims := sampleAccessClaims,
        SigningString := "hs384-header.claims", Signature := "mac384-k" } (by decide)
      (by decide) (by decide) (by decide)⟩

end auth

namespace authservice

open domain

/-! ### Registration and the event channel -/

theorem PublishUserRegistered_userPtr {β : Type} (u : events.UniversalEventPublisher β)
    (lib : GoLib) (bus : β) (eventID : String) (now : Time) (user : User) :
    u.PublishUserRegistered lib bus eventID now (.userPtr user) = (bus, none) :=
  rfl

/-- C17 fails on the code: `AuthService.Register`, wired to the `UniversalEventPublisher` as
in `cmd/main.go`, hands no event to the event channel, whether it succeeds or not. The
publisher receives the `*domain.User`, which is not a `map[string]interface{}`, takes the
`default` branch of its type switch and returns `nil` without a call of `Publish`: the
state of the channel after the registration is the state before it, for every channel. -/
theorem register_hands_no_event {ρ σ β : Type} (userRepo : UserRepository ρ)
    (sessionManager : auth.SessionManager σ) (tokenService : auth.TokenService)
    (u : events.UniversalEventPublisher β) (lib : GoLib) (eventID : String)
    (nowData now : Time) (jwt : auth.JWTCodec) (db : ρ) (bus : β) (newID : UUID)
    (nowCreated nowUpdated : Time) (rnd : List Nat) (clock : auth.TokenClock)
    (req : RegisterRequest) :
    (AuthService.Register
      { userRepo := userRepo, sessionManager := sessionManager,
        eventPublisher := universalPublisher u lib eventID nowData now,
        tokenService := tokenService }
      lib jwt db bus newID nowCreated nowUpdated rnd clock req).2.1 = bus ∧
    ∀ user : User, u.PublishUserRegistered lib bus eventID now (.userPtr user) =
      (bus, none) := by
  refine ⟨?_, fun user => PublishUserRegistered_userPtr u lib bus eventID now user⟩
  unfold AuthService.Register
  split
  · rfl
  · split
    · rfl
    · split
      · rfl
      · dsimp only
        split
        · rfl
        · split
          · rfl
          · rfl

/-- Witness of C17: the registration `sampleRegister` succeeds, stores the user, and the
recording channel stays empty. -/
theorem register_hands_no_event_witness :
    (∃ resp, sampleRegister.2.2 = .ok resp ∧ sampleRegister.1 = [resp.User]) ∧
    sampleRegister.2.1 = [] :=
  ⟨⟨_, rfl, rfl⟩,
    (register_hands_no_event (NewPostgresUserRepository sampleSchema) auth.sampleManager
      auth.sampleTokenService (events.NewUniversalEventPublisher events.recordingBus)
      sampleLib "event-1" 3000 3001 auth.plainCodec [] [] 7 2000 2001 auth.sampleRnd
      auth.sampleClock
      { Email := "a@example.com", Password := "Abcdef1!", FullName := "A" }).1⟩

end authservice

namespace userservice

open domain

/-! ### The replicator -/

theorem Create_of_admitted (r : PostgresUserRepository) (db : UsersTable) (user : User)
    (h : r.schema.uniqueID = true → ∀ x ∈ db, x.ID ≠ user.ID) :
    r.Create db user = (db ++ [PostgresUserRepository.row user], none) := by
  unfold PostgresUserRepository.Create
  have hc : (r.schema.uniqueID && db.any (fun x => x.ID == user.ID)) = false := by
    cases hu : r.schema.uniqueID with
    | false => rfl
    | true =>
      rw [Bool.true_and, List.any_eq_false]
      intro x hx
      simpa using h hu x hx
  simp only [hc, Bool.false_eq_true, if_false]

theorem handleUserRegistered_of_create {β : Type} (u : UniversalEventSubscriber β)
    (db : UsersTable) (bus : β) (user : User) :
    (match u.userRepo.Create db user with
      | (db1, some err) =>
        (db1, bus, some (GoError.Errorf "failed to create user in user service" err))
      | (db1, none) => (db1, bus, none)) =
    ((u.userRepo.Create db user).1, bus,
      (u.userRepo.Create db user).2.map
        (GoError.Errorf "failed to create user in user service")) := by
  rcases u.userRepo.Create db user with ⟨db1, _ | err⟩ <;> rfl

/-- C18: for every `user.registered` event whose payload decodes and whose `user_id` parses
as a UUID, `handleUserRegistered` hands to the repository's `Create` a replica with the
payload's ID, email and full name, the three used counters 0, and the limits 100, 10, 1000
with tier pro when the payload tier is "pro", the limits 5, 0, 5 with tier free for "free"
and for any other tier text; the handler leaves what `Create` leaves, and when the table
admits the row (no uniqueness constraint, or no row with that ID) the replica is appended to
the table and the handler returns `nil`. -/
theorem handle_user_registered_inserts {β : Type} (u : UniversalEventSubscriber β)
    (lib : GoLib) (db : UsersTable) (bus : β) (nowCreated nowUpdated : Time)
    (event : events.Event) (data : events.UserRegisteredData) (userID : UUID)
    (hdecode : lib.jsonUnmarshalUserRegistered event.Data = .ok data)
    (hparse : lib.uuidParse data.UserID = .ok userID) :
    ∃ user : User,
      u.handleUserRegistered lib db bus nowCreated nowUpdated event =
        ((u.userRepo.Create db user).1, bus,
          (u.userRepo.Create db user).2.map
            (GoError.Errorf "failed to create user in user service")) ∧
      user.ID = userID ∧ user.Email = data.Email ∧ user.FullName = data.FullName ∧
      user.AIDescriptionQuotaUsed = 0 ∧ user.AIVideoQuotaUsed = 0 ∧
      user.AutoPostingQuotaUsed = 0 ∧
      (data.Tier = "pro" → user.Tier = UserTierPro ∧ user.AIDescriptionQuotaLimit = 100 ∧
        user.AIVideoQuotaLimit = 10 ∧ user.AutoPostingQuotaLimit = 1000) ∧
      (data.Tier ≠ "pro" → user.Tier = UserTierFree ∧ user.AIDescriptionQuotaLimit = 5 ∧
        user.AIVideoQuotaLimit = 0 ∧ user.AutoPostingQuotaLimit = 5) ∧
      ((u.userRepo.schema.uniqueID = true → ∀ x ∈ db, x.ID ≠ userID) →
        u.handleUserRegistered lib db bus nowCreated nowUpdated event =
          (db ++ [user], bus, none)) := by
  by_cases hpro : data.Tier = "pro"
  · have heq : u.handleUserRegistered lib db bus nowCreated nowUpdated event =
        ((u.userRepo.Create db
            { ID := userID, Email := data.Email, PasswordHash := "",
              FullName := data.FullName, Tier := UserTierPro,
              AIDescriptionQuotaUsed := 0, AIDescriptionQuotaLimit := 100,
              AIVideoQuotaUsed := 0, AIVideoQuotaLimit := 10,
              AutoPostingQuotaUsed := 0, AutoPostingQuotaLimit := 1000,
              CreatedAt := parseTime lib nowCreated data.CreatedAt,
              UpdatedAt := parseTime lib nowUpdated data.CreatedAt }).1, bus,
          (u.userRepo.Create db
            { ID := userID, Email := data.Email, PasswordHash := "",
              FullName := data.FullName, Tier := UserTierPro,
              AIDescriptionQuotaUsed := 0, AIDescriptionQuotaLimit := 100,
              AIVideoQuotaUsed := 0, AIVideoQuotaLimit := 10,
              AutoPostingQuotaUsed := 0, AutoPostingQuotaLimit := 1000,
              CreatedAt := parseTime lib nowCreated data.CreatedAt,
              UpdatedAt := parseTime lib nowUpdated data.CreatedAt }).2.map
            (GoError.Errorf "failed to create user in user service")) := by
      rw [← handleUserRegistered_of_create u db bus]
      simp only [UniversalEventSubscriber.handleUserRegistered, hdecode, hparse, hpro]
      simp only [show (("pro" : String) == "free") = false by decide,
        show (("pro" : String) == "pro") = true by decide,
        show ((UserTierPro : String) == UserTierFree) = false by decide,
        Bool.false_eq_true, if_false, if_true]
    refine ⟨_, heq, rfl, rfl, rfl, rfl, rfl, rfl, fun _ => ⟨rfl, rfl, rfl, rfl⟩,
      fun h => absurd hpro h, ?_⟩
    intro hadm
    rw [heq, Create_of_admitted u.userRepo db _ hadm]
    rfl
  · have htier : (if (data.Tier == "free") = true then UserTierFree
        else if (data.Tier == "pro") = true then UserTierPro else UserTierFree) =
        UserTierFree := by
      split
      · rfl
      · rw [if_neg (by simpa using hpro)]
    have heq : u.handleUserRegistered lib db bus nowCreated nowUpdated event =
        ((u.userRepo.Create db
            { ID := userID, Email := data.Email, PasswordHash := "",
              FullName := data.FullName, Tier := UserTierFree,
              AIDescriptionQuotaUsed := 0, AIDescriptionQuotaLimit := 5,
              AIVideoQuotaUsed := 0, AIVideoQuotaLimit := 0,
              AutoPostingQuotaUsed := 0, AutoPostingQuotaLimit := 5,
              CreatedAt := parseTime lib nowCreated data.CreatedAt,
              UpdatedAt := parseTime lib nowUpdated data.CreatedAt }).1, bus,
          (u.userRepo.Create db
            { ID := userID, Email := data.Email, PasswordHash := "",
              FullName := data.FullName, Tier := UserTierFree,
              AIDescriptionQuotaUsed := 0, AIDescriptionQuotaLimit := 5,
              AIVideoQuotaUsed := 0, AIVideoQuotaLimit := 0,
              AutoPostingQuotaUsed := 0, AutoPostingQuotaLimit := 5,
              CreatedAt := parseTime lib nowCreated data.CreatedAt,
              UpdatedAt := parseTime lib nowUpdated data.CreatedAt }).2.map
            (GoError.Errorf "failed to create user in user service")) := by
      rw [← handleUserRegistered_of_create u db bus]
      simp only [UniversalEventSubscriber.handleUserRegistered, hdecode, hparse, htier]
      simp only [show ((UserTierFree : String) == UserTierFree) = true by decide, if_true]
    refine ⟨_, heq, rfl, rfl, rfl, rfl, rfl, rfl, fun h => absurd h hpro,
      fun _ => ⟨rfl, rfl, rfl, rfl⟩, ?_⟩
    intro hadm
    rw [heq, Create_of_admitted u.userRepo db _ hadm]
    rfl

/-- Witness of C18: the event `registeredGold`, whose tier text is neither "free" nor
"pro", on a table that holds the replica of user 7. -/
theorem handle_user_registered_inserts_witness :
    ∃ user : User,
      sampleSubscriber.handleUserRegistered sampleLib [replica7] [] 1 2 registeredGold =
        ([replica7, user], [], none) ∧
      user.ID = 9 ∧ user.Tier = UserTierFree ∧ user.AIDescriptionQuotaLimit = 5 ∧
      user.AIVideoQuotaLimit = 0 ∧ user.AutoPostingQuotaLimit = 5 :=
  match handle_user_registered_inserts sampleSubscriber sampleLib [replica7] [] 1 2
      registeredGold
      { UserID := "id-9", Email := "c@example.com", FullName := "C", Tier := "gold",
        CreatedAt := "" } 9 (by decide) (by decide) with
  | ⟨user, _, hid, _, _, _, _, _, _, hfree, hins⟩ =>
    ⟨user, hins (fun _ => by decide), hid, (hfree (by decide)).1,
      (hfree (by decide)).2.1, (hfree (by decide)).2.2.1, (hfree (by decide)).2.2.2⟩

end userservice

namespace userservice

open domain

/-- On a handle on which no mapper was set, `FindByID` of the user service fails in the
column check for every table and every identifier that the database reads: the lower-cased
field name `fullname` is not the column `full_name`. -/
theorem FindByID_sqlxDefault (r : PostgresUserRepository) (db : UsersTable) (id : String)
    (key : Option UUID) (hh : r.schema.handle = sqlxDefaultHandle)
    (hid : r.schema.idOfText id = .ok key) :
    r.FindByID db id =
      .error (GoError.New "missing destination name full_name in *domain.User") := by
  simp only [PostgresUserRepository.FindByID, UsersTable.selectByID, hid, hh]
  rfl

theorem find_after_Update (r : PostgresUserRepository) (db : UsersTable) (user found : User)
    (key : UUID) (hfind : db.find? (fun x => x.ID == key) = some found) :
    (r.Update db user).1.find? (fun x => x.ID == key) =
      some (if found.ID == user.ID then
        { found with
            Email := user.Email, FullName := user.FullName, Tier := user.Tier
            AIDescriptionQuotaUsed := user.AIDescriptionQuotaUsed
            AIDescriptionQuotaLimit := user.AIDescriptionQuotaLimit
            AIVideoQuotaUsed := user.AIVideoQuotaUsed
            AIVideoQuotaLimit := user.AIVideoQuotaLimit
            AutoPostingQuotaUsed := user.AutoPostingQuotaUsed
            AutoPostingQuotaLimit := user.AutoPostingQuotaLimit
            UpdatedAt := user.UpdatedAt }
      else found) := by
  unfold PostgresUserRepository.Update
  simp only [List.find?_map]
  have hcomp : ((fun x : User => x.ID == key) ∘ fun x : User =>
      if x.ID == user.ID then
        { x with
            Email := user.Email, FullName := user.FullName, Tier := user.Tier
            AIDescriptionQuotaUsed := user.AIDescriptionQuotaUsed
            AIDescriptionQuotaLimit := user.AIDescriptionQuotaLimit
            AIVideoQuotaUsed := user.AIVideoQuotaUsed
            AIVideoQuotaLimit := user.AIVideoQuotaLimit
            AutoPostingQuotaUsed := user.AutoPostingQuotaUsed
            AutoPostingQuotaLimit := user.AutoPostingQuotaLimit
            UpdatedAt := user.UpdatedAt }
      else x) = fun x : User => x.ID == key := by
    funext x
    simp only [Function.comp]
    split <;> rfl
  rw [hcomp, hfind]
  rfl

theorem mem_Update_of_ne (r : PostgresUserRepository) (db : UsersTable) (user x : User)
    (hx : x ∈ db) (hne : x.ID ≠ user.ID) : x ∈ (r.Update db user).1 := by
  unfold PostgresUserRepository.Update
  simp only [List.mem_map]
  refine ⟨x, hx, ?_⟩
  rw [if_neg (by simpa using hne)]

end userservice

namespace userservice

open domain

/-- C19: for every `user.tier.upgraded` event whose payload decodes, on every repository
behind the service: when the repository returns a replica for the named ID, the handler hands
to `Update` that replica with tier pro, the limits 100, 10, 1000 and the three used counters
it had, whatever they are, and when that write succeeds it returns `nil` and the store is the
one that `Update` left; on the Postgres table that `UPDATE` gives the row of that ID these
values and leaves the rows of other IDs as they are. When the lookup of the named replica
fails (no such replica in particular), the handler returns an error that wraps the lookup
error, and the store and the channel are unchanged. -/
theorem handle_tier_upgraded_applies_pro_limits {β : Type} (u : UniversalEventSubscriber β)
    (lib : GoLib) (db : UsersTable) (bus : β) (now : Time) (event : events.Event)
    (data : events.UserTierUpgradedData)
    (hdecode : lib.jsonUnmarshalUserTierUpgraded event.Data = .ok data) :
    (∀ replica db1, u.userService.userRepo.FindByID db data.UserID = .ok replica →
      u.userService.userRepo.Update db (replica.UpgradeToPro now) = (db1, none) →
      (u.handleUserTierUpgraded lib db bus now event).1 = db1 ∧
      (u.handleUserTierUpgraded lib db bus now event).2.2 = none ∧
      (replica.UpgradeToPro now).ID = replica.ID ∧
      (replica.UpgradeToPro now).Tier = UserTierPro ∧
      (replica.UpgradeToPro now).AIDescriptionQuotaLimit = 100 ∧
      (replica.UpgradeToPro now).AIVideoQuotaLimit = 10 ∧
      (replica.UpgradeToPro now).AutoPostingQuotaLimit = 1000 ∧
      (replica.UpgradeToPro now).AIDescriptionQuotaUsed = replica.AIDescriptionQuotaUsed ∧
      (replica.UpgradeToPro now).AIVideoQuotaUsed = replica.AIVideoQuotaUsed ∧
      (replica.UpgradeToPro now).AutoPostingQuotaUsed = replica.AutoPostingQuotaUsed) ∧
    (∀ (r : PostgresUserRepository) (table : UsersTable) (replica : User),
      replica ∈ table →
      (∃ after ∈ (r.Update table (replica.UpgradeToPro now)).1,
        after.ID = replica.ID ∧ after.Tier = UserTierPro ∧
        after.AIDescriptionQuotaLimit = 100 ∧ after.AIVideoQuotaLimit = 10 ∧
        after.AutoPostingQuotaLimit = 1000 ∧
        after.AIDescriptionQuotaUsed = replica.AIDescriptionQuotaUsed ∧
        after.AIVideoQuotaUsed = replica.AIVideoQuotaUsed ∧
        after.AutoPostingQuotaUsed = replica.AutoPostingQuotaUsed) ∧
      (r.Update table (replica.UpgradeToPro now)).1.length = table.length ∧
      (∀ x ∈ table, x.ID ≠ replica.ID →
        x ∈ (r.Update table (replica.UpgradeToPro now)).1)) ∧
    (∀ err, u.userService.userRepo.FindByID db data.UserID = .error err →
      u.handleUserTierUpgraded lib db bus now event =
        (db, bus, some (GoError.Errorf "failed to upgrade user tier" err))) := by
  refine ⟨?_, ?_, ?_⟩
  · intro replica db1 hfind hupdate
    simp only [UniversalEventSubscriber.handleUserTierUpgraded, hdecode,
      UserService.UpgradeToPro, hfind, hupdate]
    exact ⟨trivial, trivial, rfl, rfl, rfl, rfl, rfl, rfl, rfl, rfl⟩
  · intro r table replica hmem
    refine ⟨?_, ?_, ?_⟩
    · refine ⟨replica.UpgradeToPro now, ?_, rfl, rfl, rfl, rfl, rfl, rfl, rfl, rfl⟩
      unfold PostgresUserRepository.Update
      simp only [List.mem_map]
      refine ⟨replica, hmem, ?_⟩
      rw [if_pos (by simp [User.UpgradeToPro])]
      rfl
    · simp [PostgresUserRepository.Update]
    · intro x hx hne
      exact mem_Update_of_ne r table (replica.UpgradeToPro now) x hx hne
  · intro err hfind
    simp only [UniversalEventSubscriber.handleUserTierUpgraded, hdecode,
      UserService.UpgradeToPro, hfind]

/-- Witness of C19: with the service on the in-memory repository, the event `upgraded7` on a
table with the replicas of users 7 and 8, and the event `upgraded9`, which names no
replica. -/
theorem handle_tier_upgraded_applies_pro_limits_witness :
    (memorySubscriber.handleUserTierUpgraded sampleLib [replica7, replica8] [] 3 upgraded7).1 =
      [replica7.UpgradeToPro 3, replica8] ∧
    (memorySubscriber.handleUserTierUpgraded sampleLib [replica7, replica8] [] 3
      upgraded7).2.2 = none ∧
    memorySubscriber.handleUserTierUpgraded sampleLib [replica7, replica8] [] 3 upgraded9 =
      ([replica7, replica8], [],
        some (GoError.Errorf "failed to upgrade user tier" GoError.ErrUserNotFound)) :=
  ⟨((handle_tier_upgraded_applies_pro_limits memorySubscriber sampleLib [replica7, replica8]
      [] 3 upgraded7 { UserID := "id-7", OldTier := "free", NewTier := "pro", UpgradedAt := "" }
      (by decide)).1 replica7 [replica7.UpgradeToPro 3, replica8] (by decide) (by decide)).1,
    ((handle_tier_upgraded_applies_pro_limits memorySubscriber sampleLib [replica7, replica8]
      [] 3 upgraded7 { UserID := "id-7", OldTier := "free", NewTier := "pro", UpgradedAt := "" }
      (by decide)).1 replica7 [replica7.UpgradeToPro 3, replica8] (by decide)
      (by decide)).2.1,
    (handle_tier_upgraded_applies_pro_limits memorySubscriber sampleLib [replica7, replica8]
      [] 3 upgraded9 { UserID := "id-9", OldTier := "free", NewTier := "pro", UpgradedAt := "" }
      (by decide)).2.2 GoError.ErrUserNotFound (by decide)⟩

/-- C20: for every event whose type tag is neither `user.registered` nor
`user.tier.upgraded`, `handleUserEvent` returns `nil` and leaves the replica table and the
channel as they are, whatever the payload bytes, the table, the repository behind the
service and the library functions are: the result does not depend on the table. -/
theorem unknown_event_ignored {β : Type} (u : UniversalEventSubscriber β) (lib : GoLib)
    (db : UsersTable) (bus : β) (nowCreated nowUpdated nowUpgrade : Time)
    (event : events.Event)
    (h1 : event.Type_ ≠ events.UserRegisteredEvent)
    (h2 : event.Type_ ≠ events.UserTierUpgradedEvent) :
    u.handleUserEvent lib db bus nowCreated nowUpdated nowUpgrade event = (db, bus, none) := by
  unfold UniversalEventSubscriber.handleUserEvent
  rw [if_neg (by simpa using h1), if_neg (by simpa using h2)]

/-- Witness of C20: a `user.quota.updated` event whose payload does not decode. -/
theorem unknown_event_ignored_witness :
    sampleLib.jsonUnmarshalUserRegistered quotaUpdatedGarbage.Data =
      .error (GoError.New "invalid character") ∧
    sampleSubscriber.handleUserEvent sampleLib [replica7] [] 1 2 3 quotaUpdatedGarbage =
      ([replica7], [], none) :=
  ⟨by decide,
    unknown_event_ignored sampleSubscriber sampleLib [replica7] [] 1 2 3 quotaUpdatedGarbage
      (by decide) (by decide)⟩

end userservice

namespace userservice

open domain

/-! ### Duplicate delivery -/

theorem Create_of_duplicate (r : PostgresUserRepository) (db : UsersTable) (user : User)
    (hu : r.schema.uniqueID = true) (hex : ∃ x ∈ db, x.ID = user.ID) :
    r.Create db user =
      (db, some (GoError.New "pq: duplicate key value violates unique constraint")) := by
  unfold PostgresUserRepository.Create
  have hc : (r.schema.uniqueID && db.any (fun x => x.ID == user.ID)) = true := by
    rw [hu, Bool.true_and, List.any_eq_true]
    obtain ⟨x, hx, hid⟩ := hex
    exact ⟨x, hx, by simpa using hid⟩
  simp only [hc, if_true]

/-- The handler is one `Create` of a replica that does not depend on the table. -/
theorem handleUserRegistered_eq_create {β : Type} (u : UniversalEventSubscriber β)
    (lib : GoLib) (nowCreated nowUpdated : Time) (event : events.Event)
    (data : events.UserRegisteredData) (userID : UUID)
    (hdecode : lib.jsonUnmarshalUserRegistered event.Data = .ok data)
    (hparse : lib.uuidParse data.UserID = .ok userID) :
    ∃ user : User, user.ID = userID ∧ PostgresUserRepository.row user = user ∧
      ∀ (db : UsersTable) (bus : β),
        u.handleUserRegistered lib db bus nowCreated nowUpdated event =
          ((u.userRepo.Create db user).1, bus,
            (u.userRepo.Create db user).2.map
              (GoError.Errorf "failed to create user in user service")) := by
  by_cases hpro : data.Tier = "pro"
  · refine ⟨{ ID := userID, Email := data.Email, PasswordHash := "",
              FullName := data.FullName, Tier := UserTierPro,
              AIDescriptionQuotaUsed := 0, AIDescriptionQuotaLimit := 100,
              AIVideoQuotaUsed := 0, AIVideoQuotaLimit := 10,
              AutoPostingQuotaUsed := 0, AutoPostingQuotaLimit := 1000,
              CreatedAt := parseTime lib nowCreated data.CreatedAt,
              UpdatedAt := parseTime lib nowUpdated data.CreatedAt }, rfl, rfl, ?_⟩
    intro db bus
    rw [← handleUserRegistered_of_create u db bus]
    simp only [UniversalEventSubscriber.handleUserRegistered, hdecode, hparse, hpro]
    simp only [show (("pro" : String) == "free") = false by decide,
      show (("pro" : String) == "pro") = true by decide,
      show ((UserTierPro : String) == UserTierFree) = false by decide,
      Bool.false_eq_true, if_false, if_true]
  · have htier : (if (data.Tier == "free") = true then UserTierFree
        else if (data.Tier == "pro") = true then UserTierPro else UserTierFree) =
        UserTierFree := by
      split
      · rfl
      · rw [if_neg (by simpa using hpro)]
    refine ⟨{ ID := userID, Email := data.Email, PasswordHash := "",
              FullName := data.FullName, Tier := UserTierFree,
              AIDescriptionQuotaUsed := 0, AIDescriptionQuotaLimit := 5,
              AIVideoQuotaUsed := 0, AIVideoQuotaLimit := 0,
              AutoPostingQuotaUsed := 0, AutoPostingQuotaLimit := 5,
              CreatedAt := parseTime lib nowCreated data.CreatedAt,
              UpdatedAt := parseTime lib nowUpdated data.CreatedAt }, rfl, rfl, ?_⟩
    intro db bus
    rw [← handleUserRegistered_of_create u db bus]
    simp only [UniversalEventSubscriber.handleUserRegistered, hdecode, hparse, htier]
    simp only [show ((UserTierFree : String) == UserTierFree) = true by decide, if_true]

/-- C21: with a `users` table that rejects an ID that already exists, a `user.registered`
event whose payload decodes and names a new ID is handled twice: the first call returns
`nil` and appends the replica, the second call (at any clock readings) returns the error of
the duplicate insert, wrapped by the handler and no panic, and the table and the channel
after the second call are those after the first. -/
theorem duplicate_registered_event_fails_cleanly {β : Type} (u : UniversalEventSubscriber β)
    (lib : GoLib) (db : UsersTable) (bus : β)
    (nowCreated nowUpdated nowCreated2 nowUpdated2 : Time)
    (event : events.Event) (data : events.UserRegisteredData) (userID : UUID)
    (hunique : u.userRepo.schema.uniqueID = true)
    (hdecode : lib.jsonUnmarshalUserRegistered event.Data = .ok data)
    (hparse : lib.uuidParse data.UserID = .ok userID)
    (hfresh : ∀ x ∈ db, x.ID ≠ userID) :
    (u.handleUserRegistered lib db bus nowCreated nowUpdated event).2.2 = none ∧
    (∃ replica, replica.ID = userID ∧
      (u.handleUserRegistered lib db bus nowCreated nowUpdated event).1 = db ++ [replica]) ∧
    u.handleUserRegistered lib
        (u.handleUserRegistered lib db bus nowCreated nowUpdated event).1
        (u.handleUserRegistered lib db bus nowCreated nowUpdated event).2.1
        nowCreated2 nowUpdated2 event =
      ((u.handleUserRegistered lib db bus nowCreated nowUpdated event).1,
        (u.handleUserRegistered lib db bus nowCreated nowUpdated event).2.1,
        some (GoError.Errorf "failed to create user in user service"
          (GoError.New "pq: duplicate key value violates unique constraint"))) := by
  obtain ⟨user1, hid1, hrow1, h1⟩ :=
    handleUserRegistered_eq_create u lib nowCreated nowUpdated event data userID hdecode hparse
  obtain ⟨user2, hid2, _, h2⟩ :=
    handleUserRegistered_eq_create u lib nowCreated2 nowUpdated2 event data userID hdecode
      hparse
  have hc1 := Create_of_admitted u.userRepo db user1 (fun _ => by rw [hid1]; exact hfresh)
  rw [hrow1] at hc1
  have hfirst : u.handleUserRegistered lib db bus nowCreated nowUpdated event =
      (db ++ [user1], bus, none) := by
    rw [h1, hc1]; rfl
  have hc2 := Create_of_duplicate u.userRepo (db ++ [user1]) user2 hunique
    ⟨user1, by simp, by rw [hid1, hid2]⟩
  rw [hfirst]
  refine ⟨rfl, ⟨user1, hid1, rfl⟩, ?_⟩
  rw [h2, hc2]
  rfl

/-- Witness of C21: the event `registeredFree` delivered twice to `sampleSubscriber` on an
empty table. -/
theorem duplicate_registered_event_fails_cleanly_witness :
    (sampleSubscriber.handleUserRegistered sampleLib [] [] 1 2 registeredFree).2.2 = none ∧
    (sampleSubscriber.handleUserRegistered sampleLib
        (sampleSubscriber.handleUserRegistered sampleLib [] [] 1 2 registeredFree).1
        (sampleSubscriber.handleUserRegistered sampleLib [] [] 1 2 registeredFree).2.1
        3 4 registeredFree).2.2 =
      some (GoError.Errorf "failed to create user in user service"
        (GoError.New "pq: duplicate key value violates unique constraint")) :=
  ⟨(duplicate_registered_event_fails_cleanly sampleSubscriber sampleLib [] [] 1 2 3 4
      registeredFree
      { UserID := "id-7", Email := "a@example.com", FullName := "A", Tier := "free",
        CreatedAt := "" } 7 (by decide) (by decide) (by decide) (by decide)).1,
    congrArg (fun r => r.2.2)
      (duplicate_registered_event_fails_cleanly sampleSubscriber sampleLib [] [] 1 2 3 4
        registeredFree
        { UserID := "id-7", Email := "a@example.com", FullName := "A", Tier := "free",
          CreatedAt := "" } 7 (by decide) (by decide) (by decide) (by decide)).2.2⟩

end userservice

namespace authservice

open domain

/-! ### Fire and forget -/

theorem Register_of_create {ρ σ β : Type} (s : AuthService ρ σ β) (lib : GoLib)
    (jwt : auth.JWTCodec) (db db1 : ρ) (bus : β) (newID : UUID)
    (nowCreated nowUpdated : Time) (rnd : List Nat) (clock : auth.TokenClock)
    (req : RegisterRequest) (hash : String)
    (tokens : Except GoError auth.TokenPair)
    (hpw : auth.PasswordStrengthCheck req.Password = none)
    (hnew : ∀ existing, s.userRepo.FindByEmail db req.Email ≠ .ok existing)
    (hhash : lib.bcryptGenerate req.Password = .ok hash)
    (hcreate : s.userRepo.Create db
      { ID := newID, Email := req.Email, PasswordHash := hash, FullName := req.FullName,
        Tier := UserTierFree,
        AIDescriptionQuotaUsed := 0, AIDescriptionQuotaLimit := 0,
        AIVideoQuotaUsed := 0, AIVideoQuotaLimit := 0,
        AutoPostingQuotaUsed := 0, AutoPostingQuotaLimit := 0,
        CreatedAt := nowCreated, UpdatedAt := nowUpdated } = (db1, none))
    (htokens : s.tokenService.GenerateTokenPair jwt rnd clock (lib.uuidString newID)
      req.Email = tokens) :
    (s.Register lib jwt db bus newID nowCreated nowUpdated rnd clock req).1 = db1 ∧
    (s.Register lib jwt db bus newID nowCreated nowUpdated rnd clock req).2.2 =
      tokens.map (fun pair =>
        { User :=
            { ID := newID, Email := req.Email, PasswordHash := hash,
              FullName := req.FullName, Tier := UserTierFree,
              AIDescriptionQuotaUsed := 0, AIDescriptionQuotaLimit := 0,
              AIVideoQuotaUsed := 0, AIVideoQuotaLimit := 0,
              AutoPostingQuotaUsed := 0, AutoPostingQuotaLimit := 0,
              CreatedAt := nowCreated, UpdatedAt := nowUpdated }
          TokenPair := pair }) := by
  have hfind : ∃ e, s.userRepo.FindByEmail db req.Email = .error e := by
    cases hf : s.userRepo.FindByEmail db req.Email with
    | error e => exact ⟨e, rfl⟩
    | ok existing => exact absurd hf (hnew existing)
  obtain ⟨e, hfe⟩ := hfind
  subst htokens
  simp only [AuthService.Register, hpw, hfe, hhash, hcreate]
  cases s.tokenService.GenerateTokenPair jwt rnd clock (lib.uuidString newID) req.Email <;>
    exact ⟨rfl, rfl⟩

end authservice

namespace authservice

open domain

theorem UpgradeTier_of_update {ρ σ β : Type} (s : AuthService ρ σ β) (lib : GoLib) (db db1 : ρ)
    (bus : β) (now : Time) (req : UpgradeTierRequest) (found : User)
    (hfind : s.userRepo.FindByID db req.UserID = .ok found)
    (hupdate : s.userRepo.Update db { found with Tier := UserTierPro, UpdatedAt := now } =
      (db1, none)) :
    (s.UpgradeTier lib db bus now req).1 = db1 ∧
    (s.UpgradeTier lib db bus now req).2.2 = none := by
  simp only [AuthService.UpgradeTier, hfind, hupdate]
  exact ⟨trivial, trivial⟩

end authservice

namespace userservice

open domain

theorem UseAIDescriptionQuota_of_update {ρ β : Type} (s : UserService ρ β) (lib : GoLib)
    (db db1 : ρ) (bus : β) (now : Time) (req : UseAIDescriptionQuotaRequest)
    (found used : User) (hfind : s.userRepo.FindByID db req.UserID = .ok found)
    (huse : found.UseAIDescriptionQuota now = (used, none))
    (hupdate : s.userRepo.Update db used = (db1, none)) :
    (s.UseAIDescriptionQuota lib db bus now req).1 = db1 ∧
    (s.UseAIDescriptionQuota lib db bus now req).2.2 = none := by
  simp only [UserService.UseAIDescriptionQuota, UserService.useAIDescriptionQuotaAfterFind,
    hfind, huse, hupdate]
  exact ⟨trivial, trivial⟩

theorem UseAIVideoQuota_of_update {ρ β : Type} (s : UserService ρ β) (lib : GoLib)
    (db db1 : ρ) (bus : β) (now : Time) (req : UseAIVideoQuotaRequest)
    (found used : User) (hfind : s.userRepo.FindByID db req.UserID = .ok found)
    (huse : found.UseAIVideoQuota now = (used, none))
    (hupdate : s.userRepo.Update db used = (db1, none)) :
    (s.UseAIVideoQuota lib db bus now req).1 = db1 ∧
    (s.UseAIVideoQuota lib db bus now req).2.2 = none := by
  simp only [UserService.UseAIVideoQuota, hfind, huse, hupdate]
  exact ⟨trivial, trivial⟩

theorem UseAutoPostingQuota_of_update {ρ β : Type} (s : UserService ρ β) (lib : GoLib)
    (db db1 : ρ) (bus : β) (now : Time) (req : UseAutoPostingQuotaRequest)
    (found used : User) (hfind : s.userRepo.FindByID db req.UserID = .ok found)
    (huse : found.UseAutoPostingQuota now = (used, none))
    (hupdate : s.userRepo.Update db used = (db1, none)) :
    (s.UseAutoPostingQuota lib db bus now req).1 = db1 ∧
    (s.UseAutoPostingQuota lib db bus now req).2.2 = none := by
  simp only [UserService.UseAutoPostingQuota, hfind, huse, hupdate]
  exact ⟨trivial, trivial⟩

theorem UpgradeToPro_of_update {ρ β : Type} (s : UserService ρ β) (lib : GoLib)
    (db db1 : ρ) (bus : β) (now : Time) (req : UpgradeToProRequest) (found : User)
    (hfind : s.userRepo.FindByID db req.UserID = .ok found)
    (hupdate : s.userRepo.Update db (found.UpgradeToPro now) = (db1, none)) :
    (s.UpgradeToPro lib db bus now req).1 = db1 ∧
    (s.UpgradeToPro lib db bus now req).2.2 = none := by
  simp only [UserService.UpgradeToPro, hfind, hupdate]
  exact ⟨trivial, trivial⟩

/-- C22: for `AuthService.Register`, `AuthService.UpgradeTier` and
`UserService.UseAIDescriptionQuota`, `UseAIVideoQuota`, `UseAutoPostingQuota` and
`UpgradeToPro`, with any event publisher (one that returns an error included): whenever the
store write succeeds, the operation returns success and the store it leaves is the one that
the write left. For `Register`, which issues the token pair after the write, `crypto/rand`
is taken to deliver the 32 bytes of the session identifier. -/
theorem store_write_survives_publisher {ρ σ β : Type} :
    (∀ (s : authservice.AuthService ρ σ β) (lib : GoLib) (jwt : auth.JWTCodec) (db db1 : ρ)
        (bus : β) (newID : UUID) (nowCreated nowUpdated : Time) (rnd : List Nat)
        (clock : auth.TokenClock) (req : authservice.RegisterRequest) (hash : String),
      auth.PasswordStrengthCheck req.Password = none →
      (∀ existing, s.userRepo.FindByEmail db req.Email ≠ .ok existing) →
      lib.bcryptGenerate req.Password = .ok hash →
      s.userRepo.Create db
        { ID := newID, Email := req.Email, PasswordHash := hash, FullName := req.FullName,
          Tier := UserTierFree,
          AIDescriptionQuotaUsed := 0, AIDescriptionQuotaLimit := 0,
          AIVideoQuotaUsed := 0, AIVideoQuotaLimit := 0,
          AutoPostingQuotaUsed := 0, AutoPostingQuotaLimit := 0,
          CreatedAt := nowCreated, UpdatedAt := nowUpdated } = (db1, none) →
      32 ≤ rnd.length →
      (s.Register lib jwt db bus newID nowCreated nowUpdated rnd clock req).1 = db1 ∧
      ∃ pair,
        s.tokenService.GenerateTokenPair jwt rnd clock (lib.uuidString newID) req.Email =
          .ok pair ∧
        (s.Register lib jwt db bus newID nowCreated nowUpdated rnd clock req).2.2 =
          .ok { User :=
                  { ID := newID, Email := req.Email, PasswordHash := hash,
                    FullName := req.FullName, Tier := UserTierFree,
                    AIDescriptionQuotaUsed := 0, AIDescriptionQuotaLimit := 0,
                    AIVideoQuotaUsed := 0, AIVideoQuotaLimit := 0,
                    AutoPostingQuotaUsed := 0, AutoPostingQuotaLimit := 0,
                    CreatedAt := nowCreated, UpdatedAt := nowUpdated }
                TokenPair := pair }) ∧
    (∀ (s : authservice.AuthService ρ σ β) (lib : GoLib) (db db1 : ρ) (bus : β) (now : Time)
        (req : authservice.UpgradeTierRequest) (found : User),
      s.userRepo.FindByID db req.UserID = .ok found →
      s.userRepo.Update db { found with Tier := UserTierPro, UpdatedAt := now } =
        (db1, none) →
      (s.UpgradeTier lib db bus now req).1 = db1 ∧
      (s.UpgradeTier lib db bus now req).2.2 = none) ∧
    (∀ (s : UserService ρ β) (lib : GoLib) (db db1 : ρ) (bus : β) (now : Time)
        (req : UseAIDescriptionQuotaRequest) (found used : User),
      s.userRepo.FindByID db req.UserID = .ok found →
      found.UseAIDescriptionQuota now = (used, none) →
      s.userRepo.Update db used = (db1, none) →
      (s.UseAIDescriptionQuota lib db bus now req).1 = db1 ∧
      (s.UseAIDescriptionQuota lib db bus now req).2.2 = none) ∧
    (∀ (s : UserService ρ β) (lib : GoLib) (db db1 : ρ) (bus : β) (now : Time)
        (req : UseAIVideoQuotaRequest) (found used : User),
      s.userRepo.FindByID db req.UserID = .ok found →
      found.UseAIVideoQuota now = (used, none) →
      s.userRepo.Update db used = (db1, none) →
      (s.UseAIVideoQuota lib db bus now req).1 = db1 ∧
      (s.UseAIVideoQuota lib db bus now req).2.2 = none) ∧
    (∀ (s : UserService ρ β) (lib : GoLib) (db db1 : ρ) (bus : β) (now : Time)
        (req : UseAutoPostingQuotaRequest) (found used : User),
      s.userRepo.FindByID db req.UserID = .ok found →
      found.UseAutoPostingQuota now = (used, none) →
      s.userRepo.Update db used = (db1, none) →
      (s.UseAutoPostingQuota lib db bus now req).1 = db1 ∧
      (s.UseAutoPostingQuota lib db bus now req).2.2 = none) ∧
    (∀ (s : UserService ρ β) (lib : GoLib) (db db1 : ρ) (bus : β) (now : Time)
        (req : UpgradeToProRequest) (found : User),
      s.userRepo.FindByID db req.UserID = .ok found →
      s.userRepo.Update db (found.UpgradeToPro now) = (db1, none) →
      (s.UpgradeToPro lib db bus now req).1 = db1 ∧
      (s.UpgradeToPro lib db bus now req).2.2 = none) :=
  ⟨fun s lib jwt db db1 bus newID nowCreated nowUpdated rnd clock req hash h1 h2 h3 h4 h5 =>
      have hg := auth.GenerateTokenPair_eq s.tokenService jwt rnd clock (lib.uuidString newID)
        req.Email h5
      have hr := authservice.Register_of_create s lib jwt db db1 bus newID nowCreated
        nowUpdated rnd clock req hash _ h1 h2 h3 h4 hg
      ⟨hr.1, _, hg, hr.2⟩,
    fun s lib db db1 bus now req found h1 h2 =>
      authservice.UpgradeTier_of_update s lib db db1 bus now req found h1 h2,
    fun s lib db db1 bus now req found used h1 h2 h3 =>
      UseAIDescriptionQuota_of_update s lib db db1 bus now req found used h1 h2 h3,
    fun s lib db db1 bus now req found used h1 h2 h3 =>
      UseAIVideoQuota_of_update s lib db db1 bus now req found used h1 h2 h3,
    fun s lib db db1 bus now req found used h1 h2 h3 =>
      UseAutoPostingQuota_of_update s lib db db1 bus now req found used h1 h2 h3,
    fun s lib db db1 bus now req found h1 h2 =>
      UpgradeToPro_of_update s lib db db1 bus now req found h1 h2⟩

/-- Witness of C22: with publishers that always return an error, the sample registration
succeeds and keeps the user, and on the in-memory repository the last description use of
user 7 succeeds and keeps the raised counter. -/
theorem store_write_survives_publisher_witness :
    (authservice.failingAuthService.Register sampleLib auth.plainCodec [] [] 7 2000 2001
        auth.sampleRnd auth.sampleClock authservice.sampleRequest).1 =
      [authservice.sampleRegistered] ∧
    (∃ pair, (authservice.failingAuthService.Register sampleLib auth.plainCodec [] [] 7 2000
        2001 auth.sampleRnd auth.sampleClock authservice.sampleRequest).2.2 =
          .ok { User := authservice.sampleRegistered, TokenPair := pair }) ∧
    (failingUserService.UseAIDescriptionQuota sampleLib [replicaLast] [] 50
        { UserID := "id-7" }).1 =
      [{ replicaLast with AIDescriptionQuotaUsed := 5, UpdatedAt := 50 }] ∧
    (failingUserService.UseAIDescriptionQuota sampleLib [replicaLast] [] 50
        { UserID := "id-7" }).2.2 = none :=
  ⟨(store_write_survives_publisher.1 authservice.failingAuthService sampleLib
      auth.plainCodec [] [authservice.sampleRegistered] [] 7 2000 2001 auth.sampleRnd
      auth.sampleClock authservice.sampleRequest "hash:Abcdef1!" (by decide)
      (fun _ h => Except.noConfusion h) (by decide) (by decide) (by decide)).1,
    match (store_write_survives_publisher.1 authservice.failingAuthService sampleLib
      auth.plainCodec [] [authservice.sampleRegistered] [] 7 2000 2001 auth.sampleRnd
      auth.sampleClock authservice.sampleRequest "hash:Abcdef1!" (by decide)
      (fun _ h => Except.noConfusion h) (by decide) (by decide) (by decide)).2 with
    | ⟨pair, _, h⟩ => ⟨pair, h⟩,
    ((@store_write_survives_publisher UsersTable persistence.SessionsTable
      (List (String × events.Event))).2.2.1 failingUserService sampleLib [replicaLast]
      [{ replicaLast with AIDescriptionQuotaUsed := 5, UpdatedAt := 50 }] [] 50
      { UserID := "id-7" } replicaLast
      { replicaLast with AIDescriptionQuotaUsed := 5, UpdatedAt := 50 }
      (by decide) (by decide) (by decide)).1,
    ((@store_write_survives_publisher UsersTable persistence.SessionsTable
      (List (String × events.Event))).2.2.1 failingUserService sampleLib [replicaLast]
      [{ replicaLast with AIDescriptionQuotaUsed := 5, UpdatedAt := 50 }] [] 50
      { UserID := "id-7" } replicaLast
      { replicaLast with AIDescriptionQuotaUsed := 5, UpdatedAt := 50 }
      (by decide) (by decide) (by decide)).2⟩

end userservice

namespace events

/-! ### The in-memory bus -/

theorem subscribers_subscribeAll {η : Type} (subs : List (String × η)) :
    ∀ (m : MemoryEventBus η) (topic : String),
      (m.subscribeAll subs).subscribers topic =
        if (subs.filter (fun s => s.1 == topic)).isEmpty then m.subscribers topic
        else some ((m.subscribers topic).getD [] ++
          (subs.filter (fun s => s.1 == topic)).map (fun s => s.2)) := by
  induction subs with
  | nil => intro m topic; rfl
  | cons s rest ih =>
    intro m topic
    obtain ⟨t, h⟩ := s
    simp only [MemoryEventBus.subscribeAll]
    rw [ih]
    by_cases ht : t = topic
    · subst ht
      simp only [List.filter_cons, beq_self_eq_true, if_true, MemoryEventBus.Subscribe,
        Option.getD_some, List.map_cons, List.isEmpty_cons, Bool.false_eq_true, if_false]
      cases hr : List.filter (fun s => s.1 == t) rest with
      | nil => simp
      | cons x xs => simp
    · have hne : (t == topic) = false := by simpa using ht
      have hne2 : (topic == t) = false := by simpa using Ne.symm ht
      simp only [List.filter_cons, hne, Bool.false_eq_true, if_false,
        MemoryEventBus.Subscribe, hne2]

/-- C23: on a bus built from the empty bus by a sequence of `Subscribe` calls, `Publish` on
a topic starts exactly one handler call per `Subscribe` call for that topic, in the order
of the subscriptions and each with the published event, starts no call of a handler
subscribed to another topic, and returns `nil`; its result does not read what the handlers
return, and with no handler for the topic it starts nothing and returns `nil`. -/
theorem memory_bus_publish_dispatch {η : Type} (subs : List (String × η)) (topic : String)
    (event : Event) :
    ((NewMemoryEventBus.subscribeAll subs).Publish topic event).1 =
      (subs.filter (fun s => s.1 == topic)).map (fun s => (s.2, event)) ∧
    ((NewMemoryEventBus.subscribeAll subs).Publish topic event).2 = none ∧
    ((∀ s ∈ subs, s.1 ≠ topic) →
      (NewMemoryEventBus.subscribeAll subs).Publish topic event = ([], none)) := by
  have hsub := subscribers_subscribeAll subs (NewMemoryEventBus : MemoryEventBus η) topic
  have hpub : (NewMemoryEventBus.subscribeAll subs).Publish topic event =
      ((subs.filter (fun s => s.1 == topic)).map (fun s => (s.2, event)), none) := by
    unfold MemoryEventBus.Publish
    rw [hsub]
    cases hf : subs.filter (fun s => s.1 == topic) with
    | nil => rfl
    | cons x xs =>
      simp [NewMemoryEventBus, List.map_map, Function.comp]
  refine ⟨by rw [hpub], by rw [hpub], ?_⟩
  intro hnone
  rw [hpub]
  have : subs.filter (fun s => s.1 == topic) = [] := by
    rw [List.filter_eq_nil_iff]
    intro s hs
    simpa using hnone s hs
  rw [this]
  rfl

/-- Witness of C23: handlers `h1` and `h3` on `user-events`, `h2` on `product-events`. -/
theorem memory_bus_publish_dispatch_witness :
    ((NewMemoryEventBus.subscribeAll
        [("user-events", "h1"), ("product-events", "h2"), ("user-events", "h3")]).Publish
      "user-events" sampleEvent) = ([("h1", sampleEvent), ("h3", sampleEvent)], none) ∧
    (NewMemoryEventBus.subscribeAll [("product-events", "h2")]).Publish "user-events"
      sampleEvent = ([], none) :=
  ⟨Prod.ext
      (memory_bus_publish_dispatch
        [("user-events", "h1"), ("product-events", "h2"), ("user-events", "h3")] "user-events"
        sampleEvent).1
      (memory_bus_publish_dispatch
        [("user-events", "h1"), ("product-events", "h2"), ("user-events", "h3")] "user-events"
        sampleEvent).2.1,
    (memory_bus_publish_dispatch [("product-events", "h2")] "user-events" sampleEvent).2.2
      (by decide)⟩

end events

namespace userservice

open domain

/-! ### The race of two quota uses -/

theorem UseAIDescriptionQuota_ok (u : User) (now : Time) (hr : u.InRange)
    (h : u.AIDescriptionQuotaUsed < u.AIDescriptionQuotaLimit) :
    u.UseAIDescriptionQuota now =
      ({ u with AIDescriptionQuotaUsed := u.AIDescriptionQuotaUsed + 1, UpdatedAt := now },
        none) := by
  have hw := wrapInt64_succ hr.1 hr.2.1 h
  simp only [User.UseAIDescriptionQuota, User.CanGenerateAIDescription, h, decide_True,
    Bool.not_true, Bool.false_eq_true, if_false, hw]

/-- The row of a user in the Postgres table after two `UPDATE` statements for that user. -/
theorem find_after_two_Updates (r : PostgresUserRepository) (table : UsersTable)
    (u1 u2 row : User) (key : UUID)
    (hrow : table.find? (fun x => x.ID == key) = some row)
    (h1 : u1.ID = row.ID) (h2 : u2.ID = row.ID) :
    ∃ stored, (r.Update (r.Update table u1).1 u2).1.find? (fun x => x.ID == key) =
        some stored ∧
      stored.ID = row.ID ∧
      stored.AIDescriptionQuotaUsed = u2.AIDescriptionQuotaUsed ∧
      stored.AIDescriptionQuotaLimit = u2.AIDescriptionQuotaLimit := by
  have ha := find_after_Update r table u1 row key hrow
  rw [if_pos (by rw [h1]; simp)] at ha
  have hb := find_after_Update r (r.Update table u1).1 u2 _ key ha
  rw [if_pos (by show (row.ID == u2.ID) = true; rw [h2]; simp)] at hb
  exact ⟨_, hb, rfl, rfl, rfl⟩

/-- C24: `UserService.UseAIDescriptionQuota` is not atomic. On every repository, for a user
that `FindByID` returns with `limit - used = 1`, in the interleaving of two calls in which
both `FindByID` reads come before either `Update` write, both calls hand to `Update` the user
with the used counter at the old value plus 1, both return `nil` when the writes succeed, and
the store is the one that the second write left: it holds the counter at the old value plus 1
wherever the repository returns what was written last, as the Postgres table does after the
two `UPDATE` statements. Two calls succeed where one use was left; made one after the other
on a repository that returns the written counter, the second call returns
`ErrQuotaExceeded`. -/
theorem use_quota_race_last_write_wins {ρ β : Type} (s : UserService ρ β) (lib : GoLib)
    (db db1 db2 : ρ) (bus : β) (now1 now2 : Time) (id : String) (found : User)
    (hfind : s.userRepo.FindByID db id = .ok found) (hr : found.InRange)
    (hone : found.AIDescriptionQuotaLimit - found.AIDescriptionQuotaUsed = 1)
    (hw1 : s.userRepo.Update db
      { found with AIDescriptionQuotaUsed := found.AIDescriptionQuotaUsed + 1,
                   UpdatedAt := now1 } = (db1, none))
    (hw2 : s.userRepo.Update db1
      { found with AIDescriptionQuotaUsed := found.AIDescriptionQuotaUsed + 1,
                   UpdatedAt := now2 } = (db2, none)) :
    (s.raceUseAIDescriptionQuota lib db bus now1 now2 { UserID := id } { UserID := id }).1 =
      db2 ∧
    (s.raceUseAIDescriptionQuota lib db bus now1 now2 { UserID := id }
      { UserID := id }).2.2.1 = none ∧
    (s.raceUseAIDescriptionQuota lib db bus now1 now2 { UserID := id }
      { UserID := id }).2.2.2 = none ∧
    (∀ stored, s.userRepo.FindByID db2 id = .ok stored →
      stored.AIDescriptionQuotaUsed = found.AIDescriptionQuotaUsed + 1 →
      ∃ last, s.userRepo.FindByID
          (s.raceUseAIDescriptionQuota lib db bus now1 now2 { UserID := id }
            { UserID := id }).1 id = .ok last ∧
        last.AIDescriptionQuotaUsed = found.AIDescriptionQuotaUsed + 1) ∧
    (∀ (r : PostgresUserRepository) (table : UsersTable) (row : User) (key : UUID),
      table.find? (fun x => x.ID == key) = some row → row.ID = found.ID →
      ∃ last, (r.Update (r.Update table
            { found with AIDescriptionQuotaUsed := found.AIDescriptionQuotaUsed + 1,
                         UpdatedAt := now1 }).1
            { found with AIDescriptionQuotaUsed := found.AIDescriptionQuotaUsed + 1,
                         UpdatedAt := now2 }).1.find? (fun x => x.ID == key) = some last ∧
        last.ID = row.ID ∧
        last.AIDescriptionQuotaUsed = found.AIDescriptionQuotaUsed + 1 ∧
        last.AIDescriptionQuotaLimit = found.AIDescriptionQuotaLimit) ∧
    (s.UseAIDescriptionQuota lib db bus now1 { UserID := id }).1 = db1 ∧
    (s.UseAIDescriptionQuota lib db bus now1 { UserID := id }).2.2 = none ∧
    (∀ stored, s.userRepo.FindByID db1 id = .ok stored →
      stored.AIDescriptionQuotaUsed = found.AIDescriptionQuotaUsed + 1 →
      stored.AIDescriptionQuotaLimit = found.AIDescriptionQuotaLimit →
      s.UseAIDescriptionQuota lib db1
          (s.UseAIDescriptionQuota lib db bus now1 { UserID := id }).2.1 now2
          { UserID := id } =
        (db1, (s.UseAIDescriptionQuota lib db bus now1 { UserID := id }).2.1,
          some GoError.ErrQuotaExceeded)) := by
  have hlt : found.AIDescriptionQuotaUsed < found.AIDescriptionQuotaLimit := by omega
  have huse1 := UseAIDescriptionQuota_ok found now1 hr hlt
  have huse2 := UseAIDescriptionQuota_ok found now2 hr hlt
  have hrace : s.raceUseAIDescriptionQuota lib db bus now1 now2 { UserID := id }
      { UserID := id } =
      (db2,
        (s.eventPublisher.PublishUserQuotaUpdated
          (s.eventPublisher.PublishUserQuotaUpdated bus (lib.uuidString found.ID)
            (.quotaInfo ({ found with AIDescriptionQuotaUsed :=
              found.AIDescriptionQuotaUsed + 1, UpdatedAt := now1 } : User).GetQuotaInfo)).1
          (lib.uuidString found.ID)
          (.quotaInfo ({ found with AIDescriptionQuotaUsed :=
              found.AIDescriptionQuotaUsed + 1, UpdatedAt := now2 } : User).GetQuotaInfo)).1,
        none, none) := by
    simp only [UserService.raceUseAIDescriptionQuota,
      UserService.useAIDescriptionQuotaAfterFind, hfind, huse1, huse2, hw1, hw2]
  have hseq1 : s.UseAIDescriptionQuota lib db bus now1 { UserID := id } =
      (db1,
        (s.eventPublisher.PublishUserQuotaUpdated bus (lib.uuidString found.ID)
            (.quotaInfo ({ found with AIDescriptionQuotaUsed :=
              found.AIDescriptionQuotaUsed + 1, UpdatedAt := now1 } : User).GetQuotaInfo)).1,
        none) := by
    simp only [UserService.UseAIDescriptionQuota,
      UserService.useAIDescriptionQuotaAfterFind, hfind, huse1, hw1]
  refine ⟨by rw [hrace], by rw [hrace], by rw [hrace], ?_, ?_, by rw [hseq1], by rw [hseq1],
    ?_⟩
  · intro stored hs hu
    rw [hrace]
    exact ⟨stored, hs, hu⟩
  · intro r table row key hrow hid
    exact find_after_two_Updates r table _ _ row key hrow hid.symm hid.symm
  · intro stored hs hu hl
    have hex : stored.UseAIDescriptionQuota now2 = (stored, some GoError.ErrQuotaExceeded) :=
      useQuota_of_not_canUse stored .aiDescription now2
        (by show stored.AIDescriptionQuotaLimit ≤ stored.AIDescriptionQuotaUsed; omega)
    simp only [UserService.UseAIDescriptionQuota, UserService.useAIDescriptionQuotaAfterFind,
      hs, hex]

/-- Witness of C24: on the in-memory repository, user 7 with 4 of 5 descriptions used, two
racing calls at instants 50 and 51: both succeed and the counter ends at 5. -/
theorem use_quota_race_last_write_wins_witness :
    (memoryUserService.raceUseAIDescriptionQuota sampleLib [replicaLast] [] 50 51
        { UserID := "id-7" } { UserID := "id-7" }).1 =
      [{ replicaLast with AIDescriptionQuotaUsed := 5, UpdatedAt := 51 }] ∧
    (memoryUserService.raceUseAIDescriptionQuota sampleLib [replicaLast] [] 50 51
        { UserID := "id-7" } { UserID := "id-7" }).2.2.1 = none ∧
    (memoryUserService.raceUseAIDescriptionQuota sampleLib [replicaLast] [] 50 51
        { UserID := "id-7" } { UserID := "id-7" }).2.2.2 = none :=
  ⟨(use_quota_race_last_write_wins memoryUserService sampleLib [replicaLast]
      [{ replicaLast with AIDescriptionQuotaUsed := 5, UpdatedAt := 50 }]
      [{ replicaLast with AIDescriptionQuotaUsed := 5, UpdatedAt := 51 }] [] 50 51 "id-7"
      replicaLast (by decide) (by decide) (by decide) (by decide) (by decide)).1,
    (use_quota_race_last_write_wins memoryUserService sampleLib [replicaLast]
      [{ replicaLast with AIDescriptionQuotaUsed := 5, UpdatedAt := 50 }]
      [{ replicaLast with AIDescriptionQuotaUsed := 5, UpdatedAt := 51 }] [] 50 51 "id-7"
      replicaLast (by decide) (by decide) (by decide) (by decide) (by decide)).2.1,
    (use_quota_race_last_write_wins memoryUserService sampleLib [replicaLast]
      [{ replicaLast with AIDescriptionQuotaUsed := 5, UpdatedAt := 50 }]
      [{ replicaLast with AIDescriptionQuotaUsed := 5, UpdatedAt := 51 }] [] 50 51 "id-7"
      replicaLast (by decide) (by decide) (by decide) (by decide) (by decide)).2.2.1⟩

end userservice

namespace authservice

open domain persistence

/-! ### Tokens without a session record -/

end authservice

namespace auth

/-! ### The claims of the tokens of a session -/

/-- The pair that `GenerateTokenPair` returns, when it returns one. -/
theorem GenerateTokenPair_ok (s : TokenService) (lib : JWTCodec) (rnd : List Nat)
    (clock : TokenClock) (userID email : String) (pair : TokenPair)
    (h : s.GenerateTokenPair lib rnd clock userID email = .ok pair) :
    pair.AccessToken = tokenString lib s.secretKey
        (s.accessClaims clock.accessExp clock.accessIat userID email
          (hexEncodeToString (rnd.take 32))) ∧
    pair.RefreshToken = tokenString lib s.secretKey
        (s.refreshClaims clock.refreshExp clock.refreshIat userID email
          (hexEncodeToString (rnd.take 32))) := by
  obtain ⟨sid, hsid, hacc, href⟩ := GenerateTokenPair_inv s lib rnd clock userID email pair h
  have hs := generateSecureToken_inv rnd 32 sid hsid
  subst hs
  rw [generateAccessToken_eq] at hacc
  rw [generateRefreshToken_eq] at href
  exact ⟨(Except.ok.inj hacc).symm, (Except.ok.inj href).symm⟩

/-- The value of `ValidateRefreshToken` on a token that the parser reads back as signed over
`claims`. -/
theorem ValidateRefreshToken_of_readsBack (s : TokenService) (lib : JWTCodec) (P : JWTParser)
    (nowValid nowUntil : Time) (claims : Claims)
    (hread : P.ReadsBack lib s.secretKey claims) :
    (∃ errs, s.ValidateRefreshToken P nowValid nowUntil (tokenString lib s.secretKey claims) =
      .error (GoError.ValidationError errs)) ∨
    s.ValidateRefreshToken P nowValid nowUntil (tokenString lib s.secretKey claims) =
      .ok claims := by
  have hv := validateToken_of_parsed s P nowValid nowUntil _ "refresh" _ hread rfl
  unfold TokenService.ValidateRefreshToken
  have hne : ("refresh" == "access") = false := by decide
  simp only [hne, Bool.false_eq_true, if_false] at hv
  rw [hv]
  split_ifs <;> first | exact Or.inr rfl | exact Or.inl ⟨_, rfl⟩

end auth

namespace authservice

open domain

/-- C26: both tokens that `CreateSession` issues are signed over claim sets whose email is
empty and whose user ID and subject are the given user ID; `Login` calls it with the text of
the user's ID, so the tokens of a login carry no email whatever the email of the user is. A
pair that `RefreshSession` returns for such a refresh token (read back by the parser as it was
signed) is again signed over claim sets with that user ID and an empty email, and
`RefreshSession` does return a pair when the signature check accepts the token, the token is
within its dates and 32 random bytes are delivered. -/
theorem session_tokens_carry_no_email {σ : Type} (sm : auth.SessionManager σ)
    (jwt : auth.JWTCodec) (rnd : List Nat) (clock : auth.TokenClock) :
    (∀ (userID : String),
      (sm.tokenService.accessClaims clock.accessExp clock.accessIat userID ""
          (auth.hexEncodeToString (rnd.take 32))).Email = "" ∧
      (sm.tokenService.accessClaims clock.accessExp clock.accessIat userID ""
          (auth.hexEncodeToString (rnd.take 32))).UserID = userID ∧
      (sm.tokenService.accessClaims clock.accessExp clock.accessIat userID ""
          (auth.hexEncodeToString (rnd.take 32))).RegisteredClaims.Subject = userID ∧
      (sm.tokenService.refreshClaims clock.refreshExp clock.refreshIat userID ""
          (auth.hexEncodeToString (rnd.take 32))).Email = "" ∧
      (sm.tokenService.refreshClaims clock.refreshExp clock.refreshIat userID ""
          (auth.hexEncodeToString (rnd.take 32))).UserID = userID ∧
      (sm.tokenService.refreshClaims clock.refreshExp clock.refreshIat userID ""
          (auth.hexEncodeToString (rnd.take 32))).RegisteredClaims.Subject = userID) ∧
    (∀ (db : σ) (nowExpires nowCreated : Time) (userID userAgent ipAddress : String)
        (session : auth.Session) (pair : auth.TokenPair),
      (sm.CreateSession jwt db rnd clock nowExpires nowCreated userID userAgent
        ipAddress).2 = .ok (session, pair) →
      pair.AccessToken = auth.tokenString jwt sm.tokenService.secretKey
        (sm.tokenService.accessClaims clock.accessExp clock.accessIat userID ""
          (auth.hexEncodeToString (rnd.take 32))) ∧
      pair.RefreshToken = auth.tokenString jwt sm.tokenService.secretKey
        (sm.tokenService.refreshClaims clock.refreshExp clock.refreshIat userID ""
          (auth.hexEncodeToString (rnd.take 32)))) ∧
    (∀ (ρ β : Type) (userRepo : UserRepository ρ) (publisher : EventPublisher β)
        (ts : auth.TokenService) (lib : GoLib) (users : ρ) (sessions : σ)
        (nowExpires nowCreated : Time) (req : LoginRequest) (userAgent ipAddress : String)
        (resp : LoginResponse) (session : auth.Session),
      (AuthService.Login
        { userRepo := userRepo, sessionManager := sm, eventPublisher := publisher,
          tokenService := ts }
        lib jwt users sessions rnd clock nowExpires nowCreated req userAgent
        ipAddress).2 = .ok (resp, session) →
      userRepo.FindByEmail users req.Email = .ok resp.User ∧
      resp.TokenPair.AccessToken = auth.tokenString jwt sm.tokenService.secretKey
        (sm.tokenService.accessClaims clock.accessExp clock.accessIat
          (lib.uuidString resp.User.ID) "" (auth.hexEncodeToString (rnd.take 32))) ∧
      resp.TokenPair.RefreshToken = auth.tokenString jwt sm.tokenService.secretKey
        (sm.tokenService.refreshClaims clock.refreshExp clock.refreshIat
          (lib.uuidString resp.User.ID) "" (auth.hexEncodeToString (rnd.take 32)))) ∧
    (∀ (userID : String) (P : auth.JWTParser) (rnd2 : List Nat) (clock2 : auth.TokenClock)
        (nowValid nowUntil : Time),
      P.ReadsBack jwt sm.tokenService.secretKey
        (sm.tokenService.refreshClaims clock.refreshExp clock.refreshIat userID ""
          (auth.hexEncodeToString (rnd.take 32))) →
      (∀ pair2 : auth.TokenPair,
        sm.RefreshSession jwt P rnd2 clock2 nowValid nowUntil
          (auth.tokenString jwt sm.tokenService.secretKey
            (sm.tokenService.refreshClaims clock.refreshExp clock.refreshIat userID ""
              (auth.hexEncodeToString (rnd.take 32)))) = .ok pair2 →
        pair2.AccessToken = auth.tokenString jwt sm.tokenService.secretKey
          (sm.tokenService.accessClaims clock2.accessExp clock2.accessIat userID ""
            (auth.hexEncodeToString (rnd2.take 32))) ∧
        pair2.RefreshToken = auth.tokenString jwt sm.tokenService.secretKey
          (sm.tokenService.refreshClaims clock2.refreshExp clock2.refreshIat userID ""
            (auth.hexEncodeToString (rnd2.take 32)))) ∧
      (P.VerifiesOwn jwt sm.tokenService.secretKey
          (sm.tokenService.refreshClaims clock.refreshExp clock.refreshIat userID ""
            (auth.hexEncodeToString (rnd.take 32))) →
        auth.NewNumericDate clock.refreshIat ≤ nowValid →
        nowValid < auth.NewNumericDate (clock.refreshExp + sm.tokenService.refreshTokenExp) →
        32 ≤ rnd2.length →
        ∃ pair2, sm.RefreshSession jwt P rnd2 clock2 nowValid nowUntil
          (auth.tokenString jwt sm.tokenService.secretKey
            (sm.tokenService.refreshClaims clock.refreshExp clock.refreshIat userID ""
              (auth.hexEncodeToString (rnd.take 32)))) = .ok pair2)) := by
  refine ⟨fun userID => ⟨rfl, rfl, rfl, rfl, rfl, rfl⟩, ?_, ?_, ?_⟩
  · intro db nowExpires nowCreated userID userAgent ipAddress session pair h
    obtain ⟨hp, _, _⟩ := auth.CreateSession_inv sm jwt db rnd clock nowExpires nowCreated
      userID userAgent ipAddress session pair h
    exact auth.GenerateTokenPair_ok _ jwt rnd clock userID "" pair hp
  · intro ρ β userRepo publisher ts lib users sessions nowExpires nowCreated req userAgent
      ipAddress resp session h
    unfold AuthService.Login at h
    dsimp only at h
    split at h
    · cases h
    · rename_i user hfind
      split at h
      · cases h
      · split at h
        · cases h
        · rename_i sessions1 session1 tokenPair hcreate
          simp only [Except.ok.injEq, Prod.mk.injEq] at h
          obtain ⟨hresp, hsess⟩ := h
          subst hresp
          subst hsess
          have hc2 : (sm.CreateSession jwt sessions rnd clock nowExpires nowCreated
              (lib.uuidString user.ID) userAgent ipAddress).2 = .ok (session1, tokenPair) := by
            rw [hcreate]
          obtain ⟨hp, _, _⟩ := auth.CreateSession_inv sm jwt sessions rnd clock nowExpires
            nowCreated (lib.uuidString user.ID) userAgent ipAddress session1 tokenPair hc2
          exact ⟨hfind, auth.GenerateTokenPair_ok _ jwt rnd clock _ "" tokenPair hp⟩
  · intro userID P rnd2 clock2 nowValid nowUntil hread
    constructor
    · intro pair2 h
      unfold auth.SessionManager.RefreshSession at h
      rcases auth.ValidateRefreshToken_of_readsBack sm.tokenService jwt P nowValid nowUntil _
        hread with ⟨errs, he⟩ | hok
      · rw [he] at h
        cases h
      · rw [hok] at h
        exact auth.GenerateTokenPair_ok _ jwt rnd2 clock2 userID "" pair2 h
    · intro hown hiat hexp hrnd
      have hv := auth.validateToken_of_parsed sm.tokenService P nowValid nowUntil _ "refresh"
        _ hread rfl
      have he := auth.validationErrors_of_dates
        (sm.tokenService.refreshClaims clock.refreshExp clock.refreshIat userID ""
          (auth.hexEncodeToString (rnd.take 32))).RegisteredClaims nowValid _ _ rfl rfl rfl
      unfold auth.JWTParser.VerifiesOwn at hown
      simp only [auth.readBack, hown, he, if_pos hexp, if_pos hiat, if_true] at hv
      rw [if_pos (by decide), if_neg (by decide)] at hv
      have hg := auth.GenerateTokenPair_eq sm.tokenService jwt rnd2 clock2 userID "" hrnd
      refine Exists.intro _ (Eq.trans ?_ hg)
      unfold auth.SessionManager.RefreshSession auth.TokenService.ValidateRefreshToken
      rw [hv]
      rfl

/-- Witness of C26: on the in-memory repositories the sample login issues tokens for user
`id-7`, and the refresh of its refresh token at instant 5 returns a pair. -/
theorem session_tokens_carry_no_email_witness :
    (sampleLogin.2 = .ok (sampleLoginResponse, sampleLoginSession) ∧
      sampleLoginResponse.User.Email = "a@example.com" ∧
      sampleLoginResponse.TokenPair.RefreshToken =
        auth.tokenString auth.datedCodec "k" auth.loginRefreshClaims) ∧
    auth.loginRefreshClaims.Email = "" ∧
    ∃ pair2, auth.memoryManager.RefreshSession auth.datedCodec auth.loginParser
      auth.sampleRnd auth.sampleClock 5 6
      (auth.tokenString auth.datedCodec "k" auth.loginRefreshClaims) = .ok pair2 :=
  ⟨⟨by decide, rfl,
      ((session_tokens_carry_no_email auth.memoryManager auth.datedCodec auth.sampleRnd
        auth.sampleClock).2.2.1 UsersTable (List (String × events.Event))
        memoryUserRepository sampleAuthService.eventPublisher
        auth.sampleTokenService sampleLib [sampleRegistered] [] 1004 1005
        sampleLoginRequest "ua" "ip" sampleLoginResponse sampleLoginSession
        (by decide)).2.2⟩,
    rfl,
    ((session_tokens_carry_no_email auth.memoryManager auth.datedCodec auth.sampleRnd
      auth.sampleClock).2.2.2 "id-7" auth.loginParser auth.sampleRnd auth.sampleClock 5 6
      (by decide)).2 (by decide) (by decide) (by decide) (by decide)⟩

/-- C28: `Login` returns the same value when no user has the given email as when the user
exists and the password does not verify: the error `ErrUserNotFound`, no response and no
tokens, next to the unchanged session store. -/
theorem login_failures_indistinguishable {ρ σ β : Type} (s : AuthService ρ σ β) (lib : GoLib)
    (jwt : auth.JWTCodec) (sessions : σ) (rnd : List Nat) (clock : auth.TokenClock)
    (nowExpires nowCreated : Time) (userAgent ipAddress : String)
    (db1 db2 : ρ) (req1 req2 : LoginRequest) (err : GoError) (user : User)
    (habsent : s.userRepo.FindByEmail db1 req1.Email = .error err)
    (hfound : s.userRepo.FindByEmail db2 req2.Email = .ok user)
    (hwrong : auth.VerifyPassword lib req2.Password user.PasswordHash = false) :
    s.Login lib jwt db1 sessions rnd clock nowExpires nowCreated req1 userAgent ipAddress =
      (sessions, .error GoError.ErrUserNotFound) ∧
    s.Login lib jwt db2 sessions rnd clock nowExpires nowCreated req2 userAgent ipAddress =
      (sessions, .error GoError.ErrUserNotFound) ∧
    s.Login lib jwt db1 sessions rnd clock nowExpires nowCreated req1 userAgent ipAddress =
      s.Login lib jwt db2 sessions rnd clock nowExpires nowCreated req2 userAgent ipAddress := by
  have h1 : s.Login lib jwt db1 sessions rnd clock nowExpires nowCreated req1 userAgent
      ipAddress = (sessions, .error GoError.ErrUserNotFound) := by
    simp only [AuthService.Login, habsent]
  have h2 : s.Login lib jwt db2 sessions rnd clock nowExpires nowCreated req2 userAgent
      ipAddress = (sessions, .error GoError.ErrUserNotFound) := by
    simp only [AuthService.Login, hfound, hwrong, Bool.not_false, if_true]
  exact ⟨h1, h2, h1.trans h2.symm⟩

/-- Witness of C28: on the in-memory repositories, with the user `sampleRegistered` stored, a
login with an unregistered email and a login of the registered email with a wrong
password. -/
theorem login_failures_indistinguishable_witness :
    memoryAuthService.Login sampleLib auth.datedCodec [sampleRegistered] [auth.sessionA]
        auth.sampleRnd auth.sampleClock 1004 1005
        { Email := "nobody@example.com", Password := "Abcdef1!" } "ua" "ip" =
      memoryAuthService.Login sampleLib auth.datedCodec [sampleRegistered] [auth.sessionA]
        auth.sampleRnd auth.sampleClock 1004 1005
        { Email := "a@example.com", Password := "wrong" } "ua" "ip" :=
  (login_failures_indistinguishable memoryAuthService sampleLib auth.datedCodec
    [auth.sessionA] auth.sampleRnd auth.sampleClock 1004 1005 "ua" "ip"
    [sampleRegistered] [sampleRegistered]
    { Email := "nobody@example.com", Password := "Abcdef1!" }
    { Email := "a@example.com", Password := "wrong" }
    GoError.ErrUserNotFound sampleRegistered (by decide) (by decide) (by decide)).2.2

end authservice

namespace auth

/-! ### Password strength -/

/-- The flags after one round of the loop of `PasswordStrengthCheck`. -/
theorem strengthStep_flags (f : StrengthFlags) (c : Char) :
    (strengthStep f c).hasUpper = (f.hasUpper || decide (65 ≤ c.toNat ∧ c.toNat ≤ 90)) ∧
    (strengthStep f c).hasLower = (f.hasLower || decide (97 ≤ c.toNat ∧ c.toNat ≤ 122)) ∧
    (strengthStep f c).hasNumber = (f.hasNumber || decide (48 ≤ c.toNat ∧ c.toNat ≤ 57)) ∧
    (strengthStep f c).hasSpecial =
      (f.hasSpecial || decide (33 ≤ c.toNat ∧ c.toNat ≤ 126 ∧ ¬ (65 ≤ c.toNat ∧ c.toNat ≤ 90) ∧
        ¬ (97 ≤ c.toNat ∧ c.toNat ≤ 122) ∧ ¬ (48 ≤ c.toNat ∧ c.toNat ≤ 57))) := by
  have hA : 'A'.toNat = 65 := rfl
  have hZ : 'Z'.toNat = 90 := rfl
  have ha : 'a'.toNat = 97 := rfl
  have hz : 'z'.toNat = 122 := rfl
  have h0 : '0'.toNat = 48 := rfl
  have h9 : '9'.toNat = 57 := rfl
  unfold strengthStep
  rw [hA, hZ, ha, hz, h0, h9]
  generalize c.toNat = n
  by_cases h1 : 65 ≤ n ∧ n ≤ 90
  · rw [if_pos h1]
    have e2 : ¬ (97 ≤ n ∧ n ≤ 122) := by omega
    have e3 : ¬ (48 ≤ n ∧ n ≤ 57) := by omega
    simp [h1, e2, e3]
  · rw [if_neg h1]
    by_cases h2 : 97 ≤ n ∧ n ≤ 122
    · rw [if_pos h2]
      have e3 : ¬ (48 ≤ n ∧ n ≤ 57) := by omega
      simp [h1, h2, e3]
    · rw [if_neg h2]
      by_cases h3 : 48 ≤ n ∧ n ≤ 57
      · rw [if_pos h3]
        simp [h1, h2, h3]
      · rw [if_neg h3]
        by_cases h4 : 33 ≤ n ∧ n ≤ 126
        · rw [if_pos h4]
          have e4 : 33 ≤ n ∧ n ≤ 126 ∧ ¬ (65 ≤ n ∧ n ≤ 90) ∧ ¬ (97 ≤ n ∧ n ≤ 122) ∧
              ¬ (48 ≤ n ∧ n ≤ 57) := ⟨h4.1, h4.2, h1, h2, h3⟩
          refine ⟨by simp [h1], by simp [h2], by simp [h3], ?_⟩
          rw [decide_eq_true e4, Bool.or_true]
        · rw [if_neg h4]
          have e4 : ¬ (33 ≤ n ∧ n ≤ 126 ∧ ¬ (65 ≤ n ∧ n ≤ 90) ∧ ¬ (97 ≤ n ∧ n ≤ 122) ∧
              ¬ (48 ≤ n ∧ n ≤ 57)) := fun h => h4 ⟨h.1, h.2.1⟩
          refine ⟨by simp [h1], by simp [h2], by simp [h3], ?_⟩
          rw [decide_eq_false e4, Bool.or_false]

/-- The flags after the loop of `PasswordStrengthCheck` over the characters `l`. -/
theorem foldl_strengthStep_flags (l : List Char) (f : StrengthFlags) :
    (l.foldl strengthStep f).hasUpper =
      (f.hasUpper || l.any (fun c => decide (65 ≤ c.toNat ∧ c.toNat ≤ 90))) ∧
    (l.foldl strengthStep f).hasLower =
      (f.hasLower || l.any (fun c => decide (97 ≤ c.toNat ∧ c.toNat ≤ 122))) ∧
    (l.foldl strengthStep f).hasNumber =
      (f.hasNumber || l.any (fun c => decide (48 ≤ c.toNat ∧ c.toNat ≤ 57))) ∧
    (l.foldl strengthStep f).hasSpecial =
      (f.hasSpecial || l.any (fun c => decide (33 ≤ c.toNat ∧ c.toNat ≤ 126 ∧
        ¬ (65 ≤ c.toNat ∧ c.toNat ≤ 90) ∧ ¬ (97 ≤ c.toNat ∧ c.toNat ≤ 122) ∧
        ¬ (48 ≤ c.toNat ∧ c.toNat ≤ 57)))) := by
  induction l generalizing f with
  | nil => simp
  | cons c cs ih =>
    obtain ⟨s1, s2, s3, s4⟩ := strengthStep_flags f c
    obtain ⟨i1, i2, i3, i4⟩ := ih (strengthStep f c)
    simp only [List.foldl_cons, List.any_cons]
    rw [i1, i2, i3, i4, s1, s2, s3, s4]
    simp only [Bool.or_assoc, and_self]

/-- C27: `PasswordStrengthCheck` returns no error exactly when the password has at least 8
bytes and has a character in `A..Z`, one in `a..z`, one in `0..9` and one with code point in
33..126 that is none of these; a password of fewer than 8 bytes gets the length error whatever
its characters are; a space or a character outside ASCII leaves every flag of the loop as it
is. -/
theorem password_strength_check_iff (password : String) :
    (PasswordStrengthCheck password = none ↔
      8 ≤ password.utf8ByteSize ∧
      (∃ c ∈ password.toList, 65 ≤ c.toNat ∧ c.toNat ≤ 90) ∧
      (∃ c ∈ password.toList, 97 ≤ c.toNat ∧ c.toNat ≤ 122) ∧
      (∃ c ∈ password.toList, 48 ≤ c.toNat ∧ c.toNat ≤ 57) ∧
      (∃ c ∈ password.toList, 33 ≤ c.toNat ∧ c.toNat ≤ 126 ∧
        ¬ (65 ≤ c.toNat ∧ c.toNat ≤ 90) ∧ ¬ (97 ≤ c.toNat ∧ c.toNat ≤ 122) ∧
        ¬ (48 ≤ c.toNat ∧ c.toNat ≤ 57))) ∧
    (password.utf8ByteSize < 8 →
      PasswordStrengthCheck password =
        some (GoError.New "password must be at least 8 characters long")) ∧
    (∀ (f : StrengthFlags) (c : Char), (c = ' ' ∨ 128 ≤ c.toNat) → strengthStep f c = f) := by
  refine ⟨?_, ?_, ?_⟩
  · obtain ⟨i1, i2, i3, i4⟩ := foldl_strengthStep_flags password.toList
      { hasUpper := false, hasLower := false, hasNumber := false, hasSpecial := false }
    unfold PasswordStrengthCheck
    by_cases hlen : password.utf8ByteSize < 8
    · rw [if_pos hlen]
      constructor
      · intro h; cases h
      · intro h; omega
    · rw [if_neg hlen]
      dsimp only
      rw [i1, i2, i3, i4]
      simp only [Bool.false_or]
      constructor
      · intro h
        split_ifs at h with hc
        simp only [Bool.or_eq_true, Bool.not_eq_true', not_or, Bool.not_eq_false,
          List.any_eq_true, decide_eq_true_eq] at hc
        exact ⟨by omega, hc.1.1.1, hc.1.1.2, hc.1.2, hc.2⟩
      · rintro ⟨_, hu, hl, hn, hs⟩
        rw [if_neg]
        simp only [Bool.or_eq_true, Bool.not_eq_true', not_or, Bool.not_eq_false,
          List.any_eq_true, decide_eq_true_eq]
        exact ⟨⟨⟨hu, hl⟩, hn⟩, hs⟩
  · intro hlen
    unfold PasswordStrengthCheck
    rw [if_pos hlen]
  · intro f c hc
    have hA : 'A'.toNat = 65 := rfl
    have hZ : 'Z'.toNat = 90 := rfl
    have ha : 'a'.toNat = 97 := rfl
    have hz : 'z'.toNat = 122 := rfl
    have h0 : '0'.toNat = 48 := rfl
    have h9 : '9'.toNat = 57 := rfl
    have hn : c.toNat = 32 ∨ 128 ≤ c.toNat := by
      rcases hc with hc | hc
      · left; rw [hc]; rfl
      · right; exact hc
    unfold strengthStep
    rw [hA, hZ, ha, hz, h0, h9]
    rw [if_neg (by omega), if_neg (by omega), if_neg (by omega), if_neg (by omega)]

/-- Witness of C27: `Ab1!xyz` has all four classes in 7 bytes and gets the length error;
`Abcdef1!` passes; with a space in place of `!` it does not. -/
theorem password_strength_check_iff_witness :
    PasswordStrengthCheck "Ab1!xyz" =
        some (GoError.New "password must be at least 8 characters long") ∧
    PasswordStrengthCheck "Abcdef1!" = none ∧
    PasswordStrengthCheck "Abcdef1 " ≠ none :=
  ⟨(password_strength_check_iff "Ab1!xyz").2.1 (by decide),
    by decide, by decide⟩

end auth

namespace userservice

open domain

/-! ### The payload of `user.quota.updated` -/

theorem UseAIDescriptionQuota_ID (u used : User) (now : Time)
    (h : u.UseAIDescriptionQuota now = (used, none)) : used.ID = u.ID := by
  unfold User.UseAIDescriptionQuota at h
  split at h
  · cases h
  · cases h; rfl

/-- C29: `PublishUserQuotaUpdated` returns the same for any two `quotas` arguments (with the
same user ID and the same readings of the event ID and the clock). On a recording channel the
event that it publishes is the `user.quota.updated` event whose data is the encoding of the
payload with used 0 and limit 0 for all three quota kinds, whatever `quotas` is. So the
channel after a successful `UseAIDescriptionQuota` is the same for two stored users with the
same ID, whatever their quota numbers are. -/
theorem quota_updated_event_ignores_quotas (lib : GoLib) (eventID : String)
    (nowData now : Time) (userID : String) :
    (∀ (β : Type) (u : events.UniversalEventPublisher β) (bus : β) (q1 q2 : GoValue),
      u.PublishUserQuotaUpdated lib bus eventID nowData now userID q1 =
        u.PublishUserQuotaUpdated lib bus eventID nowData now userID q2) ∧
    (∀ (quotas : GoValue) (log : List (String × events.Event)),
      (events.NewUniversalEventPublisher events.recordingBus).PublishUserQuotaUpdated lib log
          eventID nowData now userID quotas =
        match lib.jsonMarshal (.userQuotaUpdated
          { UserID := userID
            Quotas :=
              { AIDescription := { Used := 0, Limit := 0 }
                AIVideo := { Used := 0, Limit := 0 }
                AutoPosting := { Used := 0, Limit := 0 } }
            UpdatedAt := lib.timeFormat nowData }) with
        | .error err => (log, some err)
        | .ok data =>
          (log ++ [("user-events",
            { ID := eventID, Type_ := "user.quota.updated", Source := "user-service",
              Version := "1.0", Timestamp := now, Data := data })], none)) ∧
    (∀ (ρ β : Type) (repo : UserRepository ρ) (u : events.UniversalEventPublisher β)
        (db db2 db1 db3 : ρ) (bus : β) (now1 : Time) (req : UseAIDescriptionQuotaRequest)
        (found found2 used used2 : User),
      repo.FindByID db req.UserID = .ok found →
      repo.FindByID db2 req.UserID = .ok found2 →
      found2.ID = found.ID →
      found.UseAIDescriptionQuota now1 = (used, none) →
      found2.UseAIDescriptionQuota now1 = (used2, none) →
      repo.Update db used = (db1, none) →
      repo.Update db2 used2 = (db3, none) →
      ((NewUserService repo (universalPublisher u lib eventID nowData now)).UseAIDescriptionQuota
          lib db bus now1 req).2.1 =
        ((NewUserService repo (universalPublisher u lib eventID nowData
          now)).UseAIDescriptionQuota lib db2 bus now1 req).2.1) := by
  refine ⟨fun β u bus q1 q2 => rfl, ?_, ?_⟩
  · intro quotas log
    unfold events.UniversalEventPublisher.PublishUserQuotaUpdated events.NewEvent
    cases lib.jsonMarshal (.userQuotaUpdated
          { UserID := userID
            Quotas :=
              { AIDescription := { Used := 0, Limit := 0 }
                AIVideo := { Used := 0, Limit := 0 }
                AutoPosting := { Used := 0, Limit := 0 } }
            UpdatedAt := lib.timeFormat nowData }) with
    | error err => rfl
    | ok data => rfl
  · intro ρ β repo u db db2 db1 db3 bus now1 req found found2 used used2 hf hf2 hid hu hu2
      hup hup2
    have h1 := UseAIDescriptionQuota_ID found used now1 hu
    have h2 := UseAIDescriptionQuota_ID found2 used2 now1 hu2
    simp only [UserService.UseAIDescriptionQuota, UserService.useAIDescriptionQuotaAfterFind,
      NewUserService, hf, hf2, hu, hu2, hup, hup2, universalPublisher, h1, h2, hid]
    rfl

/-- Witness of C29: the sample service on the in-memory repository publishes the same for
user 7 with 3 of 5 and with 4 of 5 descriptions used. -/
theorem quota_updated_event_ignores_quotas_witness :
    (memoryUserService.UseAIDescriptionQuota sampleLib [replica7] [] 50
        { UserID := "id-7" }).2.1 =
      (memoryUserService.UseAIDescriptionQuota sampleLib [replicaLast] [] 50
        { UserID := "id-7" }).2.1 ∧
    (memoryUserService.UseAIDescriptionQuota sampleLib [replica7] [] 50
        { UserID := "id-7" }).2.1 =
      [("user-events",
        { ID := "event-2", Type_ := "user.quota.updated", Source := "user-service",
          Version := "1.0", Timestamp := 4001, Data := "quota:id-7" })] :=
  ⟨(quota_updated_event_ignores_quotas sampleLib "event-2" 4000 4001 "id-7").2.2
      UsersTable (List (String × events.Event))
      memoryUserRepository
      (events.NewUniversalEventPublisher events.recordingBus)
      [replica7] [replicaLast] _ _ [] 50 { UserID := "id-7" } replica7 replicaLast _ _
      (by decide) (by decide) (by decide) rfl rfl rfl rfl,
    by decide⟩

end userservice

namespace userservice

open domain

/-! ### The error paths of the `Use...Quota` operations -/

/-- C30: each of `UseAIDescriptionQuota`, `UseAIVideoQuota` and `UseAutoPostingQuota`, on any
repository and any publisher: when `FindByID` fails it returns that error, with the store and
the channel as they were; when the found user's quota of that kind is exhausted
(`limit ≤ used`) it returns `ErrQuotaExceeded`, with the store as it was (no `Update`) and
the channel as it was (no event); when the quota is not exhausted and `Update` fails it
returns that error, with the store as `Update` left it and the channel as it was. -/
theorem use_quota_error_paths {ρ β : Type} (s : UserService ρ β) (lib : GoLib) (db : ρ)
    (bus : β) (now : Time) (id : String) :
    ((∀ err, s.userRepo.FindByID db id = .error err →
        s.UseAIDescriptionQuota lib db bus now { UserID := id } = (db, bus, some err)) ∧
      (∀ found, s.userRepo.FindByID db id = .ok found →
        found.AIDescriptionQuotaLimit ≤ found.AIDescriptionQuotaUsed →
        s.UseAIDescriptionQuota lib db bus now { UserID := id } =
          (db, bus, some GoError.ErrQuotaExceeded)) ∧
      (∀ found db1 err, s.userRepo.FindByID db id = .ok found →
        found.AIDescriptionQuotaUsed < found.AIDescriptionQuotaLimit →
        s.userRepo.Update db (found.UseAIDescriptionQuota now).1 = (db1, some err) →
        s.UseAIDescriptionQuota lib db bus now { UserID := id } = (db1, bus, some err))) ∧
    ((∀ err, s.userRepo.FindByID db id = .error err →
        s.UseAIVideoQuota lib db bus now { UserID := id } = (db, bus, some err)) ∧
      (∀ found, s.userRepo.FindByID db id = .ok found →
        found.AIVideoQuotaLimit ≤ found.AIVideoQuotaUsed →
        s.UseAIVideoQuota lib db bus now { UserID := id } =
          (db, bus, some GoError.ErrQuotaExceeded)) ∧
      (∀ found db1 err, s.userRepo.FindByID db id = .ok found →
        found.AIVideoQuotaUsed < found.AIVideoQuotaLimit →
        s.userRepo.Update db (found.UseAIVideoQuota now).1 = (db1, some err) →
        s.UseAIVideoQuota lib db bus now { UserID := id } = (db1, bus, some err))) ∧
    ((∀ err, s.userRepo.FindByID db id = .error err →
        s.UseAutoPostingQuota lib db bus now { UserID := id } = (db, bus, some err)) ∧
      (∀ found, s.userRepo.FindByID db id = .ok found →
        found.AutoPostingQuotaLimit ≤ found.AutoPostingQuotaUsed →
        s.UseAutoPostingQuota lib db bus now { UserID := id } =
          (db, bus, some GoError.ErrQuotaExceeded)) ∧
      (∀ found db1 err, s.userRepo.FindByID db id = .ok found →
        found.AutoPostingQuotaUsed < found.AutoPostingQuotaLimit →
        s.userRepo.Update db (found.UseAutoPostingQuota now).1 = (db1, some err) →
        s.UseAutoPostingQuota lib db bus now { UserID := id } = (db1, bus, some err))) := by
  refine ⟨⟨?_, ?_, ?_⟩, ⟨?_, ?_, ?_⟩, ⟨?_, ?_, ?_⟩⟩
  · intro err hf
    simp only [UserService.UseAIDescriptionQuota, UserService.useAIDescriptionQuotaAfterFind,
      hf]
  · intro found hf hex
    have hn : ¬ found.AIDescriptionQuotaUsed < found.AIDescriptionQuotaLimit := not_lt.mpr hex
    simp [UserService.UseAIDescriptionQuota, UserService.useAIDescriptionQuotaAfterFind,
      hf, User.UseAIDescriptionQuota, User.CanGenerateAIDescription, hn]
  · intro found db1 err hf hlt hup
    simp only [User.UseAIDescriptionQuota, User.CanGenerateAIDescription, hlt, decide_True,
      Bool.not_true, Bool.false_eq_true, if_false] at hup
    simp only [UserService.UseAIDescriptionQuota, UserService.useAIDescriptionQuotaAfterFind,
      hf, User.UseAIDescriptionQuota, User.CanGenerateAIDescription, hlt, decide_True,
      Bool.not_true, Bool.false_eq_true, if_false, hup]
  · intro err hf
    simp only [UserService.UseAIVideoQuota, hf]
  · intro found hf hex
    have hn : ¬ found.AIVideoQuotaUsed < found.AIVideoQuotaLimit := not_lt.mpr hex
    simp [UserService.UseAIVideoQuota, hf, User.UseAIVideoQuota, User.CanGenerateAIVideo, hn]
  · intro found db1 err hf hlt hup
    simp only [User.UseAIVideoQuota, User.CanGenerateAIVideo, hlt, decide_True,
      Bool.not_true, Bool.false_eq_true, if_false] at hup
    simp only [UserService.UseAIVideoQuota, hf, User.UseAIVideoQuota,
      User.CanGenerateAIVideo, hlt, decide_True, Bool.not_true, Bool.false_eq_true, if_false,
      hup]
  · intro err hf
    simp only [UserService.UseAutoPostingQuota, hf]
  · intro found hf hex
    have hn : ¬ found.AutoPostingQuotaUsed < found.AutoPostingQuotaLimit := not_lt.mpr hex
    simp [UserService.UseAutoPostingQuota, hf, User.UseAutoPostingQuota, User.CanAutoPost, hn]
  · intro found db1 err hf hlt hup
    simp only [User.UseAutoPostingQuota, User.CanAutoPost, hlt, decide_True,
      Bool.not_true, Bool.false_eq_true, if_false] at hup
    simp only [UserService.UseAutoPostingQuota, hf, User.UseAutoPostingQuota,
      User.CanAutoPost, hlt, decide_True, Bool.not_true, Bool.false_eq_true, if_false, hup]

/-- Witness of C30: on the in-memory repository with the table that holds `replica7` (no
video quota), a video use of user 7 is refused, a description use of the absent user 9 fails
in `FindByID`, and on the read-only repository a description use of user 7 fails in
`Update`; the channel stays empty each time. -/
theorem use_quota_error_paths_witness :
    memoryUserService.UseAIVideoQuota sampleLib [replica7] [] 50 { UserID := "id-7" } =
      ([replica7], [], some GoError.ErrQuotaExceeded) ∧
    memoryUserService.UseAIDescriptionQuota sampleLib [replica7] [] 50 { UserID := "id-9" } =
      ([replica7], [], some GoError.ErrUserNotFound) ∧
    readOnlyUserService.UseAIDescriptionQuota sampleLib [replica7] [] 50 { UserID := "id-7" } =
      ([replica7], [],
        some (GoError.New "pq: cannot execute UPDATE in a read-only transaction")) :=
  ⟨(use_quota_error_paths memoryUserService sampleLib [replica7] [] 50 "id-7").2.1.2.1
      replica7 (by decide) (by decide),
    (use_quota_error_paths memoryUserService sampleLib [replica7] [] 50 "id-9").1.1
      GoError.ErrUserNotFound (by decide),
    (use_quota_error_paths readOnlyUserService sampleLib [replica7] [] 50 "id-7").1.2.2
      replica7 [replica7] _ (by decide) (by decide) rfl⟩

end userservice
